import Mathlib

/-!
# mcp-pprof: protocol engine, tool registry and transports

A shallow embedding of `pkg/protocol/types.go`, `internal/mcp/server.go`,
`internal/mcp/handlers.go`, `internal/mcp/transport.go` and
`internal/pprof/wrapper.go`.

Conventions of the embedding.

* A Go `string` is a byte sequence.  It is embedded as a `String` whose
  characters stand for the bytes, so that `len s` is `s.length` and `s[:n]`
  is `s.take n`.
* A Go `float64` is embedded as `F64`: the finite values by their exact
  rational value, plus the two infinities and NaN.
* A value of type `any` that came out of `encoding/json` is a `JVal`; the
  `nil` interface is `JVal.null`.
* A Go `map[string]T` is an association list with pairwise distinct keys,
  updated by `GoMap.set`.  Go iterates a map in an unspecified order; the
  embedding iterates in list order, and every statement about an iteration
  is phrased up to order.
* A Go call that returns `(T, error)` is embedded with result type `Ret T`,
  whose third alternative is a run-time panic.
* The external profiler, the file system, `strconv.ParseFloat` and the
  `float64` product are parameters, collected in `Platform`.
* Logging is not embedded.
-/

namespace McpPprof

/-! ## Go values -/

/-- A `float64`: NaN, the infinities, or a finite value given exactly. -/
inductive F64 where
  | nan
  | posInf
  | negInf
  | fin (q : Rat)
deriving DecidableEq

namespace F64

/-- The Go comparison `a > b` on `float64`. -/
def gt : F64 → F64 → Bool
  | nan, _ => false
  | _, nan => false
  | posInf, posInf => false
  | posInf, _ => true
  | _, posInf => false
  | negInf, _ => false
  | fin _, negInf => true
  | fin a, fin b => decide (b < a)

/-- The Go comparison `a >= b` on `float64`. -/
def ge : F64 → F64 → Bool
  | nan, _ => false
  | _, nan => false
  | posInf, _ => true
  | fin _, posInf => false
  | negInf, posInf => false
  | negInf, negInf => true
  | negInf, fin _ => false
  | fin _, negInf => true
  | fin a, fin b => decide (b ≤ a)

/-- The smallest `int` of a 64-bit platform. -/
def minInt64 : Int := -(2 ^ 63)

/-- The Go conversion `int(f)`: truncation toward zero.  For a value that
does not fit an `int` the result is implementation-specific in Go; the
value the amd64 compiler produces is used. -/
def toInt : F64 → Int
  | fin q =>
    let t := Int.tdiv q.num q.den
    if minInt64 ≤ t ∧ t < 2 ^ 63 then t else minInt64
  | _ => minInt64

/-- The `float64` of an integer constant. -/
def ofInt (n : Int) : F64 := fin n

end F64

/-- A dynamically typed value as `encoding/json` stores it in an `any`:
`nil`, `bool`, `float64`, `string`, `[]any` or `map[string]any`. -/
inductive JVal where
  | null
  | bool (b : Bool)
  | num (x : F64)
  | str (s : String)
  | arr (xs : List JVal)
  | obj (kvs : List (String × JVal))

/-- The comparison `v == nil` of an `any`. -/
def JVal.isNil : JVal → Bool
  | JVal.null => true
  | _ => false

/-- A Go map with string keys. -/
abbrev GoMap (α : Type) := List (String × α)

namespace GoMap

/-- The assignment `m[k] = v`: replaces the entry of `k`, or adds one. -/
def set {α : Type} : GoMap α → String → α → GoMap α
  | [], k, v => [(k, v)]
  | (k', v') :: m, k, v => if k' = k then (k, v) :: m else (k', v') :: set m k v

/-- The lookup `v, ok := m[k]`. -/
def get? {α : Type} : GoMap α → String → Option α
  | [], _ => none
  | (k', v') :: m, k => if k' = k then some v' else get? m k

/-- The values of the map, as a `for _, v := range m` loop visits them. -/
def values {α : Type} (m : GoMap α) : List α := m.map Prod.snd

/-- The keys of the map. -/
def keys {α : Type} (m : GoMap α) : List String := m.map Prod.fst

end GoMap

/-- The type `map[string]any` of tool arguments.  A nil map reads like the
empty map and is embedded as `[]`. -/
abbrev Args := GoMap JVal

/-- The index expression `args[k]` of type `any`: `nil` when `k` is absent. -/
def Args.index (args : Args) (k : String) : JVal := (GoMap.get? args k).getD JVal.null

/-- The type assertion `s, ok := v.(string)`. -/
def assertString : JVal → String × Bool
  | JVal.str s => (s, true)
  | _ => ("", false)

/-- The type assertion `x, ok := v.(float64)`. -/
def assertFloat64 : JVal → F64 × Bool
  | JVal.num x => (x, true)
  | _ => (F64.fin 0, false)

/-- Result of a Go call returning `(T, error)`: a value with a nil error, an
error (embedded by its message), or a run-time panic. -/
inductive Ret (α : Type) where
  | ok (v : α)
  | error (msg : String)
  | panic

/-! ## `pkg/protocol/types.go` -/

/-- The type `ErrorCode`. -/
abbrev ErrorCode := Int

/-- Invalid JSON was received. -/
def ParseInvalidRequest : ErrorCode := -32700
/-- The JSON sent is not a valid request object. -/
def InvalidRequest : ErrorCode := -32600
/-- The method does not exist. -/
def MethodNotFound : ErrorCode := -32601
/-- Invalid method parameters. -/
def InvalidParams : ErrorCode := -32602
/-- Internal JSON-RPC error. -/
def InternalError : ErrorCode := -32603

/-- The struct `JSONRPCError`. -/
structure JSONRPCError where
  Code : ErrorCode
  Message : String
  Data : JVal := JVal.null

/-- The struct `JSONRPCRequest`.  `ID` is an `any`: `JVal.null` is the nil
interface, which is what an absent or `null` id decodes to.  `Params` is a
`json.RawMessage`: `none` is the empty message of a request without
`params` (and any bytes that are not a JSON text, which `json.Unmarshal`
rejects in the same way); `some v` is the JSON text of `v`. -/
structure JSONRPCRequest where
  JSONRPC : String
  ID : JVal
  Method : String
  Params : Option JVal

/-- The struct `ImplementationInfo`. -/
structure ImplementationInfo where
  Name : String
  Version : String

/-- The struct `ServerCapabilities`, by its boolean leaves. -/
structure ServerCapabilities where
  ResourcesSubscribe : Bool := false
  ResourcesListChanged : Bool := false
  ToolsListChanged : Bool := false
  PromptsListChanged : Bool := false

/-- The struct `InitializeResult`. -/
structure InitializeResult where
  ProtocolVersion : String
  Capabilities : ServerCapabilities
  ServerInfo : ImplementationInfo
  Metadata : Option (GoMap JVal) := none

/-- The struct `Tool`. -/
structure Tool where
  Name : String
  Description : String
  InputSchema : GoMap JVal

/-- The struct `ContentBlock`. -/
structure ContentBlock where
  Type_ : String
  Text : String

/-- The struct `ToolCallResult`. -/
structure ToolCallResult where
  Content : List ContentBlock
  IsError : Bool := false
  Metadata : Option (GoMap JVal) := none

/-- The struct `Resource`. -/
structure Resource where
  URI : String
  Name : String
  Description : String
  MimeType : String
  Metadata : Option (GoMap JVal) := none

/-- The struct `ListToolsResult`. -/
structure ListToolsResult where
  Tools : List Tool

/-- The struct `ListResourcesResult`; `ResourceTemplates` is never set. -/
structure ListResourcesResult where
  Resources : List Resource

/-- The non-nil values stored in the `Result any` field of a response.  A
tool result is a pointer `*ToolCallResult`, which may be a nil pointer
inside a non-nil interface. -/
inductive ResultVal where
  | initializeResult (r : InitializeResult)
  | listTools (r : ListToolsResult)
  | listResources (r : ListResourcesResult)
  | toolCall (r : Option ToolCallResult)

/-- The struct `JSONRPCResponse`.  `Result` is an `any` (`none` is the nil
interface) and `Error` a pointer (`none` is nil). -/
structure JSONRPCResponse where
  JSONRPC : String
  ID : JVal
  Result : Option ResultVal := none
  Error : Option JSONRPCError := none

/-! ## `encoding/json` decoding of the two parameter structs -/

/-- Folding of one byte of an object key, as `encoding/json` folds ASCII
letters when it matches a key against a struct field. -/
def foldByte (c : Char) : Char :=
  if 'A'.toNat ≤ c.toNat ∧ c.toNat ≤ 'Z'.toNat then Char.ofNat (c.toNat + 32) else c

/-- Case folding of an object key.  Besides ASCII case, the UTF-8 encodings
of U+017F and U+212A fold to `s` and `k`. -/
def foldKey : List Char → List Char
  | [] => []
  | [c] => [foldByte c]
  | [c, d] =>
    if c.toNat = 0xC5 ∧ d.toNat = 0xBF then ['s'] else [foldByte c, foldByte d]
  | c :: d :: e :: rest =>
    if c.toNat = 0xC5 ∧ d.toNat = 0xBF then 's' :: foldKey (e :: rest)
    else if c.toNat = 0xE2 ∧ d.toNat = 0x84 ∧ e.toNat = 0xAA then 'k' :: foldKey rest
    else foldByte c :: foldKey (d :: e :: rest)

/-- Whether the object key `key` selects the struct field tagged `field`. -/
def keyMatches (key field : String) : Bool :=
  key = field || foldKey key.data = foldKey field.data

/-- Decoding into a `string` field fails unless the value is a string or null. -/
def stringFieldOk : JVal → Bool
  | JVal.str _ => true
  | JVal.null => true
  | _ => false

/-- Decoding into a `bool` field fails unless the value is a boolean or null. -/
def boolFieldOk : JVal → Bool
  | JVal.bool _ => true
  | JVal.null => true
  | _ => false

/-- Decoding into a `map[string]any` field fails unless the value is an
object or null. -/
def mapFieldOk : JVal → Bool
  | JVal.obj _ => true
  | JVal.null => true
  | _ => false

/-- Decoding into a struct field: null is accepted, an object is accepted
when each member that selects a field decodes into it, anything else is a
type error.  `fieldOk key v` says whether member `key` with value `v` is
accepted (members selecting no field are skipped). -/
def structFieldOk (fieldOk : String → JVal → Bool) : JVal → Bool
  | JVal.obj kvs => kvs.all (fun kv => fieldOk kv.1 kv.2)
  | JVal.null => true
  | _ => false

/-- The struct `ImplementationInfo` as a decoding target. -/
def implementationInfoOk : JVal → Bool :=
  structFieldOk (fun key v =>
    if keyMatches key "name" then stringFieldOk v
    else if keyMatches key "version" then stringFieldOk v
    else true)

/-- The struct `RootsCapability` as a decoding target. -/
def rootsCapabilityOk : JVal → Bool :=
  structFieldOk (fun key v =>
    if keyMatches key "listChanged" then boolFieldOk v else true)

/-- The struct `ClientCapabilities` as a decoding target. -/
def clientCapabilitiesOk : JVal → Bool :=
  structFieldOk (fun key v =>
    if keyMatches key "roots" then rootsCapabilityOk v
    else if keyMatches key "sampling" then mapFieldOk v
    else true)

/-- Whether `json.Unmarshal(raw, &params)` returns a nil error for
`params` of type `InitializeParams`.  (The decoded value is only logged.) -/
def unmarshalInitializeParams : Option JVal → Bool
  | none => false
  | some v =>
    structFieldOk (fun key v =>
      if keyMatches key "protocolVersion" then stringFieldOk v
      else if keyMatches key "capabilities" then clientCapabilitiesOk v
      else if keyMatches key "clientInfo" then implementationInfoOk v
      else if keyMatches key "metadata" then mapFieldOk v
      else true) v

/-- The anonymous parameter struct of `handleCallTool`. -/
structure CallParams where
  Name : String := ""
  Arguments : Args := []

/-- Decoding of one object member into the parameter struct of
`handleCallTool`; the boolean records whether a type error has been seen.
A later `name` overwrites an earlier one; a later `arguments` object is
merged into the map decoded so far, and `null` resets the map to nil. -/
def decodeCallMember (acc : CallParams × Bool) (kv : String × JVal) : CallParams × Bool :=
  if keyMatches kv.1 "name" then
    match kv.2 with
    | JVal.str s => ({ acc.1 with Name := s }, acc.2)
    | JVal.null => acc
    | _ => (acc.1, false)
  else if keyMatches kv.1 "arguments" then
    match kv.2 with
    | JVal.obj members =>
      ({ acc.1 with Arguments := members.foldl (fun m e => GoMap.set m e.1 e.2) acc.1.Arguments },
        acc.2)
    | JVal.null => ({ acc.1 with Arguments := [] }, acc.2)
    | _ => (acc.1, false)
  else acc

/-- The call `json.Unmarshal(req.Params, &params)` of `handleCallTool`:
`none` when it returns an error. -/
def unmarshalCallParams : Option JVal → Option CallParams
  | none => none
  | some JVal.null => some {}
  | some (JVal.obj kvs) =>
    let r := kvs.foldl decodeCallMember ({}, true)
    if r.2 then some r.1 else none
  | some _ => none

/-! ## Data model of `internal/pprof/wrapper.go` -/

/-- The type `ProfileType`. -/
abbrev ProfileType := String

/-- The constants of type `ProfileType`. -/
def ProfileTypeAuto : ProfileType := "auto"
def ProfileTypeCPU : ProfileType := "cpu"
def ProfileTypeHeap : ProfileType := "heap"
def ProfileTypeBlock : ProfileType := "block"
def ProfileTypeMutex : ProfileType := "mutex"
def ProfileTypeGoroutine : ProfileType := "goroutine"

/-- The struct `ProfileSummary`. -/
structure ProfileSummary where
  ProfileType : ProfileType
  TotalSamples : Int := 0
  TimeRange : String := ""
  SampleRate : Int := 0

/-- The struct `FunctionInfo`. -/
structure FunctionInfo where
  Name : String := ""
  Samples : Int := 0
  Percentage : F64 := F64.fin 0
  Flat : F64 := F64.fin 0
  Cum : F64 := F64.fin 0
  File : String := ""
  Line : Int := 0

/-- The struct `PprofOutput`. -/
structure PprofOutput where
  Summary : ProfileSummary
  TopFunctions : List FunctionInfo
  RawText : String

/-- The exported methods of `*pprof.Wrapper` that the tool handlers call.
Each of them runs the external profiler (or, for `FormatJSON`, the JSON
encoder); the handlers are embedded for an arbitrary wrapper. -/
structure Wrapper where
  ParseProfile : String → ProfileType → Ret PprofOutput
  GetTopN : String → Int → Ret (List FunctionInfo)
  GenerateSVG : String → String → String → Ret String
  ListCallers : String → String → Ret String
  CompareProfiles : String → String → Ret String
  FormatJSON : PprofOutput → Ret String

/-- A call of a wrapper method, with its arguments. -/
inductive WrapperCall where
  | ParseProfile (filePath : String) (profileType : ProfileType)
  | GetTopN (filePath : String) (n : Int)
  | GenerateSVG (filePath focus ignore : String)
  | ListCallers (filePath functionName : String)
  | CompareProfiles (baseFile compareFile : String)
  | FormatJSON (output : PprofOutput)

/-! ## JSON images of the values the handlers marshal -/

/-- The value `encoding/json` marshals a `ProfileSummary` to (field tags,
`omitempty` on `timeRange` and `sampleRate`). -/
def ProfileSummary.toJVal (p : ProfileSummary) : JVal :=
  JVal.obj ([("profileType", JVal.str p.ProfileType),
             ("totalSamples", JVal.num (F64.ofInt p.TotalSamples))]
    ++ (if p.TimeRange = "" then [] else [("timeRange", JVal.str p.TimeRange)])
    ++ (if p.SampleRate = 0 then [] else [("sampleRate", JVal.num (F64.ofInt p.SampleRate))]))

/-- The value `encoding/json` marshals a `FunctionInfo` to (`omitempty` on
`file` and `line`). -/
def FunctionInfo.toJVal (f : FunctionInfo) : JVal :=
  JVal.obj ([("name", JVal.str f.Name),
             ("samples", JVal.num (F64.ofInt f.Samples)),
             ("percentage", JVal.num f.Percentage),
             ("flat", JVal.num f.Flat),
             ("cum", JVal.num f.Cum)]
    ++ (if f.File = "" then [] else [("file", JVal.str f.File)])
    ++ (if f.Line = 0 then [] else [("line", JVal.num (F64.ofInt f.Line))]))

/-- The type of `json.MarshalIndent(v, "", "  ")` on the image of `v`: the
text, or the message of the error. -/
abbrev Marshal := JVal → Except String String

/-! ## Helpers from the Go standard library -/

/-- The function `strings.Contains`. -/
def stringsContains (s substr : String) : Bool :=
  s.data.tails.any (fun t => substr.data.isPrefixOf t)

/-- The function `strings.HasPrefix`. -/
def stringsHasPrefix (s pre : String) : Bool :=
  pre.data.isPrefixOf s.data

/-- The verb `%d` of `fmt.Sprintf` on an `int`. -/
def formatInt (n : Int) : String := toString n

/-! ## `internal/mcp/handlers.go` -/

/-- What a call of a `ToolHandler` does: the wrapper methods it calls, in
order, and what it returns.  `Ret.ok none` is the return `(nil, nil)`. -/
structure HandlerOut where
  ret : Ret (Option ToolCallResult)
  calls : List WrapperCall := []

/-- The type `ToolHandler` (the context argument is never read). -/
abbrev ToolHandler := Args → HandlerOut

/-- The method `getImpactLevel`. -/
def getImpactLevel (percentage : F64) : String :=
  if F64.gt percentage (F64.fin 20) then "High"
  else if F64.gt percentage (F64.fin 10) then "Medium"
  else "Low"

/-- One entry appended by `detectBottlenecks`. -/
def bottleneckEntry (fn : FunctionInfo) (type suggestion : String) : JVal :=
  JVal.obj [("function", JVal.str fn.Name),
            ("type", JVal.str type),
            ("impact", JVal.str (getImpactLevel fn.Percentage)),
            ("percentage", JVal.num fn.Percentage),
            ("suggestion", JVal.str suggestion)]

/-- The body of the loop of `detectBottlenecks` for one function. -/
def detectBottlenecksStep (bottlenecks : List JVal) (fn : FunctionInfo) : List JVal :=
  let bottlenecks :=
    if stringsContains fn.Name "syscall" || stringsContains fn.Name "net." ||
       stringsContains fn.Name "File." || stringsContains fn.Name "database" then
      bottlenecks ++ [bottleneckEntry fn "I/O"
        "Consider using caching or batching to reduce I/O operations"]
    else bottlenecks
  let bottlenecks :=
    if stringsContains fn.Name "malloc" || stringsContains fn.Name "gc" ||
       stringsContains fn.Name "new" then
      bottlenecks ++ [bottleneckEntry fn "Memory"
        "Consider object pooling or reducing allocation frequency"]
    else bottlenecks
  if stringsContains fn.Name "Lock" || stringsContains fn.Name "Mutex" ||
     stringsContains fn.Name "sync." then
    bottlenecks ++ [bottleneckEntry fn "Concurrency"
      "Consider reducing lock contention or using lock-free data structures"]
  else bottlenecks

/-- The method `detectBottlenecks`. -/
def detectBottlenecks (functions : List FunctionInfo) : List JVal :=
  functions.foldl detectBottlenecksStep []

/-- The counters `runtimeCount`, `gcCount`, `ioCount` of `generateSuggestions`. -/
structure SuggestionCounts where
  runtimeCount : Nat := 0
  gcCount : Nat := 0
  ioCount : Nat := 0

/-- The body of the counting loop of `generateSuggestions` for one function. -/
def countStep (c : SuggestionCounts) (fn : FunctionInfo) : SuggestionCounts :=
  let c := if stringsHasPrefix fn.Name "runtime." then { c with runtimeCount := c.runtimeCount + 1 } else c
  let c := if stringsContains fn.Name "gc" || stringsContains fn.Name "GC" then
    { c with gcCount := c.gcCount + 1 } else c
  if stringsContains fn.Name "net." || stringsContains fn.Name "File" then
    { c with ioCount := c.ioCount + 1 } else c

/-- One entry appended by `generateSuggestions`. -/
def suggestionEntry (priority area suggestion improvement : String) : JVal :=
  JVal.obj [("priority", JVal.str priority),
            ("area", JVal.str area),
            ("suggestion", JVal.str suggestion),
            ("estimatedImprovement", JVal.str improvement)]

/-- The method `generateSuggestions`. -/
def generateSuggestions (functions : List FunctionInfo) (profileType : ProfileType) : List JVal :=
  let c := functions.foldl countStep {}
  let suggestions : List JVal := []
  let suggestions :=
    if c.gcCount > 3 then
      suggestions ++ [suggestionEntry "High" "Garbage Collection"
        "High GC overhead detected. Consider reducing allocations." "20-40%"]
    else suggestions
  let suggestions :=
    if c.ioCount > 2 then
      suggestions ++ [suggestionEntry "Medium" "I/O Operations"
        "Multiple I/O operations in hot path. Consider batching or async I/O." "15-25%"]
    else suggestions
  if profileType = ProfileTypeCPU ∧ c.runtimeCount > 5 then
    suggestions ++ [suggestionEntry "Low" "Runtime Overhead"
      "Significant time in runtime. Consider reviewing algorithm complexity." "10-20%"]
  else suggestions

/-- The body of the hotspot loop of `analyzeProfile` for one function. -/
def hotspotStep (threshold : F64) (hotspots : List JVal) (fn : FunctionInfo) : List JVal :=
  if F64.ge fn.Percentage threshold then
    hotspots ++ [JVal.obj [("function", JVal.str fn.Name),
                           ("percentage", JVal.num fn.Percentage),
                           ("cumulative", JVal.num fn.Cum),
                           ("location", JVal.str (fn.File ++ ":" ++ formatInt fn.Line)),
                           ("samples", JVal.num (F64.ofInt fn.Samples))]]
  else hotspots

/-- The method `analyzeProfile`; the result is the `map[string]any`.  The
parameter `focus` is never read. -/
def analyzeProfile (output : PprofOutput) (_focus : String) (threshold : F64) : GoMap JVal :=
  let result : GoMap JVal := [("summary", output.Summary.toJVal)]
  let hotspots := output.TopFunctions.foldl (hotspotStep threshold) []
  let result := GoMap.set result "hotspots" (JVal.arr hotspots)
  let bottlenecks := detectBottlenecks output.TopFunctions
  let result :=
    if bottlenecks.length > 0 then GoMap.set result "bottlenecks" (JVal.arr bottlenecks)
    else result
  let suggestions := generateSuggestions output.TopFunctions output.Summary.ProfileType
  if suggestions.length > 0 then GoMap.set result "optimizationSuggestions" (JVal.arr suggestions)
  else result

/-- The tool result with one text block that every handler returns on success. -/
def textResult (text : String) (metadata : Option (GoMap JVal)) : ToolCallResult :=
  { Content := [{ Type_ := "text", Text := text }], IsError := false, Metadata := metadata }

/-- The method `handleParseProfile`. -/
def handleParseProfile (w : Wrapper) : ToolHandler := fun args =>
  let (filePath, ok) := assertString (args.index "filePath")
  if ok = false ∨ filePath = "" then { ret := Ret.error "filePath is required" } else
  let profileType : ProfileType :=
    match assertString (args.index "profileType") with
    | (pt, true) => pt
    | (_, false) => ProfileTypeAuto
  let c1 := WrapperCall.ParseProfile filePath profileType
  match w.ParseProfile filePath profileType with
  | Ret.panic => { ret := Ret.panic, calls := [c1] }
  | Ret.error err => { ret := Ret.error ("failed to parse profile: " ++ err), calls := [c1] }
  | Ret.ok output =>
    let c2 := WrapperCall.FormatJSON output
    match w.FormatJSON output with
    | Ret.panic => { ret := Ret.panic, calls := [c1, c2] }
    | Ret.error err => { ret := Ret.error ("failed to format JSON: " ++ err), calls := [c1, c2] }
    | Ret.ok jsonOutput => { ret := Ret.ok (some (textResult jsonOutput none)), calls := [c1, c2] }

/-- The method `handleTopFunctions`. -/
def handleTopFunctions (w : Wrapper) (marshalIndent : Marshal) : ToolHandler := fun args =>
  let (filePath, ok) := assertString (args.index "filePath")
  if ok = false ∨ filePath = "" then { ret := Ret.error "filePath is required" } else
  let topN : Int :=
    match assertFloat64 (args.index "topN") with
    | (n, true) => F64.toInt n
    | (_, false) => 10
  let c1 := WrapperCall.GetTopN filePath topN
  match w.GetTopN filePath topN with
  | Ret.panic => { ret := Ret.panic, calls := [c1] }
  | Ret.error err => { ret := Ret.error ("failed to get top functions: " ++ err), calls := [c1] }
  | Ret.ok functions =>
    let result := JVal.obj [("filePath", JVal.str filePath),
                            ("topN", JVal.num (F64.ofInt topN)),
                            ("results", JVal.arr (functions.map FunctionInfo.toJVal))]
    match marshalIndent result with
    | Except.error err => { ret := Ret.error ("failed to marshal result: " ++ err), calls := [c1] }
    | Except.ok jsonOutput => { ret := Ret.ok (some (textResult jsonOutput none)), calls := [c1] }

/-- The truncation step of `handleGenerateSVG`. -/
def truncateSVG (svg : String) : String :=
  let maxLength := 10000
  if svg.length > maxLength then svg.take maxLength ++ "\n... (truncated) ..." else svg

/-- The method `handleGenerateSVG`. -/
def handleGenerateSVG (w : Wrapper) : ToolHandler := fun args =>
  let (filePath, ok) := assertString (args.index "filePath")
  if ok = false ∨ filePath = "" then { ret := Ret.error "filePath is required" } else
  let focus : String :=
    match assertString (args.index "focus") with
    | (f, true) => f
    | (_, false) => ""
  let ignore : String :=
    match assertString (args.index "ignore") with
    | (i, true) => i
    | (_, false) => ""
  let c1 := WrapperCall.GenerateSVG filePath focus ignore
  match w.GenerateSVG filePath focus ignore with
  | Ret.panic => { ret := Ret.panic, calls := [c1] }
  | Ret.error err => { ret := Ret.error ("failed to generate SVG: " ++ err), calls := [c1] }
  | Ret.ok svg =>
    { ret := Ret.ok (some (textResult (truncateSVG svg)
        (some [("filePath", JVal.str filePath), ("format", JVal.str "svg")]))),
      calls := [c1] }

/-- The method `handleAnalyzePerformance`. -/
def handleAnalyzePerformance (w : Wrapper) (marshalIndent : Marshal) : ToolHandler := fun args =>
  let (filePath, ok) := assertString (args.index "filePath")
  if ok = false ∨ filePath = "" then { ret := Ret.error "filePath is required" } else
  let focus : String :=
    match assertString (args.index "focus") with
    | (f, true) => f
    | (_, false) => "all"
  let threshold : F64 :=
    match assertFloat64 (args.index "threshold") with
    | (t, true) => t
    | (_, false) => F64.fin 5
  let c1 := WrapperCall.ParseProfile filePath ProfileTypeAuto
  match w.ParseProfile filePath ProfileTypeAuto with
  | Ret.panic => { ret := Ret.panic, calls := [c1] }
  | Ret.error err => { ret := Ret.error ("failed to parse profile: " ++ err), calls := [c1] }
  | Ret.ok output =>
    let result := analyzeProfile output focus threshold
    match marshalIndent (JVal.obj result) with
    | Except.error err => { ret := Ret.error ("failed to marshal result: " ++ err), calls := [c1] }
    | Except.ok jsonOutput => { ret := Ret.ok (some (textResult jsonOutput none)), calls := [c1] }

/-- The method `handleCompareProfiles`. -/
def handleCompareProfiles (w : Wrapper) (marshalIndent : Marshal) : ToolHandler := fun args =>
  let (baseFile, ok) := assertString (args.index "baseFile")
  if ok = false ∨ baseFile = "" then { ret := Ret.error "baseFile is required" } else
  let (compareFile, ok) := assertString (args.index "compareFile")
  if ok = false ∨ compareFile = "" then { ret := Ret.error "compareFile is required" } else
  let c1 := WrapperCall.CompareProfiles baseFile compareFile
  match w.CompareProfiles baseFile compareFile with
  | Ret.panic => { ret := Ret.panic, calls := [c1] }
  | Ret.error err => { ret := Ret.error ("failed to compare profiles: " ++ err), calls := [c1] }
  | Ret.ok diff =>
    let result := JVal.obj [("baseFile", JVal.str baseFile),
                            ("compareFile", JVal.str compareFile),
                            ("diff", JVal.str diff)]
    match marshalIndent result with
    | Except.error err => { ret := Ret.error ("failed to marshal result: " ++ err), calls := [c1] }
    | Except.ok jsonOutput => { ret := Ret.ok (some (textResult jsonOutput none)), calls := [c1] }

/-- The method `handleListCallers`. -/
def handleListCallers (w : Wrapper) (marshalIndent : Marshal) : ToolHandler := fun args =>
  let (filePath, ok) := assertString (args.index "filePath")
  if ok = false ∨ filePath = "" then { ret := Ret.error "filePath is required" } else
  let (functionName, ok) := assertString (args.index "functionName")
  if ok = false ∨ functionName = "" then { ret := Ret.error "functionName is required" } else
  let maxDepth : Int :=
    match assertFloat64 (args.index "maxDepth") with
    | (md, true) => F64.toInt md
    | (_, false) => 10
  let c1 := WrapperCall.ListCallers filePath functionName
  match w.ListCallers filePath functionName with
  | Ret.panic => { ret := Ret.panic, calls := [c1] }
  | Ret.error err => { ret := Ret.error ("failed to list callers: " ++ err), calls := [c1] }
  | Ret.ok output =>
    let result := JVal.obj [("function", JVal.str functionName),
                            ("filePath", JVal.str filePath),
                            ("maxDepth", JVal.num (F64.ofInt maxDepth)),
                            ("callers", JVal.str output)]
    match marshalIndent result with
    | Except.error err => { ret := Ret.error ("failed to marshal result: " ++ err), calls := [c1] }
    | Except.ok jsonOutput => { ret := Ret.ok (some (textResult jsonOutput none)), calls := [c1] }

/-! ## `internal/mcp/server.go` -/

/-- The struct `Server` (without its lock). -/
structure Server where
  serverInfo : ImplementationInfo
  tools : GoMap Tool
  toolHandlers : GoMap ToolHandler
  resources : GoMap Resource
  pprofWrapper : Wrapper
  initialized : Bool

/-- Something a request made happen besides its response: a registered
handler was called, or a handler called a wrapper method. -/
inductive Event where
  | handlerCall (name : String) (args : Args)
  | wrapperCall (call : WrapperCall)

/-- What `HandleRequest` does: the server afterwards, the returned pair
`(*JSONRPCResponse, error)` (`Ret.ok none` is a nil response with a nil
error; `Ret.panic` is a panic of the handler, which is not recovered), and
the events in order. -/
structure Outcome where
  server : Server
  ret : Ret (Option JSONRPCResponse)
  events : List Event := []

/-- The method `RegisterTool`. -/
def RegisterTool (s : Server) (tool : Tool) (handler : ToolHandler) : Server :=
  { s with
    tools := GoMap.set s.tools tool.Name tool
    toolHandlers := GoMap.set s.toolHandlers tool.Name handler }

/-- The method `successResponse`; `result` is the `any` argument. -/
def successResponse (id : JVal) (result : Option ResultVal) : JSONRPCResponse :=
  { JSONRPC := "2.0", ID := id, Result := result }

/-- The method `errorResponse`. -/
def errorResponse (id : JVal) (code : ErrorCode) (message : String) : JSONRPCResponse :=
  { JSONRPC := "2.0", ID := id, Error := some { Code := code, Message := message } }

/-- The method `handleInitialize`. -/
def handleInitialize (s : Server) (req : JSONRPCRequest) : Outcome :=
  if unmarshalInitializeParams req.Params = false then
    { server := s, ret := Ret.ok (some (errorResponse req.ID InvalidParams "invalid params")) }
  else
    let s := { s with initialized := true }
    let result : InitializeResult :=
      { ProtocolVersion := "2024-11-05"
        Capabilities := { ToolsListChanged := false, ResourcesListChanged := false }
        ServerInfo := s.serverInfo }
    { server := s
      ret := Ret.ok (some (successResponse req.ID (some (ResultVal.initializeResult result)))) }

/-- The method `handleInitialized`. -/
def handleInitialized (s : Server) (req : JSONRPCRequest) : Outcome :=
  { server := s, ret := Ret.ok (some { JSONRPC := "2.0", ID := req.ID }) }

/-- The method `handleListTools`. -/
def handleListTools (s : Server) (req : JSONRPCRequest) : Outcome :=
  let tools := GoMap.values s.tools
  { server := s
    ret := Ret.ok (some (successResponse req.ID (some (ResultVal.listTools { Tools := tools })))) }

/-- The method `handleCallTool`. -/
def handleCallTool (s : Server) (req : JSONRPCRequest) : Outcome :=
  match unmarshalCallParams req.Params with
  | none =>
    { server := s, ret := Ret.ok (some (errorResponse req.ID InvalidParams "invalid params")) }
  | some params =>
    match GoMap.get? s.toolHandlers params.Name with
    | none =>
      { server := s
        ret := Ret.ok (some (errorResponse req.ID MethodNotFound
          ("tool not found: " ++ params.Name))) }
    | some handler =>
      let out := handler params.Arguments
      let events :=
        Event.handlerCall params.Name params.Arguments :: out.calls.map Event.wrapperCall
      match out.ret with
      | Ret.panic => { server := s, ret := Ret.panic, events := events }
      | Ret.error err =>
        { server := s
          ret := Ret.ok (some
            { JSONRPC := "2.0"
              ID := req.ID
              Result := some (ResultVal.toolCall (some
                { Content := [{ Type_ := "text", Text := "Error: " ++ err }]
                  IsError := true })) })
          events := events }
      | Ret.ok result =>
        { server := s
          ret := Ret.ok (some (successResponse req.ID (some (ResultVal.toolCall result))))
          events := events }

/-- The method `handleListResources`. -/
def handleListResources (s : Server) (req : JSONRPCRequest) : Outcome :=
  let resources := GoMap.values s.resources
  { server := s
    ret := Ret.ok (some (successResponse req.ID
      (some (ResultVal.listResources { Resources := resources })))) }

/-- The method `handleReadResource`. -/
def handleReadResource (s : Server) (req : JSONRPCRequest) : Outcome :=
  { server := s, ret := Ret.ok (some (errorResponse req.ID InternalError "not implemented")) }

/-- The method `handleShutdown`. -/
def handleShutdown (s : Server) (req : JSONRPCRequest) : Outcome :=
  { server := s, ret := Ret.ok (some (successResponse req.ID none)) }

/-- The method `HandleRequest`. -/
def HandleRequest (s : Server) (req : JSONRPCRequest) : Outcome :=
  if req.Method = "initialize" then handleInitialize s req
  else if req.Method = "initialized" then handleInitialized s req
  else if req.Method = "tools/list" then handleListTools s req
  else if req.Method = "tools/call" then handleCallTool s req
  else if req.Method = "resources/list" then handleListResources s req
  else if req.Method = "resources/read" then handleReadResource s req
  else if req.Method = "shutdown" then handleShutdown s req
  else
    { server := s
      ret := Ret.ok (some (errorResponse req.ID MethodNotFound
        ("unknown method: " ++ req.Method))) }

/-- A schema property `name: {"type": ty, "description": descr}`. -/
def schemaProp (ty descr : String) : JVal :=
  JVal.obj [("type", JVal.str ty), ("description", JVal.str descr)]

/-- The list `[]string{...}` inside a schema. -/
def schemaStrings (xs : List String) : JVal := JVal.arr (xs.map JVal.str)

/-- The `filePath` property common to five of the schemas. -/
def filePathProp : String × JVal :=
  ("filePath", schemaProp "string" "Path to the pprof file")

/-- The descriptor of `parse_profile` in `registerDefaultTools`. -/
def parseProfileTool : Tool :=
  { Name := "parse_profile"
    Description := "Parse a pprof file and return structured summary"
    InputSchema :=
      [("type", JVal.str "object"),
       ("properties", JVal.obj
         [filePathProp,
          ("profileType", JVal.obj
            [("type", JVal.str "string"),
             ("default", JVal.str "auto"),
             ("enum", schemaStrings ["auto", "cpu", "heap", "block", "mutex", "goroutine"]),
             ("description", JVal.str "Type of profile")]),
          ("outputFormat", JVal.obj
            [("type", JVal.str "string"),
             ("default", JVal.str "json"),
             ("enum", schemaStrings ["json", "text", "proto"]),
             ("description", JVal.str "Output format")])]),
       ("required", schemaStrings ["filePath"])] }

/-- The descriptor of `top_functions` in `registerDefaultTools`. -/
def topFunctionsTool : Tool :=
  { Name := "top_functions"
    Description := "Get top N hot functions"
    InputSchema :=
      [("type", JVal.str "object"),
       ("properties", JVal.obj
         [filePathProp,
          ("topN", JVal.obj
            [("type", JVal.str "number"),
             ("default", JVal.num (F64.ofInt 10)),
             ("minimum", JVal.num (F64.ofInt 1)),
             ("maximum", JVal.num (F64.ofInt 100)),
             ("description", JVal.str "Number of top functions to return")])]),
       ("required", schemaStrings ["filePath"])] }

/-- The descriptor of `generate_svg` in `registerDefaultTools`. -/
def generateSVGTool : Tool :=
  { Name := "generate_svg"
    Description := "Generate SVG flamegraph"
    InputSchema :=
      [("type", JVal.str "object"),
       ("properties", JVal.obj
         [filePathProp,
          ("focus", JVal.obj
            [("type", JVal.str "string"),
             ("default", JVal.str ""),
             ("description", JVal.str "Focus on a specific function or pattern")]),
          ("ignore", JVal.obj
            [("type", JVal.str "string"),
             ("default", JVal.str ""),
             ("description", JVal.str "Ignore functions matching pattern")])]),
       ("required", schemaStrings ["filePath"])] }

/-- The descriptor of `analyze_performance` in `registerDefaultTools`. -/
def analyzePerformanceTool : Tool :=
  { Name := "analyze_performance"
    Description := "Deep performance analysis"
    InputSchema :=
      [("type", JVal.str "object"),
       ("properties", JVal.obj
         [filePathProp,
          ("focus", JVal.obj
            [("type", JVal.str "string"),
             ("default", JVal.str "all"),
             ("enum", schemaStrings ["bottlenecks", "hotspots", "all"]),
             ("description", JVal.str "Analysis focus area")]),
          ("threshold", JVal.obj
            [("type", JVal.str "number"),
             ("default", JVal.num (F64.ofInt 5)),
             ("description", JVal.str "Percentage threshold")])]),
       ("required", schemaStrings ["filePath"])] }

/-- The descriptor of `compare_profiles` in `registerDefaultTools`. -/
def compareProfilesTool : Tool :=
  { Name := "compare_profiles"
    Description := "Compare two pprof files"
    InputSchema :=
      [("type", JVal.str "object"),
       ("properties", JVal.obj
         [("baseFile", schemaProp "string" "Base profile file path"),
          ("compareFile", schemaProp "string" "Comparison profile file path")]),
       ("required", schemaStrings ["baseFile", "compareFile"])] }

/-- The descriptor of `list_callers` in `registerDefaultTools`. -/
def listCallersTool : Tool :=
  { Name := "list_callers"
    Description := "List callers of a function"
    InputSchema :=
      [("type", JVal.str "object"),
       ("properties", JVal.obj
         [filePathProp,
          ("functionName", schemaProp "string" "Function name to list callers for"),
          ("maxDepth", JVal.obj
            [("type", JVal.str "number"),
             ("default", JVal.num (F64.ofInt 10)),
             ("description", JVal.str "Maximum depth")])]),
       ("required", schemaStrings ["filePath", "functionName"])] }

/-- The method `registerDefaultTools`. -/
def registerDefaultTools (marshalIndent : Marshal) (s : Server) : Server :=
  let s := RegisterTool s parseProfileTool (handleParseProfile s.pprofWrapper)
  let s := RegisterTool s topFunctionsTool (handleTopFunctions s.pprofWrapper marshalIndent)
  let s := RegisterTool s generateSVGTool (handleGenerateSVG s.pprofWrapper)
  let s := RegisterTool s analyzePerformanceTool
    (handleAnalyzePerformance s.pprofWrapper marshalIndent)
  let s := RegisterTool s compareProfilesTool (handleCompareProfiles s.pprofWrapper marshalIndent)
  RegisterTool s listCallersTool (handleListCallers s.pprofWrapper marshalIndent)

/-- The method `registerDefaultResources`. -/
def registerDefaultResources (s : Server) : Server :=
  let resources := GoMap.set s.resources "pprof://summary/\x7bfilePath\x7d"
    { URI := "pprof://summary/\x7bfilePath\x7d"
      Name := "Profile Summary"
      Description := "Get summary of a pprof file"
      MimeType := "application/json" }
  let resources := GoMap.set resources "pprof://text/\x7bfilePath\x7d"
    { URI := "pprof://text/\x7bfilePath\x7d"
      Name := "Profile Text Output"
      Description := "Get text format output from pprof"
      MimeType := "text/plain" }
  let resources := GoMap.set resources "pprof://svg/\x7bfilePath\x7d"
    { URI := "pprof://svg/\x7bfilePath\x7d"
      Name := "Profile SVG"
      Description := "Get SVG flamegraph from pprof"
      MimeType := "image/svg+xml" }
  { s with resources := resources }

/-- The server literal at the start of `NewServer`, before the default
registrations. -/
def emptyServer (name version : String) (w : Wrapper) : Server :=
  { serverInfo := { Name := name, Version := version }
    tools := []
    toolHandlers := []
    resources := []
    pprofWrapper := w
    initialized := false }

/-- The function `NewServer`.  The wrapper (`pprof.NewWrapper()`) and the
JSON encoder used by the handlers are parameters. -/
def NewServer (name version : String) (w : Wrapper) (marshalIndent : Marshal) : Server :=
  registerDefaultResources (registerDefaultTools marshalIndent (emptyServer name version w))

/-! ## `internal/mcp/transport.go` -/

/-- What one call `decoder.Decode(&req)` of the stream loop returns before
the end of the stream: a request, or an error other than `io.EOF`. -/
inductive Decoded where
  | request (req : JSONRPCRequest)
  | failure

/-- The surroundings of `StdioTransport.Run`: whether the context is done
when iteration `i` polls it, the error `ctx.Err()` then, and the error of
the `Encode` call of iteration `i`, if any. -/
structure RunEnv where
  done : Nat → Bool
  ctxErr : String
  encodeErr : Nat → JSONRPCResponse → Option String

/-- What `StdioTransport.Run` does: the server afterwards, the responses
written to the output in order, and how the loop ended (`Ret.ok ()` is the
return of nil at the end of the stream). -/
structure RunResult where
  server : Server
  written : List JSONRPCResponse
  ret : Ret Unit

/-- The loop of `StdioTransport.Run` from iteration `i` on; the list holds
what the decoder returns call by call, and is followed by `io.EOF`.  (A
run in which the decoder never reports the end of the stream is not
represented.) -/
def runLoop (env : RunEnv) : Nat → Server → List Decoded → RunResult
  | i, s, [] =>
    if env.done i then { server := s, written := [], ret := Ret.error env.ctxErr }
    else { server := s, written := [], ret := Ret.ok () }
  | i, s, d :: rest =>
    if env.done i then { server := s, written := [], ret := Ret.error env.ctxErr }
    else
      match d with
      | Decoded.failure => runLoop env (i + 1) s rest
      | Decoded.request req =>
        let out := HandleRequest s req
        match out.ret with
        | Ret.panic => { server := out.server, written := [], ret := Ret.panic }
        | Ret.error _ => runLoop env (i + 1) out.server rest
        | Ret.ok none => runLoop env (i + 1) out.server rest
        | Ret.ok (some resp) =>
          if req.ID.isNil = false then
            match env.encodeErr i resp with
            | some err =>
              { server := out.server, written := []
                ret := Ret.error ("error encoding response: " ++ err) }
            | none =>
              let r := runLoop env (i + 1) out.server rest
              { r with written := resp :: r.written }
          else runLoop env (i + 1) out.server rest

/-- The method `StdioTransport.Run`. -/
def StdioTransport.Run (env : RunEnv) (server : Server) (input : List Decoded) : RunResult :=
  runLoop env 0 server input

/-- What `handleJSONRequest` writes to the HTTP response: an `http.Error`
with a status, or the JSON encoding of the response pointer. -/
inductive HTTPReply where
  | httpError (status : Nat) (message : String)
  | json (resp : Option JSONRPCResponse)

/-- The method `HTTPTransport.handleJSONRequest`; `body` is what decoding
the request body gives (`Except.error` with the message of the decode
error).  The result is the server afterwards and what is written, `none`
when the handler panics.  Encoding is taken to succeed. -/
def handleJSONRequest (server : Server) (body : Except String JSONRPCRequest) :
    Server × Option HTTPReply :=
  match body with
  | Except.error err => (server, some (HTTPReply.httpError 400 ("Invalid JSON: " ++ err)))
  | Except.ok req =>
    let out := HandleRequest server req
    match out.ret with
    | Ret.panic => (out.server, none)
    | Ret.error err =>
      (out.server, some (HTTPReply.httpError 500 ("Error handling request: " ++ err)))
    | Ret.ok resp => (out.server, some (HTTPReply.json resp))

/-! ## Standard library functions used by `internal/pprof/wrapper.go`

Strings are byte sequences, so white space in the sense of
`unicode.IsSpace` is recognised on the UTF-8 encoding: a lead byte is never
a continuation byte, hence a white space rune is present at a position
exactly when its encoding starts there. -/

/-- The one-byte white space runes: U+0009 to U+000D and U+0020. -/
def isSpace1 (a : Char) : Bool :=
  (9 ≤ a.toNat && a.toNat ≤ 13) || a.toNat = 32

/-- The two-byte white space runes: U+0085 and U+00A0. -/
def isSpace2 (a b : Char) : Bool :=
  a.toNat = 0xC2 && (b.toNat = 0x85 || b.toNat = 0xA0)

/-- The three-byte white space runes: U+1680, U+2000 to U+200A, U+2028,
U+2029, U+202F, U+205F and U+3000. -/
def isSpace3 (a b c : Char) : Bool :=
  (a.toNat = 0xE1 && b.toNat = 0x9A && c.toNat = 0x80) ||
  (a.toNat = 0xE2 && b.toNat = 0x80 &&
    ((0x80 ≤ c.toNat && c.toNat ≤ 0x8A) || c.toNat = 0xA8 || c.toNat = 0xA9 ||
      c.toNat = 0xAF)) ||
  (a.toNat = 0xE2 && b.toNat = 0x81 && c.toNat = 0x9F) ||
  (a.toNat = 0xE3 && b.toNat = 0x80 && c.toNat = 0x80)

/-- The width in bytes of the white space rune at the head of the bytes, or
0 when the head is not white space. -/
def spaceWidth : List Char → Nat
  | [] => 0
  | [a] => if isSpace1 a then 1 else 0
  | [a, b] => if isSpace1 a then 1 else if isSpace2 a b then 2 else 0
  | a :: b :: c :: _ =>
    if isSpace1 a then 1 else if isSpace2 a b then 2 else if isSpace3 a b c then 3 else 0

/-- The width in bytes of the white space rune at the end of the bytes,
which are given last byte first; 0 when the end is not white space. -/
def spaceWidthRev : List Char → Nat
  | [] => 0
  | [c] => if isSpace1 c then 1 else 0
  | [c, b] => if isSpace1 c then 1 else if isSpace2 b c then 2 else 0
  | c :: b :: a :: _ =>
    if isSpace1 c then 1 else if isSpace2 b c then 2 else if isSpace3 a b c then 3 else 0

/-- Removal of leading white space, at most `fuel` runes. -/
def trimLeftAux : Nat → List Char → List Char
  | 0, cs => cs
  | fuel + 1, cs =>
    match spaceWidth cs with
    | 0 => cs
    | w + 1 => trimLeftAux fuel (cs.drop (w + 1))

/-- Removal of trailing white space from bytes given last byte first. -/
def trimRightRevAux : Nat → List Char → List Char
  | 0, cs => cs
  | fuel + 1, cs =>
    match spaceWidthRev cs with
    | 0 => cs
    | w + 1 => trimRightRevAux fuel (cs.drop (w + 1))

/-- The function `strings.TrimSpace`. -/
def stringsTrimSpace (s : String) : String :=
  let l := trimLeftAux s.data.length s.data
  String.mk (trimRightRevAux l.length l.reverse).reverse

/-- The fields collected so far, closed by the field `cur` (given last byte
first) when it is not empty. -/
def flushField (cur : List Char) : List (List Char) :=
  if cur = [] then [] else [cur.reverse]

/-- Splitting around runs of white space; `cur` is the field being read,
last byte first. -/
def fieldsAux : Nat → List Char → List Char → List (List Char)
  | 0, _, cur => flushField cur
  | _ + 1, [], cur => flushField cur
  | fuel + 1, c :: rest, cur =>
    match spaceWidth (c :: rest) with
    | 0 => fieldsAux fuel rest (c :: cur)
    | w + 1 => flushField cur ++ fieldsAux fuel (rest.drop w) []

/-- The function `strings.Fields`. -/
def stringsFields (s : String) : List String :=
  (fieldsAux s.data.length s.data []).map String.mk

/-- The function `strings.TrimSuffix`. -/
def stringsTrimSuffix (s suffix : String) : String :=
  if suffix.data.isSuffixOf s.data then String.mk (s.data.take (s.length - suffix.length)) else s

/-- The search of `strings.LastIndex` from byte offset `i` on; `best` is the
last match before `i`. -/
def lastIndexAux (substr : List Char) : List Char → Nat → Int → Int
  | [], i, best => if substr = [] then (i : Int) else best
  | c :: cs, i, best =>
    lastIndexAux substr cs (i + 1) (if substr.isPrefixOf (c :: cs) then (i : Int) else best)

/-- The function `strings.LastIndex`: the byte offset of the last
occurrence, or -1. -/
def stringsLastIndex (s substr : String) : Int :=
  lastIndexAux substr.data s.data 0 (-1)

/-- The function `strings.Join`. -/
def stringsJoin (elems : List String) (sep : String) : String :=
  sep.intercalate elems

/-- The value of a sequence of decimal digits, `none` when a byte is not a
digit. -/
def digitsValue : List Char → Nat → Option Nat
  | [], acc => some acc
  | c :: cs, acc =>
    if '0'.toNat ≤ c.toNat ∧ c.toNat ≤ '9'.toNat then
      digitsValue cs (acc * 10 + (c.toNat - '0'.toNat))
    else none

/-- The function `strconv.Atoi` on a 64-bit platform, `none` when it
returns an error: an optional sign, then at least one decimal digit, and a
value that fits an `int`. -/
def atoi (s : String) : Option Int :=
  let signed : Bool × List Char :=
    match s.data with
    | '-' :: rest => (true, rest)
    | '+' :: rest => (false, rest)
    | rest => (false, rest)
  if signed.2 = [] then none
  else
    match digitsValue signed.2 0 with
    | none => none
    | some v =>
      let n : Int := if signed.1 then -(v : Int) else (v : Int)
      if -(2 ^ 63) ≤ n ∧ n < 2 ^ 63 then some n else none

/-- The slice expression `s[:n]` for `0 ≤ n ≤ len(s)`. -/
def sliceTo (s : String) (n : Int) : String := String.mk (s.data.take n.toNat)

/-- The slice expression `s[n:]` for `0 ≤ n ≤ len(s)`. -/
def sliceFrom (s : String) (n : Int) : String := String.mk (s.data.drop n.toNat)

/-- The constant `bufio.MaxScanTokenSize`. -/
def maxScanTokenSize : Nat := 64 * 1024

/-- The lines of a text: the bytes between line feeds; a text that ends
with a line feed has no further, empty line. -/
def rawLines : List Char → List (List Char)
  | [] => []
  | c :: cs =>
    if c = '\n' then [] :: rawLines cs
    else
      match rawLines cs with
      | [] => [[c]]
      | l :: ls => (c :: l) :: ls

/-- The helper `dropCR` of `bufio.ScanLines`: one trailing carriage return
is removed. -/
def dropCR (l : List Char) : List Char :=
  if l.getLast? = some '\r' then l.dropLast else l

/-- The tokens a `bufio.Scanner` with the default buffer and the split
function `bufio.ScanLines` delivers for a text: its lines without their
carriage return, up to the first line that does not fit the buffer (a line
of `maxScanTokenSize` bytes or more makes `Scan` return false, and the
error is not looked at). -/
def scanLines (text : String) : List String :=
  ((rawLines text.data).takeWhile (fun l => decide (l.length < maxScanTokenSize))).map
    (fun l => String.mk (dropCR l))

/-! ## `internal/pprof/wrapper.go`

The methods `ParseTopOutput` and `GetRawText`, which no handler calls, are
not embedded. -/

/-- What the wrapper takes from its surroundings: the path `exec.LookPath`
finds for `go` (empty when it finds none), the run of the external command
(its standard output, or the error of `cmd.Run` with the captured standard
error), whether `os.Stat` succeeds on a path, `strconv.ParseFloat` with bit
size 64 (`none` when it returns an error), and the `float64` product. -/
structure Platform where
  toolPath : String
  run : String → List String → Except (String × String) String
  statOk : String → Bool
  parseFloat : String → Option F64
  mulFloat : F64 → F64 → F64

/-- The method `runPprof`. -/
def runPprof (env : Platform) (args : List String) : Except String String :=
  if env.toolPath = "" then Except.error "go tool not found"
  else
    let fullArgs := ["tool", "pprof"] ++ args
    match env.run env.toolPath fullArgs with
    | Except.error (err, stderr) =>
      Except.error ("pprof command failed: " ++ err ++ ", stderr: " ++ stderr)
    | Except.ok stdout => Except.ok stdout

/-- The method `parseSummary`. -/
def parseSummary (env : Platform) (filePath : String) (profileType : ProfileType) :
    ProfileSummary :=
  if env.statOk filePath then
    let sampleRate : Int := 100
    let sampleRate : Int := if profileType = ProfileTypeCPU then 100 else sampleRate
    { ProfileType := profileType, SampleRate := sampleRate }
  else { ProfileType := profileType }

/-- The method `cleanFunctionName`. -/
def cleanFunctionName (name : String) : String :=
  let name := stringsTrimSpace name
  let idx := stringsLastIndex name "/"
  if idx > 0 then sliceFrom name (idx + 1) else name

/-- The method `parseFunctionLine`; `none` is the nil pointer. -/
def parseFunctionLine (env : Platform) (line : String) : Option FunctionInfo :=
  let fields := stringsFields line
  if fields.length < 6 then none
  else
    let info : FunctionInfo := {}
    let info :=
      match env.parseFloat (stringsTrimSuffix (fields.getD 0 "") "%") with
      | some flatPct => { info with Flat := flatPct, Percentage := flatPct }
      | none => info
    let info :=
      if fields.length ≥ 6 then
        match env.parseFloat (stringsTrimSuffix (fields.getD 5 "") "%") with
        | some cumPct => { info with Cum := cumPct }
        | none => info
      else info
    let funcNameStart := 6
    if funcNameStart ≥ fields.length then none
    else
      let name := stringsJoin (fields.drop funcNameStart) " "
      let info := { info with Name := cleanFunctionName name }
      let idx := stringsLastIndex name ":"
      if idx > 0 then
        match atoi (sliceFrom name (idx + 1)) with
        | some lineNum =>
          let potentialFile := sliceTo name idx
          if stringsContains potentialFile ".go" then
            some { info with
              File := potentialFile
              Line := lineNum
              Name := cleanFunctionName (sliceTo name idx) }
          else some info
        | none => some info
      else some info

/-- The body of the scanning loop of `parseTextOutput` for one line. -/
def parseLineStep (env : Platform) (functions : List FunctionInfo) (line : String) :
    List FunctionInfo :=
  if stringsTrimSpace line = "" then functions
  else if stringsContains line "flat" && stringsContains line "flat%" then functions
  else
    match parseFunctionLine env line with
    | some funcInfo => if funcInfo.Name ≠ "" then functions ++ [funcInfo] else functions
    | none => functions

/-- The method `parseTextOutput`. -/
def parseTextOutput (env : Platform) (output : String) : List FunctionInfo :=
  (scanLines output).foldl (parseLineStep env) []

/-- The method `ParseProfile`. -/
def ParseProfile (env : Platform) (filePath : String) (profileType : ProfileType) :
    Ret PprofOutput :=
  match runPprof env ["-text", filePath] with
  | Except.error err => Ret.error ("failed to parse profile: " ++ err)
  | Except.ok output =>
    Ret.ok
      { RawText := output
        Summary := parseSummary env filePath profileType
        TopFunctions := parseTextOutput env output }

/-- The loop of `GetTopN` that sets `Samples` to `int64(Flat * 10000)`. -/
def assignSamples (env : Platform) (functions : List FunctionInfo) : List FunctionInfo :=
  functions.map (fun f => { f with Samples := F64.toInt (env.mulFloat f.Flat (F64.fin 10000)) })

/-- The method `GetTopN`.  The slice expression `functions[:n]` is only
reached with `n < len(functions)`, and panics when `n` is negative. -/
def GetTopN (env : Platform) (filePath : String) (n : Int) : Ret (List FunctionInfo) :=
  match runPprof env ["-top", filePath] with
  | Except.error err => Ret.error ("failed to get top functions: " ++ err)
  | Except.ok output =>
    let functions := parseTextOutput env output
    if (functions.length : Int) > n then
      if n < 0 then Ret.panic
      else Ret.ok (assignSamples env (functions.take n.toNat))
    else Ret.ok (assignSamples env functions)

/-- The conversion of `(string, error)` to the result type of a wrapper method. -/
def retOfExcept (r : Except String String) : Ret String :=
  match r with
  | Except.error err => Ret.error err
  | Except.ok out => Ret.ok out

/-- The method `GenerateSVG`. -/
def GenerateSVG (env : Platform) (filePath focus ignore : String) : Ret String :=
  let args := ["-svg"]
  let args := if focus ≠ "" then args ++ ["-focus", focus] else args
  let args := if ignore ≠ "" then args ++ ["-ignore", ignore] else args
  let args := args ++ [filePath]
  retOfExcept (runPprof env args)

/-- The method `ListCallers`. -/
def ListCallers (env : Platform) (filePath functionName : String) : Ret String :=
  retOfExcept (runPprof env ["-list", functionName, filePath])

/-- The method `CompareProfiles`. -/
def CompareProfiles (env : Platform) (baseFile compareFile : String) : Ret String :=
  retOfExcept (runPprof env ["-base", baseFile, compareFile])

/-- The value `encoding/json` marshals a `PprofOutput` to (`omitempty` on
`topFunctions` and `rawText`). -/
def PprofOutput.toJVal (o : PprofOutput) : JVal :=
  JVal.obj ([("summary", o.Summary.toJVal)]
    ++ (if o.TopFunctions.isEmpty then []
        else [("topFunctions", JVal.arr (o.TopFunctions.map FunctionInfo.toJVal))])
    ++ (if o.RawText = "" then [] else [("rawText", JVal.str o.RawText)]))

/-- The method `FormatJSON`. -/
def FormatJSON (marshalIndent : Marshal) (output : PprofOutput) : Ret String :=
  match marshalIndent output.toJVal with
  | Except.error err => Ret.error ("failed to marshal JSON: " ++ err)
  | Except.ok data => Ret.ok data

/-- The wrapper `pprof.NewWrapper()` returns, on a given platform. -/
def NewWrapper (env : Platform) (marshalIndent : Marshal) : Wrapper :=
  { ParseProfile := ParseProfile env
    GetTopN := GetTopN env
    GenerateSVG := GenerateSVG env
    ListCallers := ListCallers env
    CompareProfiles := CompareProfiles env
    FormatJSON := FormatJSON marshalIndent }

/-! ## Notions used in the statements -/

/-- A server after a sequence of `RegisterTool` calls, applied in order. -/
def registerAll (s : Server) (regs : List (Tool × ToolHandler)) : Server :=
  regs.foldl (fun s r => RegisterTool s r.1 r.2) s

/-- The last registration of `name` in a sequence of registrations. -/
def lastRegistration (regs : List (Tool × ToolHandler)) (name : String) :
    Option (Tool × ToolHandler) :=
  regs.reverse.find? (fun r => decide (r.1.Name = name))

/-- The names of the six default tools. -/
def defaultToolNames : List String :=
  ["parse_profile", "top_functions", "generate_svg", "analyze_performance",
   "compare_profiles", "list_callers"]

/-- The required fields of the default tools, in the order of the tool table. -/
def requiredFields (tool : String) : List String :=
  if tool = "compare_profiles" then ["baseFile", "compareFile"]
  else if tool = "list_callers" then ["filePath", "functionName"]
  else ["filePath"]

/-- A required field is missing from an argument map when it is absent, not
a string, or the empty string. -/
def fieldMissing (args : Args) (field : String) : Bool :=
  match GoMap.get? args field with
  | some (JVal.str v) => decide (v = "")
  | _ => true

/-- The first missing field of a list of required fields. -/
def firstMissing (args : Args) (fields : List String) : Option String :=
  fields.find? (fieldMissing args)

/-- The response a request contributes to the output of the stream
transport: the one `HandleRequest` returns, when the request has an id. -/
def writtenFor (s : Server) : Decoded → Option JSONRPCResponse
  | Decoded.failure => none
  | Decoded.request req =>
    if req.ID.isNil then none
    else
      match (HandleRequest s req).ret with
      | Ret.ok resp => resp
      | _ => none

/-- Exactly one of `Result` and `Error` is present. -/
def exactlyOneOfResultError (resp : JSONRPCResponse) : Prop :=
  (resp.Result.isSome = true ∧ resp.Error.isSome = false) ∨
  (resp.Result.isSome = false ∧ resp.Error.isSome = true)

/-- The six registrations `registerDefaultTools` makes, in order. -/
def defaultRegistrations (w : Wrapper) (marshalIndent : Marshal) : List (Tool × ToolHandler) :=
  [(parseProfileTool, handleParseProfile w),
   (topFunctionsTool, handleTopFunctions w marshalIndent),
   (generateSVGTool, handleGenerateSVG w),
   (analyzePerformanceTool, handleAnalyzePerformance w marshalIndent),
   (compareProfilesTool, handleCompareProfiles w marshalIndent),
   (listCallersTool, handleListCallers w marshalIndent)]

/-- The fields of a record that `GetTopN` takes over from the parser: all
but `Samples`. -/
def FunctionInfo.parsed (f : FunctionInfo) : String × F64 × F64 × F64 × String × Int :=
  (f.Name, f.Percentage, f.Flat, f.Cum, f.File, f.Line)

/-- The truncation marker of `generate_svg`. -/
def truncationMarker : String := "\n... (truncated) ..."

/-- The entry of the hotspot list for a function. -/
def hotspotOf (fn : FunctionInfo) : JVal :=
  JVal.obj [("function", JVal.str fn.Name),
            ("percentage", JVal.num fn.Percentage),
            ("cumulative", JVal.num fn.Cum),
            ("location", JVal.str (fn.File ++ ":" ++ formatInt fn.Line)),
            ("samples", JVal.num (F64.ofInt fn.Samples))]

/-- The record a line of the report contributes, if any. -/
def lineRecord (env : Platform) (line : String) : Option FunctionInfo :=
  if stringsTrimSpace line = "" then none
  else if stringsContains line "flat" && stringsContains line "flat%" then none
  else
    match parseFunctionLine env line with
    | some funcInfo => if funcInfo.Name ≠ "" then some funcInfo else none
    | none => none

/-- A line that is a header (it contains both `flat` and `flat%`) or has
fewer than 6 white-space-delimited fields; blank lines are among them. -/
def deadLine (line : String) : Prop :=
  (stringsContains line "flat" = true ∧ stringsContains line "flat%" = true) ∨
  (stringsFields line).length < 6

/-- A percentage within `[0, 100]`. -/
def F64.inPercentRange (x : F64) : Prop :=
  F64.ge x (F64.fin 0) = true ∧ F64.ge (F64.fin 100) x = true

/-- Every line of a text fits the buffer of the scanner. -/
def linesWithinLimit (text : String) : Prop :=
  ∀ l ∈ rawLines text.data, l.length < maxScanTokenSize

/-- The impact level in the words of the analysis rules: High above 20,
Medium above 10 and at most 20, Low otherwise. -/
def impactOf (percentage : F64) : String :=
  if F64.gt percentage (F64.fin 20) = true then "High"
  else if F64.gt percentage (F64.fin 10) = true ∧ F64.ge (F64.fin 20) percentage = true then
    "Medium"
  else "Low"

/-- A name of the I/O category. -/
def isIOName (name : String) : Bool :=
  stringsContains name "syscall" || stringsContains name "net." ||
  stringsContains name "File." || stringsContains name "database"

/-- A name of the Memory category. -/
def isMemoryName (name : String) : Bool :=
  stringsContains name "malloc" || stringsContains name "gc" || stringsContains name "new"

/-- A name of the Concurrency category. -/
def isConcurrencyName (name : String) : Bool :=
  stringsContains name "Lock" || stringsContains name "Mutex" || stringsContains name "sync."

/-- The classification entry of a function for a category with its fixed
suggestion. -/
def classification (fn : FunctionInfo) (category suggestion : String) : JVal :=
  JVal.obj [("function", JVal.str fn.Name),
            ("type", JVal.str category),
            ("impact", JVal.str (impactOf fn.Percentage)),
            ("percentage", JVal.num fn.Percentage),
            ("suggestion", JVal.str suggestion)]

/-- The classification entries of one function, in the order I/O, Memory,
Concurrency. -/
def classificationsOf (fn : FunctionInfo) : List JVal :=
  (if isIOName fn.Name then
    [classification fn "I/O" "Consider using caching or batching to reduce I/O operations"]
   else []) ++
  (if isMemoryName fn.Name then
    [classification fn "Memory" "Consider object pooling or reducing allocation frequency"]
   else []) ++
  (if isConcurrencyName fn.Name then
    [classification fn "Concurrency"
      "Consider reducing lock contention or using lock-free data structures"]
   else [])

/-- The high-priority suggestion about garbage collection. -/
def gcSuggestion : JVal :=
  JVal.obj [("priority", JVal.str "High"),
            ("area", JVal.str "Garbage Collection"),
            ("suggestion", JVal.str "High GC overhead detected. Consider reducing allocations."),
            ("estimatedImprovement", JVal.str "20-40%")]

/-- The medium-priority suggestion about I/O. -/
def ioSuggestion : JVal :=
  JVal.obj [("priority", JVal.str "Medium"),
            ("area", JVal.str "I/O Operations"),
            ("suggestion",
              JVal.str "Multiple I/O operations in hot path. Consider batching or async I/O."),
            ("estimatedImprovement", JVal.str "15-25%")]

/-- The low-priority suggestion about time in the runtime. -/
def runtimeSuggestion : JVal :=
  JVal.obj [("priority", JVal.str "Low"),
            ("area", JVal.str "Runtime Overhead"),
            ("suggestion",
              JVal.str "Significant time in runtime. Consider reviewing algorithm complexity."),
            ("estimatedImprovement", JVal.str "10-20%")]

/-- The number of functions whose name contains `gc` or `GC`. -/
def gcNames (functions : List FunctionInfo) : Nat :=
  functions.countP (fun fn => stringsContains fn.Name "gc" || stringsContains fn.Name "GC")

/-- The number of functions whose name contains `net.` or `File`. -/
def ioNames (functions : List FunctionInfo) : Nat :=
  functions.countP (fun fn => stringsContains fn.Name "net." || stringsContains fn.Name "File")

/-- The number of functions whose name starts with `runtime.`. -/
def runtimeNames (functions : List FunctionInfo) : Nat :=
  functions.countP (fun fn => stringsHasPrefix fn.Name "runtime.")

/-- The sub-sequence of the three suggestions selected by three flags. -/
def selectedSuggestions (gc io runtime : Bool) : List JVal :=
  (if gc then [gcSuggestion] else []) ++ (if io then [ioSuggestion] else []) ++
  (if runtime then [runtimeSuggestion] else [])

/-- The argument vector of the flamegraph operation. -/
def svgArgs (filePath focus ignore : String) : List String :=
  ["-svg"] ++ (if focus = "" then [] else ["-focus", focus]) ++
  (if ignore = "" then [] else ["-ignore", ignore]) ++ [filePath]

/-- The raw name of a line: the fields from index 6 on, joined by single
spaces. -/
def rawName (line : String) : String :=
  stringsJoin ((stringsFields line).drop 6) " "

/-- The processed name of a line: its raw name, cut before the last colon
when a line number follows it and a `.go` precedes it, and then cleaned. -/
def processedName (line : String) : String :=
  let name := rawName line
  let idx := stringsLastIndex name ":"
  if idx > 0 ∧ (atoi (sliceFrom name (idx + 1))).isSome = true ∧
      stringsContains (sliceTo name idx) ".go" = true then
    cleanFunctionName (sliceTo name idx)
  else cleanFunctionName name

/-- An argument that is absent from the map or not a JSON number. -/
def notANumber (args : Args) (key : String) : Prop :=
  (assertFloat64 (args.index key)).2 = false

/-- An argument that is absent from the map or not a string. -/
def notAString (args : Args) (key : String) : Prop :=
  (assertString (args.index key)).2 = false

/-- A string whose first bytes are a white space rune. -/
def startsWithSpace (s : String) : Prop := spaceWidth s.data ≠ 0

/-- A string whose last bytes are a white space rune. -/
def endsWithSpace (s : String) : Prop := spaceWidthRev s.data.reverse ≠ 0

/-- The value of an optional string argument in the words of the tool
table: the string stored under the key, or the default when the key is
absent or holds a value of another type. -/
def optionalString (args : Args) (key dflt : String) : String :=
  match GoMap.get? args key with
  | some (JVal.str v) => v
  | _ => dflt

/-- The value of an optional number argument in the words of the tool
table: the number stored under the key, or the default when the key is
absent or holds a value of another type. -/
def optionalNumber (args : Args) (key : String) (dflt : F64) : F64 :=
  match GoMap.get? args key with
  | some (JVal.num x) => x
  | _ => dflt

/-- The lines of a report as they are parsed: the bytes between line
feeds, each without one trailing carriage return. -/
def reportLines (text : String) : List String :=
  (rawLines text.data).map (fun l => String.mk (dropCR l))

/-- A continuation byte of UTF-8: `0x80` to `0xBF`. -/
def isContinuationByte (b : Char) : Bool := 0x80 ≤ b.toNat && b.toNat < 0xC0

/-- The number of characters of a text in well-formed UTF-8: every
character has exactly one byte that is not a continuation byte. -/
def runeCount (bytes : List Char) : Nat :=
  bytes.countP (fun b => !isContinuationByte b)

/-! ## Closed examples -/

/-- The function `strconv.ParseFloat` on the numeric fields of the
examples, which are strings of decimal digits with a value below `2 ^ 53`:
the value is exact.  No example passes it another string. -/
def parseFloatDigits (s : String) : Option F64 :=
  if s.data = [] then none
  else
    match digitsValue s.data 0 with
    | some v => if v < 2 ^ 53 then some (F64.fin (v : Int)) else none
    | none => none

/-- The `float64` product on the factors of the examples, whose product is
an integer below `2 ^ 53` and therefore exact. -/
def mulFloatExact (a b : F64) : F64 :=
  match a, b with
  | F64.fin x, F64.fin y => F64.fin (x * y)
  | _, _ => F64.nan

/-- A ranked report with a title line, a header line and six function lines. -/
def exampleReport : String :=
  "Showing nodes accounting for 100%\n" ++
  "      flat  flat%   sum%        cum   cum%\n" ++
  "30% 30 30 40 40 45% main.compute\n" ++
  "25% 25 55 30 30 35% runtime.mallocgc\n" ++
  "20% 20 75 20 20 25% sync.(*Mutex).Lock\n" ++
  "10% 10 85 10 10 15% net.(*conn).Read\n" ++
  "9% 9 94 9 9 9% main.helper\n" ++
  "6% 6 100 6 6 6% main.tail\n"

/-- A platform for the examples: `go` is installed and the profiler prints
`exampleReport` for the profile `cpu.prof` and fails for any other file. -/
def examplePlatform : Platform :=
  { toolPath := "/usr/local/go/bin/go"
    run := fun _ args =>
      if args = ["tool", "pprof", "-top", "cpu.prof"] then Except.ok exampleReport
      else Except.error ("exit status 1", "open: no such file or directory")
    statOk := fun path => decide (path = "cpu.prof")
    parseFloat := parseFloatDigits
    mulFloat := mulFloatExact }

/-- A function line whose flat and cumulative fields are out of range. -/
def outOfRangeLine : String := "150% 1 2 3 4 250% main.run"

/-- A function line with a flat share of 100 percent. -/
def fullShareLine : String := "100% 1 2 3 4 100% main.run"

/-- A function line whose name carries a source position. -/
def positionLine : String := "10% 1 2 3 4 20% main.run /src/app/main.go:42"

/-- A header line of `maxScanTokenSize` bytes. -/
def longHeaderLine : String :=
  String.mk ("flat flat%".data ++ List.replicate (maxScanTokenSize - 10) 'x')


/-- The wrapper of a machine without the `go` tool: `runPprof` fails with
`go tool not found`, and the methods wrap that error as in `wrapper.go`. -/
def noToolWrapper : Wrapper :=
  { ParseProfile := fun _ _ => Ret.error "failed to parse profile: go tool not found"
    GetTopN := fun _ _ => Ret.error "failed to get top functions: go tool not found"
    GenerateSVG := fun _ _ _ => Ret.error "go tool not found"
    ListCallers := fun _ _ => Ret.error "go tool not found"
    CompareProfiles := fun _ _ => Ret.error "go tool not found"
    FormatJSON := fun _ => Ret.error "unreachable without a profile" }

/-- An encoder for the closed examples; none of them reaches it. -/
def exampleMarshal : Marshal := fun _ => Except.error "not reached"

/-- The server of `cmd/mcp-pprof`, on a machine without the `go` tool. -/
def exampleServer : Server := NewServer "mcp-pprof" "0.1.0" noToolWrapper exampleMarshal

/-- The request `{"jsonrpc":"2.0","id":7,"method":"ping"}`. -/
def pingRequest : JSONRPCRequest :=
  { JSONRPC := "2.0", ID := JVal.num (F64.ofInt 7), Method := "ping", Params := none }

/-- The request `{"jsonrpc":"2.0","id":1,"method":"initialize"}`, without params. -/
def initializeNoParams : JSONRPCRequest :=
  { JSONRPC := "2.0", ID := JVal.num (F64.ofInt 1), Method := "initialize", Params := none }

/-- An `initialize` request of a client that declares version `1999-01-01`. -/
def initializeOldClient : JSONRPCRequest :=
  { JSONRPC := "2.0", ID := JVal.num (F64.ofInt 1), Method := "initialize"
    Params := some (JVal.obj
      [("protocolVersion", JVal.str "1999-01-01"),
       ("capabilities", JVal.obj []),
       ("clientInfo", JVal.obj [("name", JVal.str "c"), ("version", JVal.str "1")])]) }

/-- The notification `{"jsonrpc":"2.0","method":"initialized"}`. -/
def initializedNotification : JSONRPCRequest :=
  { JSONRPC := "2.0", ID := JVal.null, Method := "initialized", Params := none }

/-- The request `{"jsonrpc":"2.0","id":2,"method":"initialized"}`. -/
def initializedRequest : JSONRPCRequest :=
  { JSONRPC := "2.0", ID := JVal.num (F64.ofInt 2), Method := "initialized", Params := none }

/-- The request `{"jsonrpc":"2.0","id":3,"method":"resources/read"}`. -/
def readResourceRequest : JSONRPCRequest :=
  { JSONRPC := "2.0", ID := JVal.num (F64.ofInt 3), Method := "resources/read", Params := none }

/-- A `tools/call` request with the given id, tool name and arguments. -/
def callRequest (id : JVal) (name : String) (arguments : List (String × JVal)) :
    JSONRPCRequest :=
  { JSONRPC := "2.0", ID := id, Method := "tools/call"
    Params := some (JVal.obj [("name", JVal.str name), ("arguments", JVal.obj arguments)]) }

/-- The call of `parse_profile` with an empty argument object. -/
def parseProfileNoArgs : JSONRPCRequest := callRequest (JVal.num (F64.ofInt 4)) "parse_profile" []

/-- The call of a tool nobody registered. -/
def unknownToolCall : JSONRPCRequest := callRequest (JVal.num (F64.ofInt 5)) "no_such_tool" []

/-- The call of `compare_profiles` with a base file and a numeric compare file. -/
def compareBadSecond : JSONRPCRequest :=
  callRequest (JVal.num (F64.ofInt 6)) "compare_profiles"
    [("baseFile", JVal.str "a.prof"), ("compareFile", JVal.num (F64.ofInt 3))]

/-- A context that is never cancelled and an output that never fails. -/
def quietEnv : RunEnv :=
  { done := fun _ => false, ctxErr := "context canceled", encodeErr := fun _ _ => none }

/-- A stream of four decoder results: an `initialize` request, the
`initialized` notification, a decode failure and a `ping` request. -/
def exampleInput : List Decoded :=
  [Decoded.request initializeOldClient, Decoded.request initializedNotification,
   Decoded.failure, Decoded.request pingRequest]

/-- A function record with a name and a percentage. -/
def namedFunction (name : String) (percentage : F64) : FunctionInfo :=
  { Name := name, Percentage := percentage, Flat := percentage }

/-- Functions that make the selected counters of `generateSuggestions`
exceed their thresholds: four names with `gc`, three with `net.`, six with
the prefix `runtime.`. -/
def functionsFor (gc io runtime : Bool) : List FunctionInfo :=
  (if gc then List.replicate 4 (namedFunction "gcx" (F64.fin 1)) else []) ++
  (if io then List.replicate 3 (namedFunction "net.x" (F64.fin 1)) else []) ++
  (if runtime then List.replicate 6 (namedFunction "runtime.x" (F64.fin 1)) else [])

/-- The server of `cmd/mcp-pprof` on the example platform. -/
def platformServer : Server :=
  NewServer "mcp-pprof" "0.1.0" (NewWrapper examplePlatform exampleMarshal) exampleMarshal

/-- The call of `top_functions` on `cpu.prof` with `topN` set to -1. -/
def negativeTopN : JSONRPCRequest :=
  callRequest (JVal.num (F64.ofInt 8)) "top_functions"
    [("filePath", JVal.str "cpu.prof"), ("topN", JVal.num (F64.ofInt (-1)))]

/-- The bytes of the letter `a` followed by `n` times the letter U+00E9,
which UTF-8 encodes in the two bytes `0xC3 0xA9`. -/
def accentedBytes (n : Nat) : List Char :=
  'a' :: (List.replicate n [Char.ofNat 0xC3, Char.ofNat 0xA9]).flatten

/-- A text of 5001 characters in 10001 bytes. -/
def accentedText : String := String.mk (accentedBytes 5000)

/-- A platform on which the profiler prints a listing for the function
`main.compute` of `cpu.prof` and fails for any other argument vector. -/
def listingPlatform : Platform :=
  { examplePlatform with
    run := fun _ args =>
      if args = ["tool", "pprof", "-list", "main.compute", "cpu.prof"] then
        Except.ok "ROUTINE main.compute"
      else Except.error ("exit status 1", "open: no such file or directory") }

/-- The text an encoder of the examples prints for a field value: strings
as they are, finite numbers by their integer part. -/
def fieldText : JVal → String
  | JVal.str s => s
  | JVal.num (F64.fin q) => formatInt (Int.tdiv q.num q.den)
  | _ => "?"

/-- An encoder for the examples, in place of `json.MarshalIndent`: an
object is printed as its fields `key=value`, separated by semicolons. -/
def fieldEncoder : Marshal := fun v =>
  match v with
  | JVal.obj fields =>
    Except.ok (stringsJoin (fields.map (fun kv => kv.1 ++ "=" ++ fieldText kv.2)) ";")
  | _ => Except.error "unsupported value"

/-- A run in which every write to the output fails. -/
def brokenPipeEnv : RunEnv :=
  { done := fun _ => false, ctxErr := "context canceled"
    encodeErr := fun _ _ => some "broken pipe" }

/-- An `initialize` request whose payload is present and does not decode:
`protocolVersion` is a number. -/
def initializeBadVersion : JSONRPCRequest :=
  { JSONRPC := "2.0", ID := JVal.num (F64.ofInt 1), Method := "initialize"
    Params := some (JVal.obj [("protocolVersion", JVal.num (F64.ofInt 5))]) }

/-! ## General facts about the embedding -/

theorem GoMap.get?_set {α : Type} (m : GoMap α) (k k' : String) (v : α) :
    GoMap.get? (GoMap.set m k v) k' = if k = k' then some v else GoMap.get? m k' := by
  induction m with
  | nil => simp [GoMap.set, GoMap.get?]
  | cons e m ih =>
    obtain ⟨k0, v0⟩ := e
    by_cases h0 : k0 = k
    · subst h0
      by_cases h1 : k0 = k' <;> simp [GoMap.set, GoMap.get?, h1]
    · by_cases h1 : k0 = k'
      · subst h1
        have : ¬ k = k0 := fun h => h0 h.symm
        simp [GoMap.set, GoMap.get?, h0, this]
      · simp [GoMap.set, GoMap.get?, h0, h1, ih]

theorem GoMap.get?_eq_none {α : Type} (m : GoMap α) (k : String) :
    GoMap.get? m k = none ↔ k ∉ GoMap.keys m := by
  induction m with
  | nil => simp [GoMap.get?, GoMap.keys]
  | cons e m ih =>
    obtain ⟨k0, v0⟩ := e
    by_cases h0 : k0 = k
    · subst h0
      simp [GoMap.get?, GoMap.keys]
    · have h1 : ¬ k = k0 := fun h => h0 h.symm
      simp only [GoMap.keys] at ih
      simp [GoMap.get?, GoMap.keys, h0, h1, ih]

theorem GoMap.mem_keys_set {α : Type} (m : GoMap α) (k k' : String) (v : α) :
    k' ∈ GoMap.keys (GoMap.set m k v) ↔ k' = k ∨ k' ∈ GoMap.keys m := by
  have h1 := GoMap.get?_eq_none (GoMap.set m k v) k'
  have h2 := GoMap.get?_eq_none m k'
  rw [GoMap.get?_set] at h1
  by_cases hk : k = k'
  · subst hk
    simp only [if_true] at h1
    have : k ∈ GoMap.keys (GoMap.set m k v) := by
      by_contra hc
      exact absurd (h1.2 hc) (by simp)
    simp [this]
  · have hk' : ¬ k' = k := fun h => hk h.symm
    simp only [if_neg hk] at h1
    constructor
    · intro h
      right
      by_contra hc
      exact (h1.1 (h2.2 hc)) h
    · rintro (h | h)
      · exact absurd h hk'
      · by_contra hc
        exact (h2.1 (h1.2 hc)) h

theorem GoMap.nodup_keys_set {α : Type} (m : GoMap α) (k : String) (v : α)
    (h : (GoMap.keys m).Nodup) : (GoMap.keys (GoMap.set m k v)).Nodup := by
  induction m with
  | nil => simp [GoMap.set, GoMap.keys]
  | cons e m ih =>
    obtain ⟨k0, v0⟩ := e
    have hc : (k0 :: GoMap.keys m).Nodup := h
    have hk0 : k0 ∉ GoMap.keys m := (List.nodup_cons.1 hc).1
    have hm : (GoMap.keys m).Nodup := (List.nodup_cons.1 hc).2
    by_cases h0 : k0 = k
    · subst h0
      simpa [GoMap.set, GoMap.keys] using h
    · have hnot : k0 ∉ GoMap.keys (GoMap.set m k v) := by
        rw [GoMap.mem_keys_set]
        rintro (h1 | h1)
        · exact h0 h1
        · exact hk0 h1
      have hrec := ih hm
      have hcons : (k0 :: GoMap.keys (GoMap.set m k v)).Nodup := List.nodup_cons.2 ⟨hnot, hrec⟩
      simpa [GoMap.set, GoMap.keys, h0] using hcons

theorem GoMap.mem_set {α : Type} (m : GoMap α) (k : String) (v : α) (e : String × α)
    (h : e ∈ GoMap.set m k v) : e = (k, v) ∨ e ∈ m := by
  induction m with
  | nil => simpa [GoMap.set] using h
  | cons e0 m ih =>
    obtain ⟨k0, v0⟩ := e0
    by_cases h0 : k0 = k
    · simp only [GoMap.set, if_pos h0, List.mem_cons] at h
      rcases h with h | h
      · exact Or.inl h
      · exact Or.inr (List.mem_cons_of_mem _ h)
    · simp only [GoMap.set, if_neg h0, List.mem_cons] at h
      rcases h with h | h
      · exact Or.inr (by simp [h])
      · rcases ih h with h' | h'
        · exact Or.inl h'
        · exact Or.inr (List.mem_cons_of_mem _ h')

theorem GoMap.get?_of_mem {α : Type} (m : GoMap α) (k : String) (v : α)
    (hn : (GoMap.keys m).Nodup) (h : (k, v) ∈ m) : GoMap.get? m k = some v := by
  induction m with
  | nil => simp at h
  | cons e0 m ih =>
    obtain ⟨k0, v0⟩ := e0
    have hc : (k0 :: GoMap.keys m).Nodup := hn
    have hk0 : k0 ∉ GoMap.keys m := (List.nodup_cons.1 hc).1
    have hm : (GoMap.keys m).Nodup := (List.nodup_cons.1 hc).2
    rcases List.mem_cons.1 h with h | h
    · injection h with h1 h2
      subst h1
      subst h2
      simp [GoMap.get?]
    · have hne : ¬ k0 = k := by
        intro hk
        subst hk
        exact hk0 (List.mem_map.2 ⟨(k0, v), h, rfl⟩)
      simp [GoMap.get?, hne, ih hm h]

theorem GoMap.mem_of_get? {α : Type} (m : GoMap α) (k : String) (v : α)
    (h : GoMap.get? m k = some v) : (k, v) ∈ m := by
  induction m with
  | nil => simp [GoMap.get?] at h
  | cons e0 m ih =>
    obtain ⟨k0, v0⟩ := e0
    by_cases h0 : k0 = k
    · subst h0
      simp only [GoMap.get?, if_true] at h
      injection h with h
      subst h
      simp
    · simp only [GoMap.get?, if_neg h0] at h
      exact List.mem_cons_of_mem _ (ih h)

theorem registerAll_append (s : Server) (regs : List (Tool × ToolHandler))
    (r : Tool × ToolHandler) :
    registerAll s (regs ++ [r]) = RegisterTool (registerAll s regs) r.1 r.2 := by
  simp [registerAll, List.foldl_append]

theorem lastRegistration_append (regs : List (Tool × ToolHandler)) (r : Tool × ToolHandler)
    (name : String) :
    lastRegistration (regs ++ [r]) name
      = if r.1.Name = name then some r else lastRegistration regs name := by
  by_cases h : r.1.Name = name <;> simp [lastRegistration, List.find?_cons, h]

theorem lastRegistration_isSome (regs : List (Tool × ToolHandler)) (name : String) :
    (lastRegistration regs name).isSome = true ↔ ∃ r ∈ regs, r.1.Name = name := by
  simp [lastRegistration, List.find?_isSome]

/-- The registry after a sequence of registrations on empty maps: both maps
resolve a name to its last registration, the keys of the tool map are
pairwise distinct, and every tool is stored under its own name. -/
theorem registerAll_registry (s0 : Server) (h1 : s0.tools = []) (h2 : s0.toolHandlers = [])
    (regs : List (Tool × ToolHandler)) :
    (∀ name, GoMap.get? (registerAll s0 regs).tools name
        = (lastRegistration regs name).map Prod.fst) ∧
    (∀ name, GoMap.get? (registerAll s0 regs).toolHandlers name
        = (lastRegistration regs name).map Prod.snd) ∧
    (GoMap.keys (registerAll s0 regs).tools).Nodup ∧
    (∀ e ∈ (registerAll s0 regs).tools, e.2.Name = e.1) := by
  induction regs using List.reverseRecOn with
  | nil =>
    simp [registerAll, lastRegistration, h1, h2, GoMap.get?, GoMap.keys]
  | append_singleton regs r ih =>
    obtain ⟨ia, ib, ic, id⟩ := ih
    rw [registerAll_append]
    refine ⟨?_, ?_, ?_, ?_⟩
    · intro name
      simp only [RegisterTool, GoMap.get?_set, lastRegistration_append, ia]
      by_cases h : r.1.Name = name <;> simp [h]
    · intro name
      simp only [RegisterTool, GoMap.get?_set, lastRegistration_append, ib]
      by_cases h : r.1.Name = name <;> simp [h]
    · exact GoMap.nodup_keys_set _ _ _ ic
    · intro e he
      rcases GoMap.mem_set _ _ _ _ he with h | h
      · rw [h]
      · exact id e h

theorem NewServer_toolHandlers (name version : String) (w : Wrapper) (marshalIndent : Marshal) :
    (NewServer name version w marshalIndent).toolHandlers =
      [("parse_profile", handleParseProfile w),
       ("top_functions", handleTopFunctions w marshalIndent),
       ("generate_svg", handleGenerateSVG w),
       ("analyze_performance", handleAnalyzePerformance w marshalIndent),
       ("compare_profiles", handleCompareProfiles w marshalIndent),
       ("list_callers", handleListCallers w marshalIndent)] := rfl

/-- What the guard `!ok || v == ""` of a handler sees for a missing field. -/
theorem assertString_of_fieldMissing (args : Args) (field : String)
    (h : fieldMissing args field = true) :
    (assertString (args.index field)).2 = false ∨ (assertString (args.index field)).1 = "" := by
  unfold fieldMissing at h
  unfold Args.index
  cases hg : GoMap.get? args field with
  | none => simp [assertString]
  | some v =>
    cases v with
    | str x =>
      rw [hg] at h
      right
      simpa [assertString] using h
    | null => simp [assertString]
    | bool b => simp [assertString]
    | num x => simp [assertString]
    | arr xs => simp [assertString]
    | obj kvs => simp [assertString]

/-- What the guard of a handler sees for a field that is not missing. -/
theorem assertString_of_not_fieldMissing (args : Args) (field : String)
    (h : fieldMissing args field = false) :
    ¬ ((assertString (args.index field)).2 = false ∨ (assertString (args.index field)).1 = "") := by
  unfold fieldMissing at h
  unfold Args.index
  cases hg : GoMap.get? args field with
  | none => rw [hg] at h; simp at h
  | some v =>
    cases v with
    | str x =>
      rw [hg] at h
      simpa [assertString] using h
    | null => rw [hg] at h; simp at h
    | bool b => rw [hg] at h; simp at h
    | num x => rw [hg] at h; simp at h
    | arr xs => rw [hg] at h; simp at h
    | obj kvs => rw [hg] at h; simp at h

theorem handleParseProfile_missing (w : Wrapper) (args : Args)
    (h : fieldMissing args "filePath" = true) :
    handleParseProfile w args = { ret := Ret.error "filePath is required", calls := [] } := by
  have hg := assertString_of_fieldMissing args "filePath" h
  simp only [handleParseProfile]
  rw [if_pos hg]

theorem handleTopFunctions_missing (w : Wrapper) (marshalIndent : Marshal) (args : Args)
    (h : fieldMissing args "filePath" = true) :
    handleTopFunctions w marshalIndent args
      = { ret := Ret.error "filePath is required", calls := [] } := by
  have hg := assertString_of_fieldMissing args "filePath" h
  simp only [handleTopFunctions]
  rw [if_pos hg]

theorem handleGenerateSVG_missing (w : Wrapper) (args : Args)
    (h : fieldMissing args "filePath" = true) :
    handleGenerateSVG w args = { ret := Ret.error "filePath is required", calls := [] } := by
  have hg := assertString_of_fieldMissing args "filePath" h
  simp only [handleGenerateSVG]
  rw [if_pos hg]

theorem handleAnalyzePerformance_missing (w : Wrapper) (marshalIndent : Marshal) (args : Args)
    (h : fieldMissing args "filePath" = true) :
    handleAnalyzePerformance w marshalIndent args
      = { ret := Ret.error "filePath is required", calls := [] } := by
  have hg := assertString_of_fieldMissing args "filePath" h
  simp only [handleAnalyzePerformance]
  rw [if_pos hg]

theorem handleCompareProfiles_missing_first (w : Wrapper) (marshalIndent : Marshal)
    (args : Args) (h : fieldMissing args "baseFile" = true) :
    handleCompareProfiles w marshalIndent args
      = { ret := Ret.error "baseFile is required", calls := [] } := by
  have hg := assertString_of_fieldMissing args "baseFile" h
  simp only [handleCompareProfiles]
  rw [if_pos hg]

theorem handleCompareProfiles_missing_second (w : Wrapper) (marshalIndent : Marshal)
    (args : Args) (h1 : fieldMissing args "baseFile" = false)
    (h2 : fieldMissing args "compareFile" = true) :
    handleCompareProfiles w marshalIndent args
      = { ret := Ret.error "compareFile is required", calls := [] } := by
  have hg1 := assertString_of_not_fieldMissing args "baseFile" h1
  have hg2 := assertString_of_fieldMissing args "compareFile" h2
  simp only [handleCompareProfiles]
  rw [if_neg hg1, if_pos hg2]

theorem handleListCallers_missing_first (w : Wrapper) (marshalIndent : Marshal)
    (args : Args) (h : fieldMissing args "filePath" = true) :
    handleListCallers w marshalIndent args
      = { ret := Ret.error "filePath is required", calls := [] } := by
  have hg := assertString_of_fieldMissing args "filePath" h
  simp only [handleListCallers]
  rw [if_pos hg]

theorem handleListCallers_missing_second (w : Wrapper) (marshalIndent : Marshal)
    (args : Args) (h1 : fieldMissing args "filePath" = false)
    (h2 : fieldMissing args "functionName" = true) :
    handleListCallers w marshalIndent args
      = { ret := Ret.error "functionName is required", calls := [] } := by
  have hg1 := assertString_of_not_fieldMissing args "filePath" h1
  have hg2 := assertString_of_fieldMissing args "functionName" h2
  simp only [handleListCallers]
  rw [if_neg hg1, if_pos hg2]

/-- A handler that returns the error `e` without calling the wrapper makes
`tools/call` answer with the tool-level error `Error: e`. -/
theorem handleCallTool_of_error (s : Server) (req : JSONRPCRequest) (params : CallParams)
    (handler : ToolHandler) (e : String)
    (hm : req.Method = "tools/call")
    (hp : unmarshalCallParams req.Params = some params)
    (hh : GoMap.get? s.toolHandlers params.Name = some handler)
    (he : handler params.Arguments = { ret := Ret.error e, calls := [] }) :
    HandleRequest s req =
      { server := s
        ret := Ret.ok (some
          { JSONRPC := "2.0"
            ID := req.ID
            Result := some (ResultVal.toolCall (some
              { Content := [{ Type_ := "text", Text := "Error: " ++ e }]
                IsError := true
                Metadata := none }))
            Error := none })
        events := [Event.handlerCall params.Name params.Arguments] } := by
  simp [HandleRequest, hm, handleCallTool, hp, hh, he]

/-- The response of `HandleRequest` does not read the `initialized` flag. -/
theorem HandleRequest_ret_initialized (s : Server) (b : Bool) (req : JSONRPCRequest) :
    (HandleRequest { s with initialized := b } req).ret = (HandleRequest s req).ret := by
  unfold HandleRequest
  by_cases h1 : req.Method = "initialize"
  · rw [if_pos h1, if_pos h1]
    unfold handleInitialize
    by_cases hp : unmarshalInitializeParams req.Params = false
    · rw [if_pos hp, if_pos hp]
    · rw [if_neg hp, if_neg hp]
  rw [if_neg h1, if_neg h1]
  by_cases h2 : req.Method = "initialized"
  · rw [if_pos h2, if_pos h2]; rfl
  rw [if_neg h2, if_neg h2]
  by_cases h3 : req.Method = "tools/list"
  · rw [if_pos h3, if_pos h3]; rfl
  rw [if_neg h3, if_neg h3]
  by_cases h4 : req.Method = "tools/call"
  · rw [if_pos h4, if_pos h4]
    unfold handleCallTool
    cases unmarshalCallParams req.Params with
    | none => rfl
    | some params =>
      simp only
      cases GoMap.get? s.toolHandlers params.Name with
      | none => rfl
      | some handler =>
        simp only
        cases (handler params.Arguments).ret <;> rfl
  rw [if_neg h4, if_neg h4]
  by_cases h5 : req.Method = "resources/list"
  · rw [if_pos h5, if_pos h5]; rfl
  rw [if_neg h5, if_neg h5]
  by_cases h6 : req.Method = "resources/read"
  · rw [if_pos h6, if_pos h6]; rfl
  rw [if_neg h6, if_neg h6]
  by_cases h7 : req.Method = "shutdown"
  · rw [if_pos h7, if_pos h7]; rfl
  rw [if_neg h7, if_neg h7]

/-- The only field of the server `HandleRequest` writes is `initialized`. -/
theorem HandleRequest_server (s : Server) (req : JSONRPCRequest) :
    ∃ b, (HandleRequest s req).server = { s with initialized := b } := by
  unfold HandleRequest
  by_cases h1 : req.Method = "initialize"
  · rw [if_pos h1]
    unfold handleInitialize
    by_cases hp : unmarshalInitializeParams req.Params = false
    · rw [if_pos hp]; exact ⟨s.initialized, rfl⟩
    · rw [if_neg hp]; exact ⟨true, rfl⟩
  rw [if_neg h1]
  refine ⟨s.initialized, ?_⟩
  by_cases h2 : req.Method = "initialized"
  · rw [if_pos h2]; rfl
  rw [if_neg h2]
  by_cases h3 : req.Method = "tools/list"
  · rw [if_pos h3]; rfl
  rw [if_neg h3]
  by_cases h4 : req.Method = "tools/call"
  · rw [if_pos h4]
    unfold handleCallTool
    cases unmarshalCallParams req.Params with
    | none => rfl
    | some params =>
      simp only
      cases GoMap.get? s.toolHandlers params.Name with
      | none => rfl
      | some handler =>
        simp only
        cases (handler params.Arguments).ret <;> rfl
  rw [if_neg h4]
  by_cases h5 : req.Method = "resources/list"
  · rw [if_pos h5]; rfl
  rw [if_neg h5]
  by_cases h6 : req.Method = "resources/read"
  · rw [if_pos h6]; rfl
  rw [if_neg h6]
  by_cases h7 : req.Method = "shutdown"
  · rw [if_pos h7]; rfl
  rw [if_neg h7]

/-- The stream loop, from any iteration and any value of the `initialized`
flag, when the context is never done, no write fails and no handler
panics: it writes what `writtenFor` gives item by item, and ends with nil. -/
theorem runLoop_written (env : RunEnv) (s : Server)
    (hctx : ∀ i, env.done i = false)
    (henc : ∀ i resp, env.encodeErr i resp = none)
    (input : List Decoded) :
    (∀ req, Decoded.request req ∈ input → (HandleRequest s req).ret ≠ Ret.panic) →
    ∀ i b,
      (runLoop env i { s with initialized := b } input).written
          = input.filterMap (writtenFor s) ∧
      (runLoop env i { s with initialized := b } input).ret = Ret.ok () := by
  induction input with
  | nil =>
    intro _ i b
    simp [runLoop, hctx]
  | cons d rest ih =>
    intro hret i b
    have hrest : ∀ req, Decoded.request req ∈ rest → (HandleRequest s req).ret ≠ Ret.panic :=
      fun req h => hret req (List.mem_cons_of_mem _ h)
    cases d with
    | failure =>
      have := ih hrest (i + 1) b
      simpa [runLoop, hctx, writtenFor] using this
    | request req =>
      have hnp := hret req (List.mem_cons_self _ _)
      have hr := HandleRequest_ret_initialized s b req
      obtain ⟨b', hs⟩ := HandleRequest_server { s with initialized := b } req
      have hs' : (HandleRequest { s with initialized := b } req).server
          = { s with initialized := b' } := hs
      have hnext := ih hrest (i + 1) b'
      simp only [runLoop, hctx, Bool.false_eq_true, if_false, hr, hs']
      cases hres : (HandleRequest s req).ret with
      | panic => exact absurd hres hnp
      | error msg =>
        simpa [writtenFor, hres] using hnext
      | ok resp =>
        cases resp with
        | none =>
          simpa [writtenFor, hres] using hnext
        | some resp =>
          by_cases hid : req.ID.isNil = false
          · simp [writtenFor, hres, hid, henc, hnext.1, hnext.2]
          · have hid' : req.ID.isNil = true := by simpa using hid
            simpa [writtenFor, hres, hid'] using hnext

/-- The registry of the server `NewServer` builds is the one six
`RegisterTool` calls leave on empty maps. -/
theorem NewServer_registry (name version : String) (w : Wrapper) (marshalIndent : Marshal) :
    (NewServer name version w marshalIndent).tools
      = (registerAll (emptyServer name version w) (defaultRegistrations w marshalIndent)).tools ∧
    (NewServer name version w marshalIndent).toolHandlers
      = (registerAll (emptyServer name version w)
          (defaultRegistrations w marshalIndent)).toolHandlers :=
  ⟨rfl, rfl⟩

/-! ### The parser -/

theorem parseFunctionLine_short (env : Platform) (line : String)
    (h : (stringsFields line).length < 7) : parseFunctionLine env line = none := by
  unfold parseFunctionLine
  by_cases h6 : (stringsFields line).length < 6
  · simp [h6]
  · have h7 : 6 ≥ (stringsFields line).length := by omega
    simp [h6, h7]

theorem parseFunctionLine_long (env : Platform) (line : String)
    (h : 7 ≤ (stringsFields line).length) :
    ∃ info, parseFunctionLine env line = some info ∧
      info.Percentage = info.Flat ∧
      info.Flat = (env.parseFloat
        (stringsTrimSuffix ((stringsFields line).getD 0 "") "%")).getD (F64.fin 0) ∧
      info.Cum = (env.parseFloat
        (stringsTrimSuffix ((stringsFields line).getD 5 "") "%")).getD (F64.fin 0) ∧
      info.Samples = 0 := by
  unfold parseFunctionLine
  have h6 : ¬ (stringsFields line).length < 6 := by omega
  have h6' : (stringsFields line).length ≥ 6 := by omega
  have h7 : ¬ 6 ≥ (stringsFields line).length := by omega
  simp only [h6, h7, h6', if_false, if_true]
  cases h0 : env.parseFloat (stringsTrimSuffix ((stringsFields line).getD 0 "") "%") <;>
  cases h5 : env.parseFloat (stringsTrimSuffix ((stringsFields line).getD 5 "") "%") <;>
  simp only [] <;>
  split <;> (try split) <;> (try split) <;> simp

/-- The name of the record of a line does not depend on the platform. -/
theorem parseFunctionLine_name (env env' : Platform) (line : String) :
    (parseFunctionLine env line).map FunctionInfo.Name
      = (parseFunctionLine env' line).map FunctionInfo.Name := by
  by_cases h : (stringsFields line).length < 7
  · rw [parseFunctionLine_short env line h, parseFunctionLine_short env' line h]
  · unfold parseFunctionLine
    have h6 : ¬ (stringsFields line).length < 6 := by omega
    have h6' : (stringsFields line).length ≥ 6 := by omega
    have h7 : ¬ 6 ≥ (stringsFields line).length := by omega
    simp only [h6, h7, h6', if_false, if_true]
    cases env.parseFloat (stringsTrimSuffix ((stringsFields line).getD 0 "") "%") <;>
    cases env.parseFloat (stringsTrimSuffix ((stringsFields line).getD 5 "") "%") <;>
    cases env'.parseFloat (stringsTrimSuffix ((stringsFields line).getD 0 "") "%") <;>
    cases env'.parseFloat (stringsTrimSuffix ((stringsFields line).getD 5 "") "%") <;>
    simp only [] <;>
    split <;> (try split) <;> (try split) <;> simp

theorem lineRecord_eq_some (env : Platform) (line : String) (r : FunctionInfo)
    (h : lineRecord env line = some r) :
    parseFunctionLine env line = some r ∧ r.Name ≠ "" := by
  unfold lineRecord at h
  split at h
  · exact absurd h (by simp)
  · split at h
    · exact absurd h (by simp)
    · split at h
      · rename_i funcInfo hp
        split at h
        · rename_i hn
          injection h with h
          subst h
          exact ⟨hp, hn⟩
        · exact absurd h (by simp)
      · exact absurd h (by simp)

theorem parseLineStep_eq (env : Platform) (functions : List FunctionInfo) (line : String) :
    parseLineStep env functions line = functions ++ (lineRecord env line).toList := by
  unfold parseLineStep lineRecord
  split
  · simp
  · split
    · simp
    · split
      · split <;> simp
      · simp

theorem foldl_parseLineStep (env : Platform) (lines : List String)
    (functions : List FunctionInfo) :
    lines.foldl (parseLineStep env) functions
      = functions ++ lines.filterMap (lineRecord env) := by
  induction lines generalizing functions with
  | nil => simp
  | cons l ls ih =>
    rw [List.foldl_cons, ih, parseLineStep_eq]
    cases h : lineRecord env l <;> simp [List.filterMap_cons, h]

/-- The parser emits, in order, the records of the lines the scanner delivers. -/
theorem parseTextOutput_eq_filterMap (env : Platform) (output : String) :
    parseTextOutput env output = (scanLines output).filterMap (lineRecord env) := by
  simp [parseTextOutput, foldl_parseLineStep]

theorem foldl_hotspotStep (threshold : F64) (functions : List FunctionInfo)
    (hotspots : List JVal) :
    functions.foldl (hotspotStep threshold) hotspots
      = hotspots ++ (functions.filter
          (fun fn => F64.ge fn.Percentage threshold)).map hotspotOf := by
  induction functions generalizing hotspots with
  | nil => simp
  | cons fn fns ih =>
    rw [List.foldl_cons, ih]
    by_cases h : F64.ge fn.Percentage threshold = true
    · simp [hotspotStep, h, hotspotOf, List.filter_cons]
    · simp [hotspotStep, h, List.filter_cons]

/-- The entry `hotspots` of the result of `analyzeProfile`. -/
theorem analyzeProfile_get_hotspots (output : PprofOutput) (focus : String) (threshold : F64) :
    GoMap.get? (analyzeProfile output focus threshold) "hotspots"
      = some (JVal.arr ((output.TopFunctions.filter
          (fun fn => F64.ge fn.Percentage threshold)).map hotspotOf)) := by
  unfold analyzeProfile
  simp only [foldl_hotspotStep, List.nil_append]
  split <;> split <;> simp [GoMap.get?_set, GoMap.set, GoMap.get?]

theorem take_take_append (s m : String) (n : Nat) (h : n ≤ s.length) :
    (s.take n ++ m).take n = s.take n := by
  apply String.ext
  simp only [String.data_take, String.data_append]
  have hl : (List.take n s.data).length = n := by
    rw [List.length_take]
    exact Nat.min_eq_left h
  rw [List.take_append_of_le_length (Nat.le_of_eq hl.symm), List.take_take]
  simp

/-! ### The line scanner -/

theorem rawLines_cons (c : Char) (cs : List Char) (hc : ¬ c = '\n') :
    rawLines (c :: cs)
      = (match rawLines cs with
         | [] => [[c]]
         | l :: ls => (c :: l) :: ls) := by
  simp [rawLines, hc]

theorem rawLines_newline_cons (cs : List Char) : rawLines ('\n' :: cs) = [] :: rawLines cs := by
  simp [rawLines]

theorem rawLines_append_newline_ne_nil (a : List Char) : rawLines (a ++ ['\n']) ≠ [] := by
  induction a with
  | nil => simp [rawLines]
  | cons c a ih =>
    by_cases hc : c = '\n'
    · subst hc
      rw [List.cons_append, rawLines_newline_cons]
      simp
    · rw [List.cons_append, rawLines_cons _ _ hc]
      cases h : rawLines (a ++ ['\n']) with
      | nil => exact absurd h ih
      | cons l ls => simp

/-- The lines of a text with a line feed in it: the lines up to that line
feed, then the lines after it. -/
theorem rawLines_append (a b : List Char) :
    rawLines (a ++ '\n' :: b) = rawLines (a ++ ['\n']) ++ rawLines b := by
  induction a with
  | nil => simp [rawLines]
  | cons c a ih =>
    by_cases hc : c = '\n'
    · subst hc
      rw [List.cons_append, List.cons_append, rawLines_newline_cons, rawLines_newline_cons, ih]
      rfl
    · rw [List.cons_append, List.cons_append, rawLines_cons _ _ hc, rawLines_cons _ _ hc, ih]
      cases h : rawLines (a ++ ['\n']) with
      | nil => exact absurd h (rawLines_append_newline_ne_nil a)
      | cons l ls => rfl

/-- Closing a text with a line feed adds no line, or one empty line. -/
theorem rawLines_close (a : List Char) :
    rawLines (a ++ ['\n']) = rawLines a ∨ rawLines (a ++ ['\n']) = rawLines a ++ [[]] := by
  induction a with
  | nil => right; simp [rawLines]
  | cons c a ih =>
    by_cases hc : c = '\n'
    · subst hc
      rw [List.cons_append, rawLines_newline_cons, rawLines_newline_cons]
      rcases ih with ih | ih
      · left; rw [ih]
      · right; rw [ih]; rfl
    · rw [List.cons_append, rawLines_cons _ _ hc, rawLines_cons _ _ hc]
      rcases ih with ih | ih
      · left; rw [ih]
      · rw [ih]
        cases h : rawLines a with
        | nil => left; rfl
        | cons l ls => right; rfl

/-- A text without a line feed is one line, or no line when it is empty. -/
theorem rawLines_of_no_newline (l : List Char) (h : '\n' ∉ l) :
    rawLines l = if l = [] then [] else [l] := by
  induction l with
  | nil => simp [rawLines]
  | cons c l ih =>
    have hc : ¬ c = '\n' := fun hc => h (by simp [hc])
    have hl : '\n' ∉ l := fun hl => h (List.mem_cons_of_mem _ hl)
    rw [rawLines_cons _ _ hc, ih hl]
    by_cases hn : l = []
    · simp [hn]
    · simp [hn]

theorem rawLines_line (l rest : List Char) (h : '\n' ∉ l) :
    rawLines (l ++ '\n' :: rest) = l :: rawLines rest := by
  induction l with
  | nil => simp [rawLines]
  | cons c l ih =>
    have hc : ¬ c = '\n' := fun hc => h (by simp [hc])
    have hl : '\n' ∉ l := fun hl => h (List.mem_cons_of_mem _ hl)
    rw [List.cons_append, rawLines_cons _ _ hc, ih hl]

theorem takeWhile_of_all {α : Type} (p : α → Bool) (l : List α) (h : ∀ x ∈ l, p x = true) :
    l.takeWhile p = l := by
  induction l with
  | nil => rfl
  | cons x l ih =>
    have hx := h x (List.mem_cons_self _ _)
    simp [List.takeWhile_cons, hx, ih (fun y hy => h y (List.mem_cons_of_mem _ hy))]

/-- Removing from a list of lines one that fits the buffer and contributes
no record does not change what the scanned lines contribute. -/
theorem scan_erase_dead {α β γ : Type} (p : α → Bool) (f : α → β) (g : β → Option γ)
    (x : α) (hp : p x = true) (hg : g (f x) = none) (A B : List α) :
    (((A ++ x :: B).takeWhile p).map f).filterMap g
      = (((A ++ B).takeWhile p).map f).filterMap g := by
  induction A with
  | nil => simp [List.takeWhile_cons, hp, List.filterMap_cons, hg]
  | cons a A ih =>
    by_cases ha : p a = true
    · simp only [List.cons_append, List.takeWhile_cons, ha, if_true, List.map_cons,
        List.filterMap_cons]
      rw [ih]
    · simp [List.takeWhile_cons, ha]

theorem lineRecord_of_deadLine (env : Platform) (line : String) (h : deadLine line) :
    lineRecord env line = none := by
  unfold lineRecord
  split
  · rfl
  · split
    · rfl
    · rcases h with ⟨h1, h2⟩ | h
      · rename_i hh
        simp [h1, h2] at hh
      · rw [parseFunctionLine_short env line (by omega)]

theorem scanLines_data (text : String) :
    scanLines text
      = ((rawLines text.data).takeWhile (fun l => decide (l.length < maxScanTokenSize))).map
          (fun l => String.mk (dropCR l)) := rfl

theorem stringsContains_prefix (p q sub : List Char)
    (h : stringsContains (String.mk p) (String.mk sub) = true) :
    stringsContains (String.mk (p ++ q)) (String.mk sub) = true := by
  simp only [stringsContains, List.any_eq_true, List.mem_tails, List.isPrefixOf_iff_prefix] at h ⊢
  obtain ⟨t, ht, hs⟩ := h
  obtain ⟨u, hu⟩ := ht
  obtain ⟨v, hv⟩ := hs
  refine ⟨t ++ q, ⟨u, by rw [← List.append_assoc, hu]⟩, ⟨v ++ q, by rw [← List.append_assoc, hv]⟩⟩

theorem longHeaderLine_length : longHeaderLine.data.length = maxScanTokenSize := by
  show ("flat flat%".data ++ List.replicate (maxScanTokenSize - 10) 'x').length = maxScanTokenSize
  rw [List.length_append, List.length_replicate]
  decide

theorem longHeaderLine_no_newline : '\n' ∉ longHeaderLine.data := by
  show '\n' ∉ "flat flat%".data ++ List.replicate (maxScanTokenSize - 10) 'x'
  rw [List.mem_append, not_or]
  refine ⟨by decide, ?_⟩
  intro h
  exact absurd (List.eq_of_mem_replicate h) (by decide)

theorem getImpactLevel_eq_impactOf (p : F64) : getImpactLevel p = impactOf p := by
  unfold getImpactLevel impactOf
  cases p with
  | nan => simp [F64.gt]
  | posInf => simp [F64.gt]
  | negInf => simp [F64.gt]
  | fin q =>
    by_cases h20 : (20 : Rat) < q
    · simp [F64.gt, h20]
    · have hle : q ≤ 20 := not_lt.1 h20
      by_cases h10 : (10 : Rat) < q
      · simp [F64.gt, F64.ge, h20, h10, hle]
      · simp [F64.gt, F64.ge, h20, h10]

theorem detectBottlenecksStep_eq (bottlenecks : List JVal) (fn : FunctionInfo) :
    detectBottlenecksStep bottlenecks fn = bottlenecks ++ classificationsOf fn := by
  unfold detectBottlenecksStep classificationsOf
  simp only [bottleneckEntry, classification, getImpactLevel_eq_impactOf, isIOName,
    isMemoryName, isConcurrencyName]
  split <;> split <;> split <;> simp

theorem foldl_detectBottlenecksStep (functions : List FunctionInfo) (bottlenecks : List JVal) :
    functions.foldl detectBottlenecksStep bottlenecks
      = bottlenecks ++ (functions.map classificationsOf).flatten := by
  induction functions generalizing bottlenecks with
  | nil => simp
  | cons fn fns ih =>
    rw [List.foldl_cons, ih, detectBottlenecksStep_eq]
    simp

theorem countStep_fields (c : SuggestionCounts) (fn : FunctionInfo) :
    (countStep c fn).runtimeCount
        = c.runtimeCount + (if stringsHasPrefix fn.Name "runtime." then 1 else 0) ∧
    (countStep c fn).gcCount
        = c.gcCount
          + (if (stringsContains fn.Name "gc" || stringsContains fn.Name "GC") then 1 else 0) ∧
    (countStep c fn).ioCount
        = c.ioCount
          + (if (stringsContains fn.Name "net." || stringsContains fn.Name "File") then 1
             else 0) := by
  unfold countStep
  refine ⟨?_, ?_, ?_⟩ <;> simp only [] <;> split <;> split <;> split <;> simp_all

theorem foldl_countStep (functions : List FunctionInfo) (c : SuggestionCounts) :
    (functions.foldl countStep c).runtimeCount = c.runtimeCount + runtimeNames functions ∧
    (functions.foldl countStep c).gcCount = c.gcCount + gcNames functions ∧
    (functions.foldl countStep c).ioCount = c.ioCount + ioNames functions := by
  induction functions generalizing c with
  | nil => simp [runtimeNames, gcNames, ioNames]
  | cons fn fns ih =>
    obtain ⟨h1, h2, h3⟩ := countStep_fields c fn
    obtain ⟨i1, i2, i3⟩ := ih (countStep c fn)
    rw [List.foldl_cons, i1, i2, i3, h1, h2, h3]
    simp only [runtimeNames, gcNames, ioNames, List.countP_cons]
    refine ⟨by omega, by omega, by omega⟩

theorem generateSuggestions_eq (functions : List FunctionInfo) (profileType : ProfileType) :
    generateSuggestions functions profileType
      = selectedSuggestions (decide (3 < gcNames functions)) (decide (2 < ioNames functions))
          (decide (profileType = ProfileTypeCPU ∧ 5 < runtimeNames functions)) := by
  obtain ⟨h1, h2, h3⟩ := foldl_countStep functions {}
  unfold generateSuggestions selectedSuggestions
  simp only [h1, h2, h3, suggestionEntry, gcSuggestion, ioSuggestion, runtimeSuggestion]
  simp only [Nat.zero_add, gt_iff_lt, List.nil_append]
  by_cases hg : 3 < gcNames functions <;> by_cases hi : 2 < ioNames functions <;>
  by_cases hr : (profileType = ProfileTypeCPU ∧ 5 < runtimeNames functions) <;>
  simp [hg, hi, hr]

theorem suggestions_distinct :
    gcSuggestion ≠ ioSuggestion ∧ gcSuggestion ≠ runtimeSuggestion ∧
    ioSuggestion ≠ runtimeSuggestion := by
  refine ⟨?_, ?_, ?_⟩ <;> simp [gcSuggestion, ioSuggestion, runtimeSuggestion]

theorem Args.index_set (args : Args) (k k' : String) (v : JVal) :
    Args.index (GoMap.set args k v) k' = if k = k' then v else Args.index args k' := by
  unfold Args.index
  rw [GoMap.get?_set]
  by_cases h : k = k' <;> simp [h]

theorem runPprof_congr (env other : Platform) (args : List String)
    (ht : other.toolPath = env.toolPath)
    (h : other.run env.toolPath ("tool" :: "pprof" :: args)
      = env.run env.toolPath ("tool" :: "pprof" :: args)) :
    runPprof other args = runPprof env args := by
  unfold runPprof
  rw [ht]
  by_cases h0 : env.toolPath = ""
  · simp [h0]
  · simp only [h0, if_false]
    show (match other.run env.toolPath ("tool" :: "pprof" :: args) with
      | Except.error (err, stderr) =>
        Except.error ("pprof command failed: " ++ err ++ ", stderr: " ++ stderr)
      | Except.ok stdout => Except.ok stdout) = _
    rw [h]
    rfl

theorem parseTextOutput_congr (env other : Platform) (h : other.parseFloat = env.parseFloat) :
    parseTextOutput other = parseTextOutput env := by
  have h1 : parseFunctionLine other = parseFunctionLine env := by
    funext line
    unfold parseFunctionLine
    rw [h]
  have h2 : parseLineStep other = parseLineStep env := by
    funext functions line
    unfold parseLineStep
    rw [h1]
  funext output
  unfold parseTextOutput
  rw [h2]

theorem parseSummary_congr (env other : Platform) (h : other.statOk = env.statOk) :
    parseSummary other = parseSummary env := by
  funext filePath profileType
  unfold parseSummary
  rw [h]

theorem assignSamples_congr (env other : Platform) (h : other.mulFloat = env.mulFloat) :
    assignSamples other = assignSamples env := by
  funext functions
  unfold assignSamples
  rw [h]

/-- The events of `HandleRequest` do not read the `initialized` flag. -/
theorem HandleRequest_events_initialized (s : Server) (b : Bool) (req : JSONRPCRequest) :
    (HandleRequest { s with initialized := b } req).events = (HandleRequest s req).events := by
  unfold HandleRequest
  by_cases h1 : req.Method = "initialize"
  · rw [if_pos h1, if_pos h1]
    unfold handleInitialize
    by_cases hp : unmarshalInitializeParams req.Params = false
    · rw [if_pos hp, if_pos hp]
    · rw [if_neg hp, if_neg hp]
  rw [if_neg h1, if_neg h1]
  by_cases h2 : req.Method = "initialized"
  · rw [if_pos h2, if_pos h2]; rfl
  rw [if_neg h2, if_neg h2]
  by_cases h3 : req.Method = "tools/list"
  · rw [if_pos h3, if_pos h3]; rfl
  rw [if_neg h3, if_neg h3]
  by_cases h4 : req.Method = "tools/call"
  · rw [if_pos h4, if_pos h4]
    unfold handleCallTool
    cases unmarshalCallParams req.Params with
    | none => rfl
    | some params =>
      simp only
      cases GoMap.get? s.toolHandlers params.Name with
      | none => rfl
      | some handler =>
        simp only
        cases (handler params.Arguments).ret <;> rfl
  rw [if_neg h4, if_neg h4]
  by_cases h5 : req.Method = "resources/list"
  · rw [if_pos h5, if_pos h5]; rfl
  rw [if_neg h5, if_neg h5]
  by_cases h6 : req.Method = "resources/read"
  · rw [if_pos h6, if_pos h6]; rfl
  rw [if_neg h6, if_neg h6]
  by_cases h7 : req.Method = "shutdown"
  · rw [if_pos h7, if_pos h7]; rfl
  rw [if_neg h7, if_neg h7]

/-- The server after `HandleRequest`: only an `initialize` request whose
params decode sets the flag. -/
theorem HandleRequest_server_eq (s : Server) (req : JSONRPCRequest) :
    (HandleRequest s req).server
      = if req.Method = "initialize" ∧ unmarshalInitializeParams req.Params = true then
          { s with initialized := true }
        else s := by
  unfold HandleRequest
  by_cases h1 : req.Method = "initialize"
  · rw [if_pos h1]
    unfold handleInitialize
    by_cases hp : unmarshalInitializeParams req.Params = false
    · rw [if_pos hp]
      simp [hp]
    · rw [if_neg hp]
      have hp' : unmarshalInitializeParams req.Params = true := by simpa using hp
      simp [h1, hp']
  rw [if_neg h1]
  have hif : ¬ (req.Method = "initialize" ∧ unmarshalInitializeParams req.Params = true) :=
    fun h => h1 h.1
  rw [if_neg hif]
  by_cases h2 : req.Method = "initialized"
  · rw [if_pos h2]; rfl
  rw [if_neg h2]
  by_cases h3 : req.Method = "tools/list"
  · rw [if_pos h3]; rfl
  rw [if_neg h3]
  by_cases h4 : req.Method = "tools/call"
  · rw [if_pos h4]
    unfold handleCallTool
    cases unmarshalCallParams req.Params with
    | none => rfl
    | some params =>
      simp only
      cases GoMap.get? s.toolHandlers params.Name with
      | none => rfl
      | some handler =>
        simp only
        cases (handler params.Arguments).ret <;> rfl
  rw [if_neg h4]
  by_cases h5 : req.Method = "resources/list"
  · rw [if_pos h5]; rfl
  rw [if_neg h5]
  by_cases h6 : req.Method = "resources/read"
  · rw [if_pos h6]; rfl
  rw [if_neg h6]
  by_cases h7 : req.Method = "shutdown"
  · rw [if_pos h7]; rfl
  rw [if_neg h7]

theorem toInt_ofInt_ten : F64.toInt (F64.ofInt 10) = 10 := by
  simp [F64.toInt, F64.ofInt, F64.minInt64]

theorem assertFloat64_of_notANumber (args : Args) (key : String) (h : notANumber args key) :
    ∃ x, assertFloat64 (args.index key) = (x, false) := by
  unfold notANumber at h
  cases hv : assertFloat64 (args.index key) with
  | mk x ok =>
    rw [hv] at h
    simp only at h
    subst h
    exact ⟨x, rfl⟩

theorem assertString_of_notAString (args : Args) (key : String) (h : notAString args key) :
    ∃ x, assertString (args.index key) = (x, false) := by
  unfold notAString at h
  cases hv : assertString (args.index key) with
  | mk x ok =>
    rw [hv] at h
    simp only at h
    subst h
    exact ⟨x, rfl⟩

theorem stringsContains_flat_of_flatPct (s : String)
    (h : stringsContains s "flat%" = true) : stringsContains s "flat" = true := by
  simp only [stringsContains, List.any_eq_true, List.mem_tails, List.isPrefixOf_iff_prefix] at h ⊢
  obtain ⟨t, ht, hs⟩ := h
  obtain ⟨v, hv⟩ := hs
  refine ⟨t, ht, ⟨'%' :: v, ?_⟩⟩
  rw [← hv]
  rfl

theorem parseFunctionLine_processedName (env : Platform) (line : String)
    (h : 7 ≤ (stringsFields line).length) :
    ∃ info, parseFunctionLine env line = some info ∧ info.Name = processedName line := by
  unfold parseFunctionLine processedName rawName
  have h6 : ¬ (stringsFields line).length < 6 := by omega
  have h6' : (stringsFields line).length ≥ 6 := by omega
  have h7 : ¬ 6 ≥ (stringsFields line).length := by omega
  simp only [h6, h7, h6', if_false, if_true]
  by_cases hidx : stringsLastIndex (stringsJoin ((stringsFields line).drop 6) " ") ":" > 0
  · simp only [hidx, if_true, true_and]
    cases hat : atoi (sliceFrom (stringsJoin ((stringsFields line).drop 6) " ")
        (stringsLastIndex (stringsJoin ((stringsFields line).drop 6) " ") ":" + 1)) with
    | none => simp
    | some lineNum =>
      by_cases hgo : stringsContains (sliceTo (stringsJoin ((stringsFields line).drop 6) " ")
          (stringsLastIndex (stringsJoin ((stringsFields line).drop 6) " ") ":")) ".go" = true
      · simp [hgo]
      · simp [hgo]
  · simp [hidx]

theorem lineRecord_isSome_iff (env : Platform) (line : String) :
    (lineRecord env line).isSome = true ↔
      stringsTrimSpace line ≠ "" ∧ stringsContains line "flat%" = false ∧
      7 ≤ (stringsFields line).length ∧ processedName line ≠ "" := by
  unfold lineRecord
  by_cases hb : stringsTrimSpace line = ""
  · simp [hb]
  by_cases hp : stringsContains line "flat%" = true
  · simp [hb, hp, stringsContains_flat_of_flatPct line hp]
  have hp' : stringsContains line "flat%" = false := by simpa using hp
  by_cases h7 : 7 ≤ (stringsFields line).length
  · obtain ⟨info, hinfo, hname⟩ := parseFunctionLine_processedName env line h7
    by_cases hn : processedName line = ""
    · simp [hb, hp', h7, hinfo, hname, hn]
    · simp [hb, hp', h7, hinfo, hname, hn]
  · rw [parseFunctionLine_short env line (by omega)]
    simp [hb, hp', h7]

theorem analyzeProfile_get_suggestions (output : PprofOutput) (focus : String)
    (threshold : F64) :
    GoMap.get? (analyzeProfile output focus threshold) "optimizationSuggestions"
      = if (generateSuggestions output.TopFunctions output.Summary.ProfileType).length > 0 then
          some (JVal.arr (generateSuggestions output.TopFunctions output.Summary.ProfileType))
        else none := by
  unfold analyzeProfile
  by_cases hs : (generateSuggestions output.TopFunctions output.Summary.ProfileType).length > 0 <;>
  by_cases hb : (detectBottlenecks output.TopFunctions).length > 0 <;>
  simp [hs, hb, GoMap.get?_set, GoMap.set, GoMap.get?]

theorem runtimeSuggestion_not_mem (functions : List FunctionInfo) (profileType : ProfileType)
    (h : profileType ≠ ProfileTypeCPU) :
    runtimeSuggestion ∉ generateSuggestions functions profileType := by
  obtain ⟨_, h2, h3⟩ := suggestions_distinct
  rw [generateSuggestions_eq]
  have hd : decide (profileType = ProfileTypeCPU ∧ 5 < runtimeNames functions) = false :=
    decide_eq_false (fun hc => h hc.1)
  rw [hd]
  unfold selectedSuggestions
  intro hm
  simp only [List.mem_append, Bool.false_eq_true, if_false, List.not_mem_nil, or_false] at hm
  rcases hm with hm | hm
  · split at hm
    · exact h2 (List.mem_singleton.1 hm).symm
    · exact absurd hm (List.not_mem_nil _)
  · split at hm
    · exact h3 (List.mem_singleton.1 hm).symm
    · exact absurd hm (List.not_mem_nil _)

theorem ParseProfile_profileType (env : Platform) (filePath : String)
    (profileType : ProfileType) (output : PprofOutput)
    (h : ParseProfile env filePath profileType = Ret.ok output) :
    output.Summary.ProfileType = profileType := by
  unfold ParseProfile at h
  split at h
  · exact absurd h (by simp)
  · injection h with h
    rw [← h]
    unfold parseSummary
    split <;> rfl

theorem GetTopN_negative (env : Platform) (filePath output : String) (n : Int)
    (hrun : runPprof env ["-top", filePath] = Except.ok output) (hn : n < 0) :
    GetTopN env filePath n = Ret.panic := by
  unfold GetTopN
  rw [hrun]
  have hgt : ((parseTextOutput env output).length : Int) > n := by omega
  simp [hgt, hn]

theorem GetTopN_nonneg (env : Platform) (filePath output : String) (n : Int)
    (hrun : runPprof env ["-top", filePath] = Except.ok output) (hn : 0 ≤ n) :
    ∃ fs, GetTopN env filePath n = Ret.ok fs ∧
      fs.length = min n.toNat (parseTextOutput env output).length := by
  unfold GetTopN
  rw [hrun]
  have h0 : ¬ n < 0 := by omega
  by_cases hgt : ((parseTextOutput env output).length : Int) > n
  · refine ⟨assignSamples env ((parseTextOutput env output).take n.toNat), by simp [hgt, h0], ?_⟩
    simp [assignSamples, List.length_take]
  · refine ⟨assignSamples env (parseTextOutput env output), by simp [hgt], ?_⟩
    have : (parseTextOutput env output).length ≤ n.toNat := by omega
    simp [assignSamples, Nat.min_eq_right this]

theorem spaceWidth_append (p q : List Char) (h : spaceWidth p ≠ 0) : spaceWidth (p ++ q) ≠ 0 := by
  rcases p with _ | ⟨a, _ | ⟨b, _ | ⟨c, p⟩⟩⟩
  · exact absurd rfl h
  · rcases q with _ | ⟨b, _ | ⟨c, q⟩⟩ <;>
      simp only [spaceWidth, List.cons_append, List.nil_append] at h ⊢ <;>
      split_ifs at h ⊢ <;> simp_all
  · rcases q with _ | ⟨c, q⟩ <;>
      simp only [spaceWidth, List.cons_append, List.nil_append] at h ⊢ <;>
      split_ifs at h ⊢ <;> simp_all
  · simp only [spaceWidth, List.cons_append] at h ⊢
    exact h

theorem spaceWidthRev_append (p q : List Char) (h : spaceWidthRev p ≠ 0) :
    spaceWidthRev (p ++ q) ≠ 0 := by
  rcases p with _ | ⟨a, _ | ⟨b, _ | ⟨c, p⟩⟩⟩
  · exact absurd rfl h
  · rcases q with _ | ⟨b, _ | ⟨c, q⟩⟩ <;>
      simp only [spaceWidthRev, List.cons_append, List.nil_append] at h ⊢ <;>
      split_ifs at h ⊢ <;> simp_all
  · rcases q with _ | ⟨c, q⟩ <;>
      simp only [spaceWidthRev, List.cons_append, List.nil_append] at h ⊢ <;>
      split_ifs at h ⊢ <;> simp_all
  · simp only [spaceWidthRev, List.cons_append] at h ⊢
    exact h

theorem trimLeftAux_of_zero (fuel : Nat) (cs : List Char) (h : spaceWidth cs = 0) :
    trimLeftAux fuel cs = cs := by
  cases fuel with
  | zero => rfl
  | succ fuel => simp only [trimLeftAux, h]

theorem trimRightRevAux_of_zero (fuel : Nat) (cs : List Char) (h : spaceWidthRev cs = 0) :
    trimRightRevAux fuel cs = cs := by
  cases fuel with
  | zero => rfl
  | succ fuel => simp only [trimRightRevAux, h]

theorem trimLeftAux_drop (fuel : Nat) (cs : List Char) :
    ∃ k, trimLeftAux fuel cs = cs.drop k := by
  induction fuel generalizing cs with
  | zero => exact ⟨0, rfl⟩
  | succ fuel ih =>
    cases hw : spaceWidth cs with
    | zero => exact ⟨0, by simp only [trimLeftAux, hw]; rfl⟩
    | succ w =>
      obtain ⟨k, hk⟩ := ih (cs.drop (w + 1))
      exact ⟨w + 1 + k, by simp only [trimLeftAux, hw, hk, List.drop_drop]⟩

theorem trimRightRevAux_drop (fuel : Nat) (cs : List Char) :
    ∃ k, trimRightRevAux fuel cs = cs.drop k := by
  induction fuel generalizing cs with
  | zero => exact ⟨0, rfl⟩
  | succ fuel ih =>
    cases hw : spaceWidthRev cs with
    | zero => exact ⟨0, by simp only [trimRightRevAux, hw]; rfl⟩
    | succ w =>
      obtain ⟨k, hk⟩ := ih (cs.drop (w + 1))
      exact ⟨w + 1 + k, by simp only [trimRightRevAux, hw, hk, List.drop_drop]⟩

theorem spaceWidth_trimLeftAux (fuel : Nat) (cs : List Char) (h : cs.length ≤ fuel) :
    spaceWidth (trimLeftAux fuel cs) = 0 := by
  induction fuel generalizing cs with
  | zero =>
    have : cs = [] := List.length_eq_zero.1 (by omega)
    subst this
    rfl
  | succ fuel ih =>
    cases hw : spaceWidth cs with
    | zero => simp only [trimLeftAux, hw]
    | succ w =>
      simp only [trimLeftAux, hw]
      apply ih
      rw [List.length_drop]
      omega

theorem spaceWidthRev_trimRightRevAux (fuel : Nat) (cs : List Char) (h : cs.length ≤ fuel) :
    spaceWidthRev (trimRightRevAux fuel cs) = 0 := by
  induction fuel generalizing cs with
  | zero =>
    have : cs = [] := List.length_eq_zero.1 (by omega)
    subst this
    rfl
  | succ fuel ih =>
    cases hw : spaceWidthRev cs with
    | zero => simp only [trimRightRevAux, hw]
    | succ w =>
      simp only [trimRightRevAux, hw]
      apply ih
      rw [List.length_drop]
      omega

theorem stringsTrimSpace_data (s : String) :
    ∃ l k, spaceWidth l = 0 ∧ (∃ j, l = s.data.drop j) ∧
      (stringsTrimSpace s).data = l.take k ∧
      spaceWidthRev (stringsTrimSpace s).data.reverse = 0 := by
  obtain ⟨j, hj⟩ := trimLeftAux_drop s.data.length s.data
  obtain ⟨k, hk⟩ := trimRightRevAux_drop (trimLeftAux s.data.length s.data).length
    (trimLeftAux s.data.length s.data).reverse
  refine ⟨trimLeftAux s.data.length s.data,
    (trimLeftAux s.data.length s.data).length - k,
    spaceWidth_trimLeftAux _ _ (Nat.le_refl _), ⟨j, hj⟩, ?_, ?_⟩
  · show (trimRightRevAux _ _).reverse = _
    rw [hk, List.drop_reverse, List.reverse_reverse]
  · show spaceWidthRev (trimRightRevAux _ _).reverse.reverse = 0
    rw [List.reverse_reverse]
    exact spaceWidthRev_trimRightRevAux _ _ (by rw [List.length_reverse])

theorem not_startsWithSpace_trimSpace (s : String) : ¬ startsWithSpace (stringsTrimSpace s) := by
  obtain ⟨l, k, hl, -, hd, -⟩ := stringsTrimSpace_data s
  unfold startsWithSpace
  rw [hd]
  intro h
  have := spaceWidth_append (l.take k) (l.drop k) h
  rw [List.take_append_drop] at this
  exact this hl

theorem not_endsWithSpace_trimSpace (s : String) : ¬ endsWithSpace (stringsTrimSpace s) := by
  obtain ⟨l, k, -, -, -, hr⟩ := stringsTrimSpace_data s
  unfold endsWithSpace
  exact fun h => h hr

theorem stringsTrimSpace_of_trimmed (t : String) (h1 : ¬ startsWithSpace t)
    (h2 : ¬ endsWithSpace t) : stringsTrimSpace t = t := by
  have h1' : spaceWidth t.data = 0 := by
    unfold startsWithSpace at h1
    exact not_not.1 h1
  have h2' : spaceWidthRev t.data.reverse = 0 := by
    unfold endsWithSpace at h2
    exact not_not.1 h2
  unfold stringsTrimSpace
  simp only [trimLeftAux_of_zero _ _ h1', trimRightRevAux_of_zero _ _ h2', List.reverse_reverse]

theorem stringsTrimSpace_idem (s : String) :
    stringsTrimSpace (stringsTrimSpace s) = stringsTrimSpace s :=
  stringsTrimSpace_of_trimmed _ (not_startsWithSpace_trimSpace s) (not_endsWithSpace_trimSpace s)

theorem mem_of_mem_trimSpace (s : String) (c : Char) (h : c ∈ (stringsTrimSpace s).data) :
    c ∈ s.data := by
  obtain ⟨l, k, -, ⟨j, hj⟩, hd, -⟩ := stringsTrimSpace_data s
  rw [hd, hj] at h
  exact List.mem_of_mem_drop (List.mem_of_mem_take h)

theorem lastIndexAux_slash (l : List Char) (i : Nat) (best : Int) :
    ('/' ∉ l ∧ lastIndexAux ['/'] l i best = best) ∨
    (∃ k, lastIndexAux ['/'] l i best = ((i + k : Nat) : Int) ∧ '/' ∈ l ∧
      '/' ∉ l.drop (k + 1)) := by
  induction l generalizing i best with
  | nil =>
    left
    exact ⟨List.not_mem_nil _, by simp [lastIndexAux]⟩
  | cons c cs ih =>
    rw [lastIndexAux]
    rcases ih (i + 1) (if List.isPrefixOf ['/'] (c :: cs) = true then (i : Int) else best) with
      ⟨hno, hr⟩ | ⟨k, hr, hk, hno⟩
    · by_cases hc : c = '/'
      · right
        refine ⟨0, ?_, by simp [hc], by simpa using hno⟩
        rw [hr]
        simp [hc]
      · left
        refine ⟨?_, ?_⟩
        · intro hm
          rcases List.mem_cons.1 hm with h | h
          · exact hc h.symm
          · exact hno h
        · rw [hr]
          have : ¬ '/' = c := fun h => hc h.symm
          simp [List.isPrefixOf, this]
    · right
      refine ⟨k + 1, ?_, List.mem_cons_of_mem _ hk, by simpa using hno⟩
      rw [hr]
      congr 1
      omega

theorem stringsLastIndex_of_no_slash (t : String) (h : '/' ∉ t.data) :
    stringsLastIndex t "/" = -1 := by
  rcases lastIndexAux_slash t.data 0 (-1) with ⟨_, hr⟩ | ⟨k, _, hk, _⟩
  · exact hr
  · exact absurd hk h

theorem cleanFunctionName_cases (s : String) :
    (¬ stringsLastIndex (stringsTrimSpace s) "/" > 0 ∧
      cleanFunctionName s = stringsTrimSpace s) ∨
    (∃ j, cleanFunctionName s = String.mk ((stringsTrimSpace s).data.drop j) ∧
      '/' ∉ (stringsTrimSpace s).data.drop j) := by
  unfold cleanFunctionName
  by_cases h : stringsLastIndex (stringsTrimSpace s) "/" > 0
  · right
    simp only [h, if_true]
    rcases lastIndexAux_slash (stringsTrimSpace s).data 0 (-1) with ⟨_, hr⟩ | ⟨k, hr, _, hno⟩
    · have h' : lastIndexAux ['/'] (stringsTrimSpace s).data 0 (-1) > 0 := h
      rw [hr] at h'
      exact absurd h' (by decide)
    · refine ⟨k + 1, ?_, hno⟩
      have hidx : stringsLastIndex (stringsTrimSpace s) "/" = ((0 + k : Nat) : Int) := hr
      rw [hidx]
      unfold sliceFrom
      congr 2
      omega
  · left
    exact ⟨h, by simp only [h, if_false]⟩

theorem not_endsWithSpace_cleanFunctionName (s : String) :
    ¬ endsWithSpace (cleanFunctionName s) := by
  rcases cleanFunctionName_cases s with ⟨_, hc⟩ | ⟨j, hc, _⟩
  · rw [hc]
    exact not_endsWithSpace_trimSpace s
  · rw [hc]
    intro h
    apply not_endsWithSpace_trimSpace s
    unfold endsWithSpace at h ⊢
    have hsplit : (stringsTrimSpace s).data.reverse
        = ((stringsTrimSpace s).data.drop j).reverse
          ++ ((stringsTrimSpace s).data.take j).reverse := by
      rw [← List.reverse_append, List.take_append_drop]
    rw [hsplit]
    exact spaceWidthRev_append _ _ h

theorem cleanFunctionName_of_trimmed (t : String) (h1 : ¬ startsWithSpace t)
    (h2 : ¬ endsWithSpace t) (h : ¬ stringsLastIndex t "/" > 0) : cleanFunctionName t = t := by
  unfold cleanFunctionName
  simp only [stringsTrimSpace_of_trimmed t h1 h2, h, if_false]

theorem cleanFunctionName_twice (s : String) :
    cleanFunctionName (cleanFunctionName s) = stringsTrimSpace (cleanFunctionName s) := by
  rcases cleanFunctionName_cases s with ⟨hidx, hc⟩ | ⟨j, hc, hno⟩
  · rw [hc, stringsTrimSpace_idem]
    exact cleanFunctionName_of_trimmed _ (not_startsWithSpace_trimSpace s)
      (not_endsWithSpace_trimSpace s) hidx
  · have hno' : '/' ∉ (stringsTrimSpace (cleanFunctionName s)).data := by
      intro hm
      have := mem_of_mem_trimSpace _ _ hm
      rw [hc] at this
      exact hno this
    have hidx := stringsLastIndex_of_no_slash _ hno'
    unfold cleanFunctionName at hidx ⊢
    rw [if_neg]
    rw [hidx]
    decide

/-- The stream loop, from any iteration and any value of the `initialized`
flag: what it writes is what `writtenFor` gives, item by item, for the
items before the one at which the loop stops. -/
theorem runLoop_written_take (env : RunEnv) (s : Server) (input : List Decoded) :
    ∀ i b, ∃ k, k ≤ input.length ∧
      (runLoop env i { s with initialized := b } input).written
        = (input.take k).filterMap (writtenFor s) := by
  induction input with
  | nil =>
    intro i b
    refine ⟨0, Nat.le_refl _, ?_⟩
    by_cases hd : env.done i = true <;> simp [runLoop, hd]
  | cons d rest ih =>
    intro i b
    by_cases hd : env.done i = true
    · exact ⟨0, Nat.zero_le _, by simp [runLoop, hd]⟩
    have hd' : env.done i = false := by simpa using hd
    cases d with
    | failure =>
      obtain ⟨k, hk, hw⟩ := ih (i + 1) b
      refine ⟨k + 1, by simp; omega, ?_⟩
      simpa [runLoop, hd', writtenFor] using hw
    | request req =>
      have hr := HandleRequest_ret_initialized s b req
      obtain ⟨b', hs⟩ := HandleRequest_server { s with initialized := b } req
      have hs' : (HandleRequest { s with initialized := b } req).server
          = { s with initialized := b' } := hs
      obtain ⟨k, hk, hw⟩ := ih (i + 1) b'
      simp only [runLoop, hd', Bool.false_eq_true, if_false, hr, hs']
      cases hres : (HandleRequest s req).ret with
      | panic => exact ⟨0, Nat.zero_le _, by simp⟩
      | error msg =>
        refine ⟨k + 1, by simp; omega, ?_⟩
        simpa [writtenFor, hres] using hw
      | ok resp =>
        cases resp with
        | none =>
          refine ⟨k + 1, by simp; omega, ?_⟩
          simpa [writtenFor, hres] using hw
        | some resp =>
          by_cases hid : req.ID.isNil = false
          · cases henc : env.encodeErr i resp with
            | some err => exact ⟨0, Nat.zero_le _, by simp [hid, henc]⟩
            | none =>
              refine ⟨k + 1, by simp; omega, ?_⟩
              simp [writtenFor, hres, hid, henc, hw]
          · have hid' : req.ID.isNil = true := by simpa using hid
            refine ⟨k + 1, by simp; omega, ?_⟩
            simpa [writtenFor, hres, hid'] using hw

theorem filterMap_take_prefix {α β : Type} (f : α → Option β) (l : List α) (k : Nat) :
    List.IsPrefix ((l.take k).filterMap f) (l.filterMap f) := by
  refine ⟨(l.drop k).filterMap f, ?_⟩
  rw [← List.filterMap_append, List.take_append_drop]

theorem assertString_optional (args : Args) (key : String) :
    (assertString (args.index key) = (optionalString args key "", true) ∧
      ∀ d, optionalString args key d = optionalString args key "") ∨
    (notAString args key ∧ (∃ x, assertString (args.index key) = (x, false)) ∧
      ∀ d, optionalString args key d = d) := by
  unfold notAString optionalString Args.index
  cases hg : GoMap.get? args key with
  | none => right; exact ⟨rfl, ⟨_, rfl⟩, fun d => rfl⟩
  | some v =>
    cases v with
    | str x => left; exact ⟨rfl, fun d => rfl⟩
    | null => right; exact ⟨rfl, ⟨_, rfl⟩, fun d => rfl⟩
    | bool b => right; exact ⟨rfl, ⟨_, rfl⟩, fun d => rfl⟩
    | num x => right; exact ⟨rfl, ⟨_, rfl⟩, fun d => rfl⟩
    | arr l => right; exact ⟨rfl, ⟨_, rfl⟩, fun d => rfl⟩
    | obj l => right; exact ⟨rfl, ⟨_, rfl⟩, fun d => rfl⟩

theorem assertFloat64_optional (args : Args) (key : String) :
    (∃ x, assertFloat64 (args.index key) = (x, true) ∧ ∀ d, optionalNumber args key d = x) ∨
    (notANumber args key ∧ (∃ x, assertFloat64 (args.index key) = (x, false)) ∧
      ∀ d, optionalNumber args key d = d) := by
  unfold notANumber optionalNumber Args.index
  cases hg : GoMap.get? args key with
  | none => right; exact ⟨rfl, ⟨_, rfl⟩, fun d => rfl⟩
  | some v =>
    cases v with
    | num x => left; exact ⟨x, rfl, fun d => rfl⟩
    | null => right; exact ⟨rfl, ⟨_, rfl⟩, fun d => rfl⟩
    | bool b => right; exact ⟨rfl, ⟨_, rfl⟩, fun d => rfl⟩
    | str x => right; exact ⟨rfl, ⟨_, rfl⟩, fun d => rfl⟩
    | arr l => right; exact ⟨rfl, ⟨_, rfl⟩, fun d => rfl⟩
    | obj l => right; exact ⟨rfl, ⟨_, rfl⟩, fun d => rfl⟩

theorem assertString_required (args : Args) (key : String)
    (h : fieldMissing args key = false) :
    assertString (args.index key) = (optionalString args key "", true) ∧
    optionalString args key "" ≠ "" := by
  have hn := assertString_of_not_fieldMissing args key h
  rcases assertString_optional args key with ⟨ha, _⟩ | ⟨_, ⟨x, hx⟩, _⟩
  · refine ⟨ha, fun he => hn (Or.inr ?_)⟩
    rw [ha]
    exact he
  · exact absurd (Or.inl (by rw [hx])) hn

/-- The handler `handleGenerateSVG` when `filePath` is present: the call
of the wrapper and what is made of its result. -/
theorem handleGenerateSVG_eq (w : Wrapper) (args : Args)
    (hf : fieldMissing args "filePath" = false) :
    handleGenerateSVG w args =
      match w.GenerateSVG (optionalString args "filePath" "") (optionalString args "focus" "")
          (optionalString args "ignore" "") with
      | Ret.panic =>
        { ret := Ret.panic
          calls := [WrapperCall.GenerateSVG (optionalString args "filePath" "")
            (optionalString args "focus" "") (optionalString args "ignore" "")] }
      | Ret.error err =>
        { ret := Ret.error ("failed to generate SVG: " ++ err)
          calls := [WrapperCall.GenerateSVG (optionalString args "filePath" "")
            (optionalString args "focus" "") (optionalString args "ignore" "")] }
      | Ret.ok svg =>
        { ret := Ret.ok (some (textResult (truncateSVG svg)
            (some [("filePath", JVal.str (optionalString args "filePath" "")),
                   ("format", JVal.str "svg")])))
          calls := [WrapperCall.GenerateSVG (optionalString args "filePath" "")
            (optionalString args "focus" "") (optionalString args "ignore" "")] } := by
  obtain ⟨hfp, hne⟩ := assertString_required args "filePath" hf
  have hcond : ¬ ((true = false) ∨ optionalString args "filePath" "" = "") := by
    simp [hne]
  unfold handleGenerateSVG
  rcases assertString_optional args "focus" with ⟨h1, _⟩ | ⟨_, ⟨x1, h1⟩, d1⟩ <;>
  rcases assertString_optional args "ignore" with ⟨h2, _⟩ | ⟨_, ⟨x2, h2⟩, d2⟩
  · simp only [hfp, h1, h2, hcond, if_false]
  · simp only [hfp, h1, h2, hcond, if_false, d2]
  · simp only [hfp, h1, h2, hcond, if_false, d1]
  · simp only [hfp, h1, h2, hcond, if_false, d1, d2]

/-- The handler `handleTopFunctions` when `filePath` is present. -/
theorem handleTopFunctions_eq (w : Wrapper) (marshalIndent : Marshal) (args : Args)
    (hf : fieldMissing args "filePath" = false) :
    handleTopFunctions w marshalIndent args =
      match w.GetTopN (optionalString args "filePath" "")
          (F64.toInt (optionalNumber args "topN" (F64.ofInt 10))) with
      | Ret.panic =>
        { ret := Ret.panic
          calls := [WrapperCall.GetTopN (optionalString args "filePath" "")
            (F64.toInt (optionalNumber args "topN" (F64.ofInt 10)))] }
      | Ret.error err =>
        { ret := Ret.error ("failed to get top functions: " ++ err)
          calls := [WrapperCall.GetTopN (optionalString args "filePath" "")
            (F64.toInt (optionalNumber args "topN" (F64.ofInt 10)))] }
      | Ret.ok functions =>
        match marshalIndent (JVal.obj
            [("filePath", JVal.str (optionalString args "filePath" "")),
             ("topN", JVal.num (F64.ofInt
               (F64.toInt (optionalNumber args "topN" (F64.ofInt 10))))),
             ("results", JVal.arr (functions.map FunctionInfo.toJVal))]) with
        | Except.error err =>
          { ret := Ret.error ("failed to marshal result: " ++ err)
            calls := [WrapperCall.GetTopN (optionalString args "filePath" "")
              (F64.toInt (optionalNumber args "topN" (F64.ofInt 10)))] }
        | Except.ok jsonOutput =>
          { ret := Ret.ok (some (textResult jsonOutput none))
            calls := [WrapperCall.GetTopN (optionalString args "filePath" "")
              (F64.toInt (optionalNumber args "topN" (F64.ofInt 10)))] } := by
  obtain ⟨hfp, hne⟩ := assertString_required args "filePath" hf
  have hcond : ¬ ((true = false) ∨ optionalString args "filePath" "" = "") := by
    simp [hne]
  unfold handleTopFunctions
  rcases assertFloat64_optional args "topN" with ⟨x, h1, d1⟩ | ⟨_, ⟨x, h1⟩, d1⟩
  · simp only [hfp, h1, hcond, if_false, d1]
  · simp only [hfp, h1, hcond, if_false, d1, toInt_ofInt_ten]

/-- The handler `handleAnalyzePerformance` when `filePath` is present. -/
theorem handleAnalyzePerformance_eq (w : Wrapper) (marshalIndent : Marshal) (args : Args)
    (hf : fieldMissing args "filePath" = false) :
    handleAnalyzePerformance w marshalIndent args =
      match w.ParseProfile (optionalString args "filePath" "") ProfileTypeAuto with
      | Ret.panic =>
        { ret := Ret.panic
          calls := [WrapperCall.ParseProfile (optionalString args "filePath" "")
            ProfileTypeAuto] }
      | Ret.error err =>
        { ret := Ret.error ("failed to parse profile: " ++ err)
          calls := [WrapperCall.ParseProfile (optionalString args "filePath" "")
            ProfileTypeAuto] }
      | Ret.ok output =>
        match marshalIndent (JVal.obj (analyzeProfile output
            (optionalString args "focus" "all")
            (optionalNumber args "threshold" (F64.fin 5)))) with
        | Except.error err =>
          { ret := Ret.error ("failed to marshal result: " ++ err)
            calls := [WrapperCall.ParseProfile (optionalString args "filePath" "")
              ProfileTypeAuto] }
        | Except.ok jsonOutput =>
          { ret := Ret.ok (some (textResult jsonOutput none))
            calls := [WrapperCall.ParseProfile (optionalString args "filePath" "")
              ProfileTypeAuto] } := by
  obtain ⟨hfp, hne⟩ := assertString_required args "filePath" hf
  have hcond : ¬ ((true = false) ∨ optionalString args "filePath" "" = "") := by
    simp [hne]
  have hfocus : ∀ output f t, analyzeProfile output f t
      = analyzeProfile output (optionalString args "focus" "all") t := fun _ _ _ => rfl
  unfold handleAnalyzePerformance
  rcases assertFloat64_optional args "threshold" with ⟨x, h1, d1⟩ | ⟨_, ⟨x, h1⟩, d1⟩ <;>
  rcases assertString_optional args "focus" with ⟨h2, _⟩ | ⟨_, ⟨x2, h2⟩, _⟩ <;>
  simp only [hfp, h1, h2, hcond, if_false, d1] <;> rfl

/-- The handler `handleListCallers` when `filePath` and `functionName` are
present. -/
theorem handleListCallers_eq (w : Wrapper) (marshalIndent : Marshal) (args : Args)
    (hf : fieldMissing args "filePath" = false)
    (hn : fieldMissing args "functionName" = false) :
    handleListCallers w marshalIndent args =
      match w.ListCallers (optionalString args "filePath" "")
          (optionalString args "functionName" "") with
      | Ret.panic =>
        { ret := Ret.panic
          calls := [WrapperCall.ListCallers (optionalString args "filePath" "")
            (optionalString args "functionName" "")] }
      | Ret.error err =>
        { ret := Ret.error ("failed to list callers: " ++ err)
          calls := [WrapperCall.ListCallers (optionalString args "filePath" "")
            (optionalString args "functionName" "")] }
      | Ret.ok output =>
        match marshalIndent (JVal.obj
            [("function", JVal.str (optionalString args "functionName" "")),
             ("filePath", JVal.str (optionalString args "filePath" "")),
             ("maxDepth", JVal.num (F64.ofInt
               (F64.toInt (optionalNumber args "maxDepth" (F64.ofInt 10))))),
             ("callers", JVal.str output)]) with
        | Except.error err =>
          { ret := Ret.error ("failed to marshal result: " ++ err)
            calls := [WrapperCall.ListCallers (optionalString args "filePath" "")
              (optionalString args "functionName" "")] }
        | Except.ok jsonOutput =>
          { ret := Ret.ok (some (textResult jsonOutput none))
            calls := [WrapperCall.ListCallers (optionalString args "filePath" "")
              (optionalString args "functionName" "")] } := by
  obtain ⟨hfp, hne⟩ := assertString_required args "filePath" hf
  obtain ⟨hfn, hne2⟩ := assertString_required args "functionName" hn
  have hcond : ¬ ((true = false) ∨ optionalString args "filePath" "" = "") := by
    simp [hne]
  have hcond2 : ¬ ((true = false) ∨ optionalString args "functionName" "" = "") := by
    simp [hne2]
  unfold handleListCallers
  rcases assertFloat64_optional args "maxDepth" with ⟨x, h1, d1⟩ | ⟨_, ⟨x, h1⟩, d1⟩
  · simp only [hfp, hfn, h1, hcond, hcond2, if_false, d1]
  · simp only [hfp, hfn, h1, hcond, hcond2, if_false, d1, toInt_ofInt_ten]

theorem truncateSVG_long (s : String) (h : 10000 < s.length) :
    truncateSVG s = s.take 10000 ++ truncationMarker := by
  simp [truncateSVG, h, truncationMarker]

theorem accentedBytes_succ (n : Nat) :
    accentedBytes (n + 1) = accentedBytes n ++ [Char.ofNat 0xC3, Char.ofNat 0xA9] := by
  unfold accentedBytes
  rw [List.replicate_succ', List.flatten_append]
  rfl

theorem accentedBytes_length (n : Nat) : (accentedBytes n).length = 2 * n + 1 := by
  induction n with
  | zero => rfl
  | succ n ih =>
    rw [accentedBytes_succ, List.length_append, ih]
    rfl

theorem runeCount_accentedBytes (n : Nat) : runeCount (accentedBytes n) = n + 1 := by
  induction n with
  | zero => decide
  | succ n ih =>
    have h2 : runeCount [Char.ofNat 0xC3, Char.ofNat 0xA9] = 1 := by decide
    unfold runeCount at ih h2 ⊢
    rw [accentedBytes_succ, List.countP_append, ih, h2]

theorem accentedBytes_take (n : Nat) :
    (accentedBytes (n + 1)).take (2 * n + 2) = accentedBytes n ++ [Char.ofNat 0xC3] := by
  have hl : 2 * n + 2 = (accentedBytes n).length + 1 := by
    rw [accentedBytes_length]
  rw [accentedBytes_succ, hl, List.take_append]
  rfl

/-- The handlers give the same result on an argument map in which an
optional argument is absent or of the wrong type and on the map with the
default stored under its key. -/
theorem handlers_with_default_stored (w : Wrapper) (marshalIndent : Marshal) (args : Args) :
    (notANumber args "topN" →
      handleTopFunctions w marshalIndent args
        = handleTopFunctions w marshalIndent
            (GoMap.set args "topN" (JVal.num (F64.ofInt 10)))) ∧
    (notANumber args "threshold" →
      handleAnalyzePerformance w marshalIndent args
        = handleAnalyzePerformance w marshalIndent
            (GoMap.set args "threshold" (JVal.num (F64.ofInt 5)))) ∧
    (notANumber args "maxDepth" →
      handleListCallers w marshalIndent args
        = handleListCallers w marshalIndent
            (GoMap.set args "maxDepth" (JVal.num (F64.ofInt 10)))) ∧
    (notAString args "focus" →
      handleGenerateSVG w args = handleGenerateSVG w (GoMap.set args "focus" (JVal.str ""))) ∧
    (notAString args "ignore" →
      handleGenerateSVG w args = handleGenerateSVG w (GoMap.set args "ignore" (JVal.str ""))) := by
  refine ⟨?_, ?_, ?_, ?_, ?_⟩
  · intro h
    obtain ⟨x, hx⟩ := assertFloat64_of_notANumber args "topN" h
    have h1 : Args.index (GoMap.set args "topN" (JVal.num (F64.ofInt 10))) "topN"
        = JVal.num (F64.ofInt 10) := by rw [Args.index_set]; simp
    have h2 : Args.index (GoMap.set args "topN" (JVal.num (F64.ofInt 10))) "filePath"
        = Args.index args "filePath" := by rw [Args.index_set]; simp
    have h3 : assertFloat64 (JVal.num (F64.ofInt 10)) = (F64.ofInt 10, true) := rfl
    unfold handleTopFunctions
    simp only [h1, h2, h3, hx, toInt_ofInt_ten]
  · intro h
    obtain ⟨x, hx⟩ := assertFloat64_of_notANumber args "threshold" h
    have h1 : Args.index (GoMap.set args "threshold" (JVal.num (F64.ofInt 5))) "threshold"
        = JVal.num (F64.ofInt 5) := by rw [Args.index_set]; simp
    have h2 : Args.index (GoMap.set args "threshold" (JVal.num (F64.ofInt 5))) "filePath"
        = Args.index args "filePath" := by rw [Args.index_set]; simp
    have h4 : Args.index (GoMap.set args "threshold" (JVal.num (F64.ofInt 5))) "focus"
        = Args.index args "focus" := by rw [Args.index_set]; simp
    have h3 : assertFloat64 (JVal.num (F64.ofInt 5)) = (F64.fin 5, true) := by
      simp [assertFloat64, F64.ofInt]
    unfold handleAnalyzePerformance
    simp only [h1, h2, h3, h4, hx]
  · intro h
    obtain ⟨x, hx⟩ := assertFloat64_of_notANumber args "maxDepth" h
    have h1 : Args.index (GoMap.set args "maxDepth" (JVal.num (F64.ofInt 10))) "maxDepth"
        = JVal.num (F64.ofInt 10) := by rw [Args.index_set]; simp
    have h2 : Args.index (GoMap.set args "maxDepth" (JVal.num (F64.ofInt 10))) "filePath"
        = Args.index args "filePath" := by rw [Args.index_set]; simp
    have h4 : Args.index (GoMap.set args "maxDepth" (JVal.num (F64.ofInt 10))) "functionName"
        = Args.index args "functionName" := by rw [Args.index_set]; simp
    have h3 : assertFloat64 (JVal.num (F64.ofInt 10)) = (F64.ofInt 10, true) := rfl
    unfold handleListCallers
    simp only [h1, h2, h3, h4, hx, toInt_ofInt_ten]
  · intro h
    obtain ⟨x, hx⟩ := assertString_of_notAString args "focus" h
    have h1 : Args.index (GoMap.set args "focus" (JVal.str "")) "focus" = JVal.str "" := by
      rw [Args.index_set]; simp
    have h2 : Args.index (GoMap.set args "focus" (JVal.str "")) "filePath"
        = Args.index args "filePath" := by rw [Args.index_set]; simp
    have h4 : Args.index (GoMap.set args "focus" (JVal.str "")) "ignore"
        = Args.index args "ignore" := by rw [Args.index_set]; simp
    have h3 : assertString (JVal.str "") = ("", true) := rfl
    unfold handleGenerateSVG
    simp only [h1, h2, h3, h4, hx]
  · intro h
    obtain ⟨x, hx⟩ := assertString_of_notAString args "ignore" h
    have h1 : Args.index (GoMap.set args "ignore" (JVal.str "")) "ignore" = JVal.str "" := by
      rw [Args.index_set]; simp
    have h2 : Args.index (GoMap.set args "ignore" (JVal.str "")) "filePath"
        = Args.index args "filePath" := by rw [Args.index_set]; simp
    have h4 : Args.index (GoMap.set args "ignore" (JVal.str "")) "focus"
        = Args.index args "focus" := by rw [Args.index_set]; simp
    have h3 : assertString (JVal.str "") = ("", true) := rfl
    unfold handleGenerateSVG
    simp only [h1, h2, h3, h4, hx]

theorem optionalNumber_of_notANumber (args : Args) (key : String) (h : notANumber args key)
    (d : F64) : optionalNumber args key d = d := by
  rcases assertFloat64_optional args key with ⟨x, hx, _⟩ | ⟨_, _, hd⟩
  · unfold notANumber at h
    rw [hx] at h
    exact absurd h (by simp)
  · exact hd d

theorem optionalString_of_notAString (args : Args) (key : String) (h : notAString args key)
    (d : String) : optionalString args key d = d := by
  rcases assertString_optional args key with ⟨hx, _⟩ | ⟨_, _, hd⟩
  · unfold notAString at h
    rw [hx] at h
    exact absurd h (by simp)
  · exact hd d

theorem parseTextOutput_of_linesWithinLimit (env : Platform) (output : String)
    (h : linesWithinLimit output) :
    parseTextOutput env output = (reportLines output).filterMap (lineRecord env) := by
  have ht : (rawLines output.data).takeWhile (fun l => decide (l.length < maxScanTokenSize))
      = rawLines output.data :=
    takeWhile_of_all _ _ (fun l hl => by simpa using h l hl)
  rw [parseTextOutput_eq_filterMap, scanLines_data, ht]
  rfl

theorem length_filterMap_eq_countP {α β : Type} (f : α → Option β) (l : List α) :
    (l.filterMap f).length = l.countP (fun a => (f a).isSome) := by
  induction l with
  | nil => rfl
  | cons a l ih =>
    cases h : f a with
    | none => simp [List.filterMap_cons, h, ih]
    | some b => simp [List.filterMap_cons, h, ih]

/-! ## The claims -/

/-- C1: after any sequence of `RegisterTool` calls on an empty registry,
the result of `tools/list` holds exactly one tool per distinct registered
name (stated up to order), each entry is the descriptor of the last
registration of its name, and the handler that `tools/call` resolves for a
name is the handler of the last registration of that name. -/
theorem tools_list_reflects_last_registration (s0 : Server)
    (h1 : s0.tools = []) (h2 : s0.toolHandlers = [])
    (regs : List (Tool × ToolHandler)) (req : JSONRPCRequest)
    (hm : req.Method = "tools/list") :
    ∃ listed : List Tool,
      (HandleRequest (registerAll s0 regs) req).ret = Ret.ok (some
        { JSONRPC := "2.0"
          ID := req.ID
          Result := some (ResultVal.listTools { Tools := listed })
          Error := none }) ∧
      (listed.map Tool.Name).Nodup ∧
      (∀ name, name ∈ listed.map Tool.Name ↔ ∃ r ∈ regs, r.1.Name = name) ∧
      (∀ t ∈ listed, (lastRegistration regs t.Name).map Prod.fst = some t) ∧
      (∀ name, GoMap.get? (registerAll s0 regs).toolHandlers name
        = (lastRegistration regs name).map Prod.snd) := by
  obtain ⟨ia, ib, ic, id⟩ := registerAll_registry s0 h1 h2 regs
  have hnames : (GoMap.values (registerAll s0 regs).tools).map Tool.Name
      = GoMap.keys (registerAll s0 regs).tools := by
    simp only [GoMap.values, GoMap.keys, List.map_map]
    apply List.map_congr_left
    intro e he
    exact id e he
  refine ⟨GoMap.values (registerAll s0 regs).tools, ?_, ?_, ?_, ?_, ib⟩
  · simp [HandleRequest, hm, handleListTools, successResponse]
  · rw [hnames]
    exact ic
  · intro name
    rw [hnames, ← lastRegistration_isSome]
    have hk := GoMap.get?_eq_none (registerAll s0 regs).tools name
    rw [ia name] at hk
    constructor
    · intro h
      cases hl : lastRegistration regs name with
      | none =>
        rw [hl] at hk
        exact absurd h (hk.1 rfl)
      | some r => rfl
    · intro h
      by_contra hc
      have := hk.2 hc
      cases hl : lastRegistration regs name with
      | none => rw [hl] at h; simp at h
      | some r => rw [hl] at this; simp at this
  · intro t ht
    obtain ⟨e, he, het⟩ := List.mem_map.1 ht
    obtain ⟨k, v⟩ := e
    simp only at het
    subst het
    have hkey : v.Name = k := id (k, v) he
    have hget := GoMap.get?_of_mem _ k v ic he
    rw [ia k] at hget
    rw [hkey]
    exact hget

/-- Witness of C1: three registrations on an empty registry, the third one
under the name of the first. -/
theorem tools_list_reflects_last_registration_witness :
    (emptyServer "mcp-pprof" "0.1.0" noToolWrapper).tools = [] ∧
    (emptyServer "mcp-pprof" "0.1.0" noToolWrapper).toolHandlers = [] ∧
    ({ pingRequest with Method := "tools/list" } : JSONRPCRequest).Method = "tools/list" ∧
    ∃ listed : List Tool,
      (HandleRequest
        (registerAll (emptyServer "mcp-pprof" "0.1.0" noToolWrapper)
          [(parseProfileTool, handleParseProfile noToolWrapper),
           (listCallersTool, handleGenerateSVG noToolWrapper),
           ({ parseProfileTool with Description := "second" }, handleGenerateSVG noToolWrapper)])
        { pingRequest with Method := "tools/list" }).ret = Ret.ok (some
        { JSONRPC := "2.0"
          ID := pingRequest.ID
          Result := some (ResultVal.listTools { Tools := listed })
          Error := none }) ∧
      (listed.map Tool.Name).Nodup ∧
      (∀ name, name ∈ listed.map Tool.Name ↔
        ∃ r ∈ [(parseProfileTool, handleParseProfile noToolWrapper),
           (listCallersTool, handleGenerateSVG noToolWrapper),
           ({ parseProfileTool with Description := "second" }, handleGenerateSVG noToolWrapper)],
          r.1.Name = name) ∧
      (∀ t ∈ listed, (lastRegistration
          [(parseProfileTool, handleParseProfile noToolWrapper),
           (listCallersTool, handleGenerateSVG noToolWrapper),
           ({ parseProfileTool with Description := "second" }, handleGenerateSVG noToolWrapper)]
          t.Name).map Prod.fst = some t) ∧
      (∀ name, GoMap.get? (registerAll (emptyServer "mcp-pprof" "0.1.0" noToolWrapper)
          [(parseProfileTool, handleParseProfile noToolWrapper),
           (listCallersTool, handleGenerateSVG noToolWrapper),
           ({ parseProfileTool with Description := "second" }, handleGenerateSVG noToolWrapper)]).toolHandlers
          name
        = (lastRegistration
          [(parseProfileTool, handleParseProfile noToolWrapper),
           (listCallersTool, handleGenerateSVG noToolWrapper),
           ({ parseProfileTool with Description := "second" }, handleGenerateSVG noToolWrapper)]
          name).map Prod.snd) :=
  ⟨rfl, rfl, rfl,
    tools_list_reflects_last_registration (emptyServer "mcp-pprof" "0.1.0" noToolWrapper)
      rfl rfl _ { pingRequest with Method := "tools/list" } rfl⟩

/-- C2: a `tools/call` request whose tool is registered and whose handler
returns an error `e` gets a response without an error object, with the id
of the request, whose result is a tool result with the error flag set and
one text block `Error: e`. -/
theorem handler_error_is_tool_level_error (s : Server) (req : JSONRPCRequest)
    (params : CallParams) (handler : ToolHandler) (e : String)
    (hm : req.Method = "tools/call")
    (hp : unmarshalCallParams req.Params = some params)
    (hh : GoMap.get? s.toolHandlers params.Name = some handler)
    (he : (handler params.Arguments).ret = Ret.error e) :
    (HandleRequest s req).ret = Ret.ok (some
      { JSONRPC := "2.0"
        ID := req.ID
        Result := some (ResultVal.toolCall (some
          { Content := [{ Type_ := "text", Text := "Error: " ++ e }]
            IsError := true
            Metadata := none }))
        Error := none }) := by
  simp [HandleRequest, hm, handleCallTool, hp, hh, he]

/-- Witness of C2: `parse_profile` called with an empty argument object on the
example server; the handler returns the error `filePath is required`. -/
theorem handler_error_is_tool_level_error_witness :
    parseProfileNoArgs.Method = "tools/call" ∧
    unmarshalCallParams parseProfileNoArgs.Params
      = some { Name := "parse_profile", Arguments := [] } ∧
    GoMap.get? exampleServer.toolHandlers "parse_profile"
      = some (handleParseProfile noToolWrapper) ∧
    (handleParseProfile noToolWrapper []).ret = Ret.error "filePath is required" ∧
    (HandleRequest exampleServer parseProfileNoArgs).ret = Ret.ok (some
      { JSONRPC := "2.0"
        ID := JVal.num (F64.ofInt 4)
        Result := some (ResultVal.toolCall (some
          { Content := [{ Type_ := "text", Text := "Error: " ++ "filePath is required" }]
            IsError := true
            Metadata := none }))
        Error := none }) :=
  ⟨rfl, rfl, rfl, rfl,
    handler_error_is_tool_level_error exampleServer parseProfileNoArgs
      { Name := "parse_profile", Arguments := [] } (handleParseProfile noToolWrapper)
      "filePath is required" rfl rfl rfl rfl⟩

/-- C3: on the server `NewServer` builds, a call of one of the six default
tools with an argument map in which a required field is absent, not a
string or empty gets a response without an error object whose result has
the error flag set and the text `Error: <field> is required`, for the first
such field in the order of the tool table; the handler is called and no
wrapper method is. -/
theorem missing_required_field_is_tool_error (name version : String) (w : Wrapper)
    (marshalIndent : Marshal) (req : JSONRPCRequest) (params : CallParams) (field : String)
    (hm : req.Method = "tools/call")
    (hp : unmarshalCallParams req.Params = some params)
    (ht : params.Name ∈ defaultToolNames)
    (hf : firstMissing params.Arguments (requiredFields params.Name) = some field) :
    HandleRequest (NewServer name version w marshalIndent) req =
      { server := NewServer name version w marshalIndent
        ret := Ret.ok (some
          { JSONRPC := "2.0"
            ID := req.ID
            Result := some (ResultVal.toolCall (some
              { Content := [{ Type_ := "text", Text := "Error: " ++ (field ++ " is required") }]
                IsError := true
                Metadata := none }))
            Error := none })
        events := [Event.handlerCall params.Name params.Arguments] } := by
  obtain ⟨tool, args⟩ := params
  simp only [defaultToolNames, List.mem_cons, List.mem_singleton, List.not_mem_nil,
    or_false] at ht
  simp only at hf
  rcases ht with ht | ht | ht | ht | ht | ht <;> subst ht
  · have h : fieldMissing args "filePath" = true ∧ field = "filePath" := by
      by_cases hx : fieldMissing args "filePath" = true
      · simp [firstMissing, requiredFields, List.find?, hx] at hf
        exact ⟨hx, hf.symm⟩
      · simp [firstMissing, requiredFields, List.find?, hx] at hf
    obtain ⟨hx, rfl⟩ := h
    exact handleCallTool_of_error _ req _ (handleParseProfile w) _ hm hp
      (by rw [NewServer_toolHandlers]; rfl) (handleParseProfile_missing w args hx)
  · have h : fieldMissing args "filePath" = true ∧ field = "filePath" := by
      by_cases hx : fieldMissing args "filePath" = true
      · simp [firstMissing, requiredFields, List.find?, hx] at hf
        exact ⟨hx, hf.symm⟩
      · simp [firstMissing, requiredFields, List.find?, hx] at hf
    obtain ⟨hx, rfl⟩ := h
    exact handleCallTool_of_error _ req _ (handleTopFunctions w marshalIndent) _ hm hp
      (by rw [NewServer_toolHandlers]; rfl) (handleTopFunctions_missing w marshalIndent args hx)
  · have h : fieldMissing args "filePath" = true ∧ field = "filePath" := by
      by_cases hx : fieldMissing args "filePath" = true
      · simp [firstMissing, requiredFields, List.find?, hx] at hf
        exact ⟨hx, hf.symm⟩
      · simp [firstMissing, requiredFields, List.find?, hx] at hf
    obtain ⟨hx, rfl⟩ := h
    exact handleCallTool_of_error _ req _ (handleGenerateSVG w) _ hm hp
      (by rw [NewServer_toolHandlers]; rfl) (handleGenerateSVG_missing w args hx)
  · have h : fieldMissing args "filePath" = true ∧ field = "filePath" := by
      by_cases hx : fieldMissing args "filePath" = true
      · simp [firstMissing, requiredFields, List.find?, hx] at hf
        exact ⟨hx, hf.symm⟩
      · simp [firstMissing, requiredFields, List.find?, hx] at hf
    obtain ⟨hx, rfl⟩ := h
    exact handleCallTool_of_error _ req _ (handleAnalyzePerformance w marshalIndent) _ hm hp
      (by rw [NewServer_toolHandlers]; rfl)
      (handleAnalyzePerformance_missing w marshalIndent args hx)
  · by_cases hx : fieldMissing args "baseFile" = true
    · simp [firstMissing, requiredFields, List.find?, hx] at hf
      subst hf
      exact handleCallTool_of_error _ req _ (handleCompareProfiles w marshalIndent) _ hm hp
        (by rw [NewServer_toolHandlers]; rfl)
        (handleCompareProfiles_missing_first w marshalIndent args hx)
    · have hx0 : fieldMissing args "baseFile" = false := by simpa using hx
      by_cases hy : fieldMissing args "compareFile" = true
      · simp [firstMissing, requiredFields, List.find?, hx0, hy] at hf
        subst hf
        exact handleCallTool_of_error _ req _ (handleCompareProfiles w marshalIndent) _ hm hp
          (by rw [NewServer_toolHandlers]; rfl)
          (handleCompareProfiles_missing_second w marshalIndent args hx0 hy)
      · simp [firstMissing, requiredFields, List.find?, hx0, hy] at hf
  · by_cases hx : fieldMissing args "filePath" = true
    · simp [firstMissing, requiredFields, List.find?, hx] at hf
      subst hf
      exact handleCallTool_of_error _ req _ (handleListCallers w marshalIndent) _ hm hp
        (by rw [NewServer_toolHandlers]; rfl)
        (handleListCallers_missing_first w marshalIndent args hx)
    · have hx0 : fieldMissing args "filePath" = false := by simpa using hx
      by_cases hy : fieldMissing args "functionName" = true
      · simp [firstMissing, requiredFields, List.find?, hx0, hy] at hf
        subst hf
        exact handleCallTool_of_error _ req _ (handleListCallers w marshalIndent) _ hm hp
          (by rw [NewServer_toolHandlers]; rfl)
          (handleListCallers_missing_second w marshalIndent args hx0 hy)
      · simp [firstMissing, requiredFields, List.find?, hx0, hy] at hf

/-- Witness of C3: `compare_profiles` with a base file and a compare file that
is a number; the error names `compareFile`. -/
theorem missing_required_field_is_tool_error_witness :
    compareBadSecond.Method = "tools/call" ∧
    unmarshalCallParams compareBadSecond.Params
      = some { Name := "compare_profiles"
               Arguments := [("baseFile", JVal.str "a.prof"),
                             ("compareFile", JVal.num (F64.ofInt 3))] } ∧
    "compare_profiles" ∈ defaultToolNames ∧
    firstMissing [("baseFile", JVal.str "a.prof"), ("compareFile", JVal.num (F64.ofInt 3))]
      (requiredFields "compare_profiles") = some "compareFile" ∧
    HandleRequest exampleServer compareBadSecond =
      { server := exampleServer
        ret := Ret.ok (some
          { JSONRPC := "2.0"
            ID := compareBadSecond.ID
            Result := some (ResultVal.toolCall (some
              { Content := [{ Type_ := "text"
                              Text := "Error: " ++ ("compareFile" ++ " is required") }]
                IsError := true
                Metadata := none }))
            Error := none })
        events := [Event.handlerCall "compare_profiles"
          [("baseFile", JVal.str "a.prof"), ("compareFile", JVal.num (F64.ofInt 3))]] } :=
  ⟨rfl, rfl, by decide, by decide,
    missing_required_field_is_tool_error "mcp-pprof" "0.1.0" noToolWrapper exampleMarshal
      compareBadSecond
      { Name := "compare_profiles"
        Arguments := [("baseFile", JVal.str "a.prof"), ("compareFile", JVal.num (F64.ofInt 3))] }
      "compareFile" rfl rfl (by decide) (by decide)⟩

/-- C4, as stated, fails: the stream loop stops at a handler panic and at a
failed write.  Fed the `top_functions` call with `topN` -1 and then a `ping`
request, both with an id, it writes nothing, although `HandleRequest`
returns a response for `ping`; when the write fails, the response to `ping`
alone is not written either. -/
theorem stdio_run_stops_before_later_requests :
    negativeTopN.ID.isNil = false ∧ pingRequest.ID.isNil = false ∧
    (HandleRequest platformServer pingRequest).ret
      = Ret.ok (some
        { JSONRPC := "2.0"
          ID := JVal.num (F64.ofInt 7)
          Result := none
          Error := some { Code := -32601, Message := "unknown method: ping",
                          Data := JVal.null } }) ∧
    (StdioTransport.Run quietEnv platformServer
      [Decoded.request negativeTopN, Decoded.request pingRequest]).written = [] ∧
    [Decoded.request negativeTopN, Decoded.request pingRequest].filterMap
        (writtenFor platformServer)
      = [{ JSONRPC := "2.0"
           ID := JVal.num (F64.ofInt 7)
           Result := none
           Error := some { Code := -32601, Message := "unknown method: ping",
                           Data := JVal.null } }] ∧
    (StdioTransport.Run brokenPipeEnv platformServer [Decoded.request pingRequest]).written
      = [] ∧
    (StdioTransport.Run brokenPipeEnv platformServer [Decoded.request pingRequest]).ret
      = Ret.error "error encoding response: broken pipe" := by
  have hpanic : (HandleRequest platformServer negativeTopN).ret = Ret.panic := rfl
  have hping : (HandleRequest platformServer pingRequest).ret
      = Ret.ok (some
        { JSONRPC := "2.0"
          ID := JVal.num (F64.ofInt 7)
          Result := none
          Error := some { Code := -32601, Message := "unknown method: ping",
                          Data := JVal.null } }) := rfl
  have h1 : negativeTopN.ID.isNil = false := rfl
  have h2 : pingRequest.ID.isNil = false := rfl
  refine ⟨h1, h2, hping, ?_, ?_, ?_, ?_⟩
  · simp [StdioTransport.Run, runLoop, quietEnv, hpanic]
  · simp [writtenFor, h1, h2, hpanic, hping]
  · simp [StdioTransport.Run, runLoop, brokenPipeEnv, hping, h2]
  · simp [StdioTransport.Run, runLoop, brokenPipeEnv, hping, h2]

/-- C4, amended: in every run the stream loop writes, in input order, the
responses `HandleRequest` returns for the decoded requests with an id that
come before the point at which the loop stops, so what is written is a
prefix of the responses to all requests with an id; when the context is
never done, no write fails and no handler panics, it is all of them and the
loop returns nil; nothing is ever written for a request without id,
whatever its method.  (The responses do not depend on the `initialized`
flag the requests before may have set.) -/
theorem stdio_run_writes_responses_of_requests_with_id (env : RunEnv) (s : Server)
    (input : List Decoded) :
    (∃ k, k ≤ input.length ∧
      (StdioTransport.Run env s input).written = (input.take k).filterMap (writtenFor s)) ∧
    List.IsPrefix (StdioTransport.Run env s input).written (input.filterMap (writtenFor s)) ∧
    ((∀ i, env.done i = false) → (∀ i resp, env.encodeErr i resp = none) →
      (∀ req, Decoded.request req ∈ input → (HandleRequest s req).ret ≠ Ret.panic) →
      (StdioTransport.Run env s input).written = input.filterMap (writtenFor s) ∧
      (StdioTransport.Run env s input).ret = Ret.ok ()) ∧
    (∀ req, writtenFor s (Decoded.request req)
      = if req.ID.isNil then none
        else match (HandleRequest s req).ret with
          | Ret.ok resp => resp
          | _ => none) ∧
    ((∀ req, Decoded.request req ∈ input → req.ID = JVal.null) →
      (StdioTransport.Run env s input).written = []) := by
  obtain ⟨k, hk, hw0⟩ := runLoop_written_take env s input 0 s.initialized
  have hw : (StdioTransport.Run env s input).written
      = (input.take k).filterMap (writtenFor s) := hw0
  have hpre : List.IsPrefix (StdioTransport.Run env s input).written
      (input.filterMap (writtenFor s)) := by
    rw [hw]
    exact filterMap_take_prefix _ _ _
  refine ⟨⟨k, hk, hw⟩, hpre, ?_, fun req => rfl, ?_⟩
  · intro hctx henc hret
    exact runLoop_written env s hctx henc input hret 0 s.initialized
  · intro hall
    have hnil : input.filterMap (writtenFor s) = [] := by
      rw [List.filterMap_eq_nil_iff]
      intro d hd
      cases d with
      | failure => rfl
      | request req =>
        have := hall req hd
        simp [writtenFor, this, JVal.isNil]
    rw [hnil] at hpre
    exact List.prefix_nil.1 hpre

/-- Witness of C4, amended: of four decoder results (an `initialize` request, the
`initialized` notification, a decode failure, a `ping` request) the loop
writes the responses to the first and the last. -/
theorem stdio_run_writes_responses_of_requests_with_id_witness :
    (∀ i, quietEnv.done i = false) ∧
    (∀ i resp, quietEnv.encodeErr i resp = none) ∧
    (∀ req, Decoded.request req ∈ exampleInput →
      (HandleRequest exampleServer req).ret ≠ Ret.panic) ∧
    (StdioTransport.Run quietEnv exampleServer exampleInput).written
      = exampleInput.filterMap (writtenFor exampleServer) ∧
    (StdioTransport.Run quietEnv exampleServer exampleInput).written =
      [{ JSONRPC := "2.0"
         ID := JVal.num (F64.ofInt 1)
         Result := some (ResultVal.initializeResult
           { ProtocolVersion := "2024-11-05"
             Capabilities := {}
             ServerInfo := { Name := "mcp-pprof", Version := "0.1.0" }
             Metadata := none })
         Error := none },
       { JSONRPC := "2.0"
         ID := JVal.num (F64.ofInt 7)
         Result := none
         Error := some { Code := -32601, Message := "unknown method: ping",
                         Data := JVal.null } }] := by
  have hret : ∀ req, Decoded.request req ∈ exampleInput →
      (HandleRequest exampleServer req).ret ≠ Ret.panic := by
    intro req hreq
    simp only [exampleInput, List.mem_cons, List.mem_singleton, Decoded.request.injEq,
      List.not_mem_nil, or_false, reduceCtorEq, false_or] at hreq
    rcases hreq with h | h | h <;> subst h <;> intro hc <;> cases hc
  exact ⟨fun _ => rfl, fun _ _ => rfl, hret,
    ((stdio_run_writes_responses_of_requests_with_id quietEnv exampleServer
      exampleInput).2.2.1 (fun _ => rfl) (fun _ _ => rfl) hret).1, rfl⟩

/-- C5, at the failing input: for the notification `initialized`, which has
no id, `HandleRequest` returns a response object, not nil, and
`handleJSONRequest` writes it as the JSON body of the HTTP reply, while the
stream transport writes nothing for the same input. -/
theorem http_transport_answers_a_notification :
    initializedNotification.ID = JVal.null ∧
    (HandleRequest exampleServer initializedNotification).ret
      = Ret.ok (some { JSONRPC := "2.0", ID := JVal.null, Result := none, Error := none }) ∧
    (handleJSONRequest exampleServer (Except.ok initializedNotification)).2
      = some (HTTPReply.json
          (some { JSONRPC := "2.0", ID := JVal.null, Result := none, Error := none })) ∧
    (StdioTransport.Run quietEnv exampleServer
      [Decoded.request initializedNotification]).written = [] :=
  ⟨rfl, rfl, rfl, rfl⟩

/-- C6, as stated, fails: an `initialize` request without params is
answered with the error InvalidParams and no result, not with a success
response carrying the protocol version. -/
theorem initialize_without_params_is_rejected :
    initializeNoParams.Method = "initialize" ∧
    (HandleRequest exampleServer initializeNoParams).ret = Ret.ok (some
      { JSONRPC := "2.0"
        ID := JVal.num (F64.ofInt 1)
        Result := none
        Error := some { Code := -32602, Message := "invalid params", Data := JVal.null } }) ∧
    ¬ ∃ resp r, (HandleRequest exampleServer initializeNoParams).ret = Ret.ok (some resp) ∧
        resp.Error = none ∧
        resp.Result = some (ResultVal.initializeResult r) ∧
        r.ProtocolVersion = "2024-11-05" := by
  have h : (HandleRequest exampleServer initializeNoParams).ret = Ret.ok (some
      { JSONRPC := "2.0"
        ID := JVal.num (F64.ofInt 1)
        Result := none
        Error := some { Code := -32602, Message := "invalid params", Data := JVal.null } }) := rfl
  refine ⟨rfl, h, ?_⟩
  rintro ⟨resp, r, hr, he, -, -⟩
  rw [h] at hr
  injection hr with hr
  injection hr with hr
  subst hr
  simp at he

/-- C6, amended: an `initialize` request whose params payload decodes into
the parameter struct gets, whatever protocol version the payload declares,
a success response whose result carries the protocol version `2024-11-05`,
and the server is marked initialized; a request whose payload is absent or
does not decode gets the error InvalidParams, which is -32602, with no
result, and the server is left as it was. -/
theorem initialize_fixed_protocol_version (s : Server) (req : JSONRPCRequest)
    (hm : req.Method = "initialize") :
    (unmarshalInitializeParams req.Params = true →
      HandleRequest s req =
        { server := { s with initialized := true }
          ret := Ret.ok (some
            { JSONRPC := "2.0"
              ID := req.ID
              Result := some (ResultVal.initializeResult
                { ProtocolVersion := "2024-11-05"
                  Capabilities := {}
                  ServerInfo := s.serverInfo
                  Metadata := none })
              Error := none })
          events := [] }) ∧
    (unmarshalInitializeParams req.Params = false →
      HandleRequest s req =
        { server := s
          ret := Ret.ok (some
            { JSONRPC := "2.0"
              ID := req.ID
              Result := none
              Error := some { Code := InvalidParams, Message := "invalid params",
                              Data := JVal.null } })
          events := [] }) ∧
    (req.Params = none → unmarshalInitializeParams req.Params = false) ∧
    InvalidParams = -32602 := by
  refine ⟨fun hp => ?_, fun hp => ?_, fun hn => ?_, rfl⟩
  · simp [HandleRequest, hm, handleInitialize, hp, successResponse]
  · simp [HandleRequest, hm, handleInitialize, hp, errorResponse]
  · rw [hn]
    rfl

/-- Witness of C6, amended: a client that declares the version `1999-01-01`
is answered with `2024-11-05`; a payload that is present and declares the
number 5 as its version does not decode and is answered with
InvalidParams. -/
theorem initialize_fixed_protocol_version_witness :
    initializeOldClient.Method = "initialize" ∧
    unmarshalInitializeParams initializeOldClient.Params = true ∧
    (HandleRequest exampleServer initializeOldClient).ret = Ret.ok (some
      { JSONRPC := "2.0"
        ID := JVal.num (F64.ofInt 1)
        Result := some (ResultVal.initializeResult
          { ProtocolVersion := "2024-11-05"
            Capabilities := {}
            ServerInfo := { Name := "mcp-pprof", Version := "0.1.0" }
            Metadata := none })
        Error := none }) ∧
    initializeBadVersion.Method = "initialize" ∧
    unmarshalInitializeParams initializeBadVersion.Params = false ∧
    (HandleRequest exampleServer initializeBadVersion).ret = Ret.ok (some
      { JSONRPC := "2.0"
        ID := JVal.num (F64.ofInt 1)
        Result := none
        Error := some { Code := -32602, Message := "invalid params", Data := JVal.null } }) :=
  ⟨rfl, by decide,
    by
      rw [(initialize_fixed_protocol_version exampleServer initializeOldClient rfl).1
        (by decide)]
      rfl,
    rfl, by decide,
    by
      rw [(initialize_fixed_protocol_version exampleServer initializeBadVersion rfl).2.1
        (by decide)]
      rfl⟩

/-- C7: a `tools/call` request whose decoded name is not a key of the
handler registry gets an error response with code MethodNotFound, which is
-32601, no result and the id of the request; no handler is called and the
server is unchanged. -/
theorem unknown_tool_is_method_not_found (s : Server) (req : JSONRPCRequest)
    (params : CallParams)
    (hm : req.Method = "tools/call")
    (hp : unmarshalCallParams req.Params = some params)
    (hh : params.Name ∉ GoMap.keys s.toolHandlers) :
    HandleRequest s req =
      { server := s
        ret := Ret.ok (some
          { JSONRPC := "2.0"
            ID := req.ID
            Result := none
            Error := some { Code := MethodNotFound
                            Message := "tool not found: " ++ params.Name
                            Data := JVal.null } })
        events := [] } ∧ MethodNotFound = -32601 := by
  have hn : GoMap.get? s.toolHandlers params.Name = none :=
    (GoMap.get?_eq_none _ _).2 hh
  simp [HandleRequest, hm, handleCallTool, hp, hn, errorResponse, MethodNotFound]

/-- Witness of C7: a call of `no_such_tool` on the example server. -/
theorem unknown_tool_is_method_not_found_witness :
    unknownToolCall.Method = "tools/call" ∧
    unmarshalCallParams unknownToolCall.Params
      = some { Name := "no_such_tool", Arguments := [] } ∧
    "no_such_tool" ∉ GoMap.keys exampleServer.toolHandlers ∧
    (HandleRequest exampleServer unknownToolCall).events = [] :=
  ⟨rfl, rfl, by decide,
    by
      rw [(unknown_tool_is_method_not_found exampleServer unknownToolCall
        { Name := "no_such_tool", Arguments := [] } rfl rfl (by decide)).1]⟩

/-- C8: a request whose method is none of the seven built-in ones gets,
without failure, an error response with code MethodNotFound, which is
-32601, the id of the request and no result; the server is unchanged and
nothing else happens. -/
theorem unknown_method_is_method_not_found (s : Server) (req : JSONRPCRequest)
    (h : req.Method ∉ ["initialize", "initialized", "tools/list", "tools/call",
      "resources/list", "resources/read", "shutdown"]) :
    HandleRequest s req =
      { server := s
        ret := Ret.ok (some
          { JSONRPC := "2.0"
            ID := req.ID
            Result := none
            Error := some { Code := MethodNotFound
                            Message := "unknown method: " ++ req.Method
                            Data := JVal.null } })
        events := [] } ∧ MethodNotFound = -32601 := by
  simp only [List.mem_cons, List.mem_singleton, not_or, List.not_mem_nil, or_false] at h
  obtain ⟨h1, h2, h3, h4, h5, h6, h7⟩ := h
  simp [HandleRequest, h1, h2, h3, h4, h5, h6, h7, errorResponse, MethodNotFound]

/-- Witness of C8: the method `ping` on the example server. -/
theorem unknown_method_is_method_not_found_witness :
    pingRequest.Method ∉ ["initialize", "initialized", "tools/list", "tools/call",
      "resources/list", "resources/read", "shutdown"] ∧
    (HandleRequest exampleServer pingRequest).ret = Ret.ok (some
      { JSONRPC := "2.0"
        ID := JVal.num (F64.ofInt 7)
        Result := none
        Error := some { Code := -32601, Message := "unknown method: ping", Data := JVal.null } }) :=
  ⟨by decide,
    by
      rw [(unknown_method_is_method_not_found exampleServer pingRequest (by decide)).1]
      rfl⟩

/-- C9: a `resources/read` request gets, in every server state and for
every params payload, an error response with code InternalError, which is
-32603, the message `not implemented` and no result. -/
theorem read_resource_not_implemented (s : Server) (req : JSONRPCRequest)
    (h : req.Method = "resources/read") :
    HandleRequest s req =
      { server := s
        ret := Ret.ok (some
          { JSONRPC := "2.0"
            ID := req.ID
            Result := none
            Error := some { Code := InternalError
                            Message := "not implemented"
                            Data := JVal.null } })
        events := [] } ∧ InternalError = -32603 := by
  simp [HandleRequest, h, handleReadResource, errorResponse, InternalError]

/-- Witness of C9: a `resources/read` request without params. -/
theorem read_resource_not_implemented_witness :
    readResourceRequest.Method = "resources/read" ∧
    (HandleRequest exampleServer readResourceRequest).ret = Ret.ok (some
      { JSONRPC := "2.0"
        ID := JVal.num (F64.ofInt 3)
        Result := none
        Error := some { Code := -32603, Message := "not implemented", Data := JVal.null } }) :=
  ⟨rfl,
    by
      rw [(read_resource_not_implemented exampleServer readResourceRequest rfl).1]
      rfl⟩

/-- C10, as stated, fails: the response to an `initialized` request with an
id carries neither a result nor an error. -/
theorem initialized_response_has_neither :
    ∃ resp, (HandleRequest exampleServer initializedRequest).ret = Ret.ok (some resp) ∧
      resp.Result.isSome = false ∧ resp.Error.isSome = false ∧
      ¬ exactlyOneOfResultError resp :=
  ⟨{ JSONRPC := "2.0", ID := JVal.num (F64.ofInt 2) }, rfl, rfl, rfl,
    by simp [exactlyOneOfResultError]⟩

/-- C10, amended: `HandleRequest` returns a response unless a tool handler
panics; the response to `initialized` and to `shutdown` carries neither a
result nor an error, the response to every other method (unknown ones
included) carries exactly one of the two. -/
theorem response_result_error_presence (s : Server) (req : JSONRPCRequest) :
    match (HandleRequest s req).ret with
    | Ret.ok (some resp) =>
      if req.Method = "initialized" ∨ req.Method = "shutdown" then
        resp.Result = none ∧ resp.Error = none
      else exactlyOneOfResultError resp
    | Ret.ok none => False
    | Ret.error _ => False
    | Ret.panic =>
      req.Method = "tools/call" ∧
      ∃ params handler, unmarshalCallParams req.Params = some params ∧
        GoMap.get? s.toolHandlers params.Name = some handler ∧
        (handler params.Arguments).ret = Ret.panic := by
  unfold HandleRequest
  by_cases h1 : req.Method = "initialize"
  · rw [if_pos h1]
    unfold handleInitialize
    by_cases hp : unmarshalInitializeParams req.Params = false
    · simp [hp, h1, errorResponse, exactlyOneOfResultError]
    · simp [hp, h1, successResponse, exactlyOneOfResultError]
  rw [if_neg h1]
  by_cases h2 : req.Method = "initialized"
  · simp [h2, handleInitialized]
  rw [if_neg h2]
  by_cases h3 : req.Method = "tools/list"
  · simp [h3, handleListTools, successResponse, exactlyOneOfResultError]
  rw [if_neg h3]
  by_cases h4 : req.Method = "tools/call"
  · rw [if_pos h4]
    unfold handleCallTool
    cases hp : unmarshalCallParams req.Params with
    | none => simp [h4, errorResponse, exactlyOneOfResultError]
    | some params =>
      cases hh : GoMap.get? s.toolHandlers params.Name with
      | none => simp [hh, h4, errorResponse, exactlyOneOfResultError]
      | some handler =>
        cases hr : (handler params.Arguments).ret with
        | ok result => simp [hh, hr, h4, successResponse, exactlyOneOfResultError]
        | error err => simp [hh, hr, h4, exactlyOneOfResultError]
        | panic => simp [hh, hr, h4]
  rw [if_neg h4]
  by_cases h5 : req.Method = "resources/list"
  · simp [h5, handleListResources, successResponse, exactlyOneOfResultError]
  rw [if_neg h5]
  by_cases h6 : req.Method = "resources/read"
  · simp [h6, handleReadResource, errorResponse, exactlyOneOfResultError]
  rw [if_neg h6]
  by_cases h7 : req.Method = "shutdown"
  · simp [h7, handleShutdown, successResponse]
  rw [if_neg h7]
  simp [h2, h7, errorResponse, exactlyOneOfResultError]

/-- C11: when the profiler prints a report for which the parser yields at
least `n` records, `GetTopN` with `1 ≤ n ≤ 100` returns exactly `n`
records, and they are the first `n` records of the parser in the same
order, with the same name, percentage, flat, cum, file and line. -/
theorem GetTopN_returns_first_n (env : Platform) (filePath output : String) (n : Int)
    (h1 : 1 ≤ n) (h100 : n ≤ 100)
    (hrun : runPprof env ["-top", filePath] = Except.ok output)
    (hlen : n ≤ ((parseTextOutput env output).length : Int)) :
    ∃ fs, GetTopN env filePath n = Ret.ok fs ∧
      (fs.length : Int) = n ∧
      fs.map FunctionInfo.parsed
        = ((parseTextOutput env output).take n.toNat).map FunctionInfo.parsed := by
  have hn : ((n.toNat : Nat) : Int) = n := Int.toNat_of_nonneg (by omega)
  have h0 : ¬ n < 0 := by omega
  have hmap : ∀ l : List FunctionInfo,
      (assignSamples env l).map FunctionInfo.parsed = l.map FunctionInfo.parsed := by
    intro l
    simp [assignSamples, List.map_map, Function.comp_def, FunctionInfo.parsed]
  have hlenA : ∀ l : List FunctionInfo, (assignSamples env l).length = l.length := by
    intro l
    simp [assignSamples]
  have hle : n.toNat ≤ (parseTextOutput env output).length := by omega
  refine ⟨assignSamples env ((parseTextOutput env output).take n.toNat), ?_, ?_, hmap _⟩
  · unfold GetTopN
    rw [hrun]
    by_cases hgt : ((parseTextOutput env output).length : Int) > n
    · simp [hgt, h0]
    · have heq : (parseTextOutput env output).length = n.toNat := by omega
      have htake : (parseTextOutput env output).take n.toNat = parseTextOutput env output := by
        rw [← heq]
        exact List.take_length _
      simp [hgt, htake]
  · rw [hlenA, List.length_take, Nat.min_eq_left hle, hn]

/-- Witness of C11: `topN = 5` on a report with six function lines returns
the first five records in rank order. -/
theorem GetTopN_returns_first_n_witness :
    (1 : Int) ≤ 5 ∧ (5 : Int) ≤ 100 ∧
    runPprof examplePlatform ["-top", "cpu.prof"] = Except.ok exampleReport ∧
    (5 : Int) ≤ ((parseTextOutput examplePlatform exampleReport).length : Int) ∧
    ∃ fs, GetTopN examplePlatform "cpu.prof" 5 = Ret.ok fs ∧
      (fs.length : Int) = 5 ∧
      fs.map FunctionInfo.parsed
        = ((parseTextOutput examplePlatform exampleReport).take 5).map FunctionInfo.parsed ∧
      fs.map FunctionInfo.Name
        = ["main.compute", "runtime.mallocgc", "sync.(*Mutex).Lock", "net.(*conn).Read",
           "main.helper"] := by
  refine ⟨by decide, by decide, rfl, by decide, ?_⟩
  obtain ⟨fs, h1, h2, h3⟩ := GetTopN_returns_first_n examplePlatform "cpu.prof" exampleReport 5
    (by decide) (by decide) rfl (by decide)
  refine ⟨fs, h1, h2, h3, ?_⟩
  have hname : fs.map FunctionInfo.Name = (fs.map FunctionInfo.parsed).map Prod.fst := by
    simp [List.map_map, Function.comp_def, FunctionInfo.parsed]
  rw [hname, h3]
  decide

/-- C12, as stated, fails for a text with characters of more than one
byte: the letter `a` followed by 5000 times U+00E9 has 5001 characters,
which is at most 10000, and 10001 bytes; the truncation step does not leave
it as it is but keeps its first 10000 bytes, which end with the first byte
of the last character, and appends the marker. -/
theorem truncation_counts_bytes_not_characters :
    runeCount accentedText.data = 5001 ∧
    accentedText.length = 10001 ∧
    truncateSVG accentedText = accentedText.take 10000 ++ truncationMarker ∧
    truncateSVG accentedText ≠ accentedText ∧
    (accentedText.take 10000).data = accentedBytes 4999 ++ [Char.ofNat 0xC3] ∧
    isContinuationByte (Char.ofNat 0xC3) = false ∧
    isContinuationByte (Char.ofNat 0xA9) = true := by
  have hlen : accentedText.length = 10001 := by
    show (accentedBytes 5000).length = 10001
    rw [accentedBytes_length]
  have htr : truncateSVG accentedText = accentedText.take 10000 ++ truncationMarker :=
    truncateSVG_long accentedText (by rw [hlen]; decide)
  refine ⟨?_, hlen, htr, ?_, ?_, by decide, by decide⟩
  · show runeCount (accentedBytes 5000) = 5001
    rw [runeCount_accentedBytes]
  · intro h
    have hl : (truncateSVG accentedText).length = accentedText.length := by rw [h]
    rw [htr, String.length_append, hlen] at hl
    have ht : (accentedText.take 10000).length = 10000 := by
      rw [String.take_eq]
      show (accentedText.data.take 10000).length = 10000
      rw [List.length_take]
      exact Nat.min_eq_left (by
        show 10000 ≤ accentedText.length
        rw [hlen]
        decide)
    rw [ht] at hl
    exact absurd hl (by decide)
  · rw [String.take_eq]
    show (accentedBytes (4999 + 1)).take (2 * 4999 + 2) = _
    exact accentedBytes_take 4999

/-- C12, amended: lengths counted in bytes, the truncation step of
`generate_svg` turns a string longer than 10000 bytes into its first 10000
bytes followed by the marker (a line feed and `... (truncated) ...`),
leaves a string of at most 10000 bytes as it is, and is idempotent; the
text `generate_svg` returns on success is the truncation of the SVG the
wrapper returned. -/
theorem truncateSVG_spec (s : String) :
    (10000 < s.length →
      truncateSVG s = s.take 10000 ++ truncationMarker ∧ (s.take 10000).length = 10000) ∧
    (s.length ≤ 10000 → truncateSVG s = s) ∧
    truncationMarker = "\n" ++ "... (truncated) ..." ∧
    truncateSVG (truncateSVG s) = truncateSVG s ∧
    (∀ (w : Wrapper) (args : Args), fieldMissing args "filePath" = false →
      w.GenerateSVG (optionalString args "filePath" "") (optionalString args "focus" "")
          (optionalString args "ignore" "") = Ret.ok s →
      (handleGenerateSVG w args).ret
        = Ret.ok (some (textResult (truncateSVG s)
            (some [("filePath", JVal.str (optionalString args "filePath" "")),
                   ("format", JVal.str "svg")])))) := by
  have hlong : 10000 < s.length →
      truncateSVG s = s.take 10000 ++ truncationMarker ∧ (s.take 10000).length = 10000 := by
    intro h
    refine ⟨truncateSVG_long s h, ?_⟩
    rw [String.take_eq]
    show (s.data.take 10000).length = 10000
    rw [List.length_take]
    exact Nat.min_eq_left (Nat.le_of_lt h)
  have hshort : s.length ≤ 10000 → truncateSVG s = s := by
    intro h
    have : ¬ s.length > 10000 := by omega
    simp [truncateSVG, this]
  refine ⟨hlong, hshort, rfl, ?_, ?_⟩
  · by_cases h : 10000 < s.length
    · obtain ⟨ht, hl⟩ := hlong h
      have hlen : (s.take 10000 ++ truncationMarker).length > 10000 := by
        rw [String.length_append, hl]
        decide
      have htake : (s.take 10000 ++ truncationMarker).take 10000 = s.take 10000 :=
        take_take_append s truncationMarker 10000 (Nat.le_of_lt h)
      rw [ht]
      simp only [truncateSVG, hlen, if_true]
      rw [htake]
      rfl
    · have h' : s.length ≤ 10000 := by omega
      rw [hshort h', hshort h']
  · intro w args hf hsvg
    rw [handleGenerateSVG_eq w args hf, hsvg]

/-- Witness of C12, amended: a text of six bytes is returned as it is by the
handler of `generate_svg`; a text of 10001 bytes is cut after 10000. -/
theorem truncateSVG_spec_witness :
    ("<svg/>" : String).length ≤ 10000 ∧
    truncateSVG "<svg/>" = "<svg/>" ∧
    (handleGenerateSVG { noToolWrapper with GenerateSVG := fun _ _ _ => Ret.ok "<svg/>" }
        [("filePath", JVal.str "cpu.prof")]).ret
      = Ret.ok (some (textResult "<svg/>"
          (some [("filePath", JVal.str "cpu.prof"), ("format", JVal.str "svg")]))) ∧
    10000 < accentedText.length ∧
    truncateSVG accentedText = accentedText.take 10000 ++ truncationMarker := by
  have hlen : accentedText.length = 10001 := by
    show (accentedBytes 5000).length = 10001
    rw [accentedBytes_length]
  have hlt : 10000 < accentedText.length := by rw [hlen]; decide
  have hshort : truncateSVG "<svg/>" = "<svg/>" := (truncateSVG_spec "<svg/>").2.1 (by decide)
  refine ⟨by decide, hshort, ?_, hlt, ((truncateSVG_spec accentedText).1 hlt).1⟩
  have h := (truncateSVG_spec "<svg/>").2.2.2.2
    { noToolWrapper with GenerateSVG := fun _ _ _ => Ret.ok "<svg/>" }
    [("filePath", JVal.str "cpu.prof")] rfl rfl
  rw [hshort] at h
  exact h

/-- C13, as stated, fails: a header line of 65536 bytes ends the scan, so
the function line after it yields no record; with the header line deleted
the function line yields its record. -/
theorem long_header_line_ends_the_scan :
    stringsContains longHeaderLine "flat" = true ∧
    stringsContains longHeaderLine "flat%" = true ∧
    '\n' ∉ longHeaderLine.data ∧
    parseTextOutput examplePlatform (longHeaderLine ++ "\n" ++ fullShareLine) = [] ∧
    parseTextOutput examplePlatform fullShareLine
      = [{ Name := "main.run", Samples := 0, Percentage := F64.fin 100, Flat := F64.fin 100,
           Cum := F64.fin 100, File := "", Line := 0 }] := by
  refine ⟨?_, ?_, longHeaderLine_no_newline, ?_, rfl⟩
  · exact stringsContains_prefix "flat flat%".data _ "flat".data (by decide)
  · exact stringsContains_prefix "flat flat%".data _ "flat%".data (by decide)
  · have hd : (longHeaderLine ++ "\n" ++ fullShareLine).data
        = longHeaderLine.data ++ '\n' :: fullShareLine.data := by
      simp only [String.data_append, List.append_assoc]
      rfl
    have hnot : ¬ longHeaderLine.data.length < maxScanTokenSize := by
      rw [longHeaderLine_length]
      exact Nat.lt_irrefl _
    have hdec : decide (longHeaderLine.data.length < maxScanTokenSize) = false :=
      decide_eq_false hnot
    rw [parseTextOutput_eq_filterMap, scanLines_data, hd,
      rawLines_line _ _ longHeaderLine_no_newline]
    simp only [List.takeWhile_cons, hdec]
    rfl

/-- C13, amended: a line that fits the buffer of the scanner (fewer than
65536 bytes) and, taken without its trailing carriage return as the scanner
delivers it, contains both `flat` and `flat%` or has fewer than 6 fields
contributes no record: deleting it, with its line feed or as the last line
of the text, leaves the output of `parseTextOutput` unchanged. -/
theorem dead_line_contributes_nothing (env : Platform) (pre line post : String)
    (hpre : pre = "" ∨ pre.data.getLast? = some '\n')
    (hnl : '\n' ∉ line.data)
    (hlen : line.length < maxScanTokenSize)
    (hdead : deadLine (String.mk (dropCR line.data))) :
    parseTextOutput env (pre ++ line ++ "\n" ++ post) = parseTextOutput env (pre ++ post) ∧
    parseTextOutput env (pre ++ line) = parseTextOutput env pre := by
  have hp : (fun l : List Char => decide (l.length < maxScanTokenSize)) line.data = true := by
    simpa using hlen
  have hg : lineRecord env ((fun l => String.mk (dropCR l)) line.data) = none :=
    lineRecord_of_deadLine env _ hdead
  have hd1 : (pre ++ line ++ "\n" ++ post).data
      = pre.data ++ (line.data ++ '\n' :: post.data) := by
    simp only [String.data_append, List.append_assoc]
    rfl
  have hd2 : (pre ++ post).data = pre.data ++ post.data := by simp
  have hd3 : (pre ++ line).data = pre.data ++ line.data := by simp
  have hA : ∃ A, (∀ rest, rawLines (pre.data ++ rest) = A ++ rawLines rest) ∧
      rawLines pre.data = A := by
    rcases hpre with h | h
    · subst h
      exact ⟨[], fun rest => by simp, by simp [rawLines]⟩
    · rcases List.eq_nil_or_concat pre.data with h0 | ⟨P, c, hP⟩
      · rw [h0] at h
        simp at h
      · rw [List.concat_eq_append] at hP
        rw [hP] at h
        simp at h
        subst h
        refine ⟨rawLines (P ++ ['\n']), fun rest => ?_, by rw [hP]⟩
        rw [hP, List.append_assoc]
        exact rawLines_append P rest
  obtain ⟨A, hA, hApre⟩ := hA
  constructor
  · rw [parseTextOutput_eq_filterMap, parseTextOutput_eq_filterMap, scanLines_data,
      scanLines_data, hd1, hd2, hA, hA, rawLines_line _ _ hnl]
    exact scan_erase_dead _ _ _ line.data hp hg A (rawLines post.data)
  · rw [parseTextOutput_eq_filterMap, parseTextOutput_eq_filterMap, scanLines_data,
      scanLines_data, hd3, hA, rawLines_of_no_newline _ hnl, hApre]
    by_cases hl : line.data = []
    · simp [hl]
    · rw [if_neg hl]
      have := scan_erase_dead (fun l : List Char => decide (l.length < maxScanTokenSize))
        (fun l => String.mk (dropCR l)) (lineRecord env) line.data hp hg A []
      simpa using this

/-- Witness of C13, amended: the title line and the header line of the
example report. -/
theorem dead_line_contributes_nothing_witness :
    (("" : String) = "" ∨ ("" : String).data.getLast? = some '\n') ∧
    '\n' ∉ ("Showing nodes accounting for 100%" : String).data ∧
    ("Showing nodes accounting for 100%" : String).length < maxScanTokenSize ∧
    deadLine (String.mk (dropCR ("Showing nodes accounting for 100%" : String).data)) ∧
    parseTextOutput examplePlatform
        ("" ++ "Showing nodes accounting for 100%" ++ "\n" ++ fullShareLine)
      = parseTextOutput examplePlatform ("" ++ fullShareLine) ∧
    parseTextOutput examplePlatform ("" ++ "Showing nodes accounting for 100%")
      = parseTextOutput examplePlatform "" := by
  have h1 : (("" : String) = "" ∨ ("" : String).data.getLast? = some '\n') := Or.inl rfl
  have h2 : '\n' ∉ ("Showing nodes accounting for 100%" : String).data := by decide
  have h3 : ("Showing nodes accounting for 100%" : String).length < maxScanTokenSize := by
    decide
  have h4 : deadLine (String.mk (dropCR ("Showing nodes accounting for 100%" : String).data)) :=
    Or.inr (by decide)
  exact ⟨h1, h2, h3, h4,
    dead_line_contributes_nothing examplePlatform "" "Showing nodes accounting for 100%"
      fullShareLine h1 h2 h3 h4⟩

/-- C14: for texts whose lines all fit the buffer of the scanner, the
parser maps the concatenation with a line feed between to the
concatenation of the outputs; for every text the output consists, in
order, of the records of the scanned lines, at most one per line, so there
are at most as many records as lines. -/
theorem parseTextOutput_append (env : Platform) (a b : String)
    (ha : linesWithinLimit a) (hb : linesWithinLimit b) :
    parseTextOutput env (a ++ "\n" ++ b) = parseTextOutput env a ++ parseTextOutput env b ∧
    parseTextOutput env a = (scanLines a).filterMap (lineRecord env) ∧
    (parseTextOutput env a).length ≤ (rawLines a.data).length := by
  have hd : (a ++ "\n" ++ b).data = a.data ++ '\n' :: b.data := by
    simp only [String.data_append, List.append_assoc]
    rfl
  have hta : (rawLines a.data).takeWhile (fun l => decide (l.length < maxScanTokenSize))
      = rawLines a.data :=
    takeWhile_of_all _ _ (fun l hl => by simpa using ha l hl)
  have htb : (rawLines b.data).takeWhile (fun l => decide (l.length < maxScanTokenSize))
      = rawLines b.data :=
    takeWhile_of_all _ _ (fun l hl => by simpa using hb l hl)
  have hblank : lineRecord env (String.mk (dropCR [])) = none := by
    apply lineRecord_of_deadLine
    exact Or.inr (by decide)
  refine ⟨?_, parseTextOutput_eq_filterMap env a, ?_⟩
  · rw [parseTextOutput_eq_filterMap, parseTextOutput_eq_filterMap,
      parseTextOutput_eq_filterMap, scanLines_data, scanLines_data, scanLines_data, hd,
      rawLines_append, hta, htb]
    rcases rawLines_close a.data with h | h
    · rw [h, takeWhile_of_all]
      · simp
      · intro l hl
        rcases List.mem_append.1 hl with hl | hl
        · simpa using ha l hl
        · simpa using hb l hl
    · rw [h, takeWhile_of_all]
      · simp [hblank]
      · intro l hl
        rcases List.mem_append.1 hl with hl | hl
        · rcases List.mem_append.1 hl with hl | hl
          · simpa using ha l hl
          · have : l = [] := by simpa using hl
            subst this
            decide
        · simpa using hb l hl
  · rw [parseTextOutput_eq_filterMap, scanLines_data]
    calc ((List.map (fun l => String.mk (dropCR l))
            (List.takeWhile (fun l => decide (l.length < maxScanTokenSize))
              (rawLines a.data))).filterMap (lineRecord env)).length
        ≤ (List.map (fun l => String.mk (dropCR l))
            (List.takeWhile (fun l => decide (l.length < maxScanTokenSize))
              (rawLines a.data))).length := List.length_filterMap_le _ _
      _ = (List.takeWhile (fun l => decide (l.length < maxScanTokenSize))
              (rawLines a.data)).length := List.length_map _ _
      _ ≤ (rawLines a.data).length := by rw [hta]

/-- Witness of C14: a function line, and a header line followed by a
function line. -/
theorem parseTextOutput_append_witness :
    linesWithinLimit fullShareLine ∧
    linesWithinLimit ("flat flat%\n" ++ outOfRangeLine ++ "\n") ∧
    parseTextOutput examplePlatform
        (fullShareLine ++ "\n" ++ ("flat flat%\n" ++ outOfRangeLine ++ "\n"))
      = parseTextOutput examplePlatform fullShareLine
        ++ parseTextOutput examplePlatform ("flat flat%\n" ++ outOfRangeLine ++ "\n") := by
  have h1 : linesWithinLimit fullShareLine := by
    unfold linesWithinLimit
    decide
  have h2 : linesWithinLimit ("flat flat%\n" ++ outOfRangeLine ++ "\n") := by
    unfold linesWithinLimit
    decide
  exact ⟨h1, h2, (parseTextOutput_append examplePlatform _ _ h1 h2).1⟩

/-- C15, as stated, fails: a line whose flat field is 150 and whose
cumulative field is 250 is not omitted; its record stores both values. -/
theorem out_of_range_line_is_stored :
    parseTextOutput examplePlatform outOfRangeLine
      = [{ Name := "main.run", Samples := 0, Percentage := F64.fin 150, Flat := F64.fin 150,
           Cum := F64.fin 250, File := "", Line := 0 }] ∧
    ¬ F64.inPercentRange (F64.fin 150) ∧ ¬ F64.inPercentRange (F64.fin 250) := by
  refine ⟨rfl, ?_, ?_⟩ <;>
  · simp only [F64.inPercentRange, F64.ge]
    norm_num

/-- C15, amended: every record of the parser comes from a line with at
least 7 fields, its percentage equals its flat value, and its flat and
cumulative values are what fields 0 and 5 of that line (without a trailing
`%`) parse to, or 0 when they do not parse; no range check is made, so the
values are within `[0, 100]` exactly when the parsed fields are. -/
theorem parser_stores_parsed_values (env : Platform) (output : String) (r : FunctionInfo)
    (hr : r ∈ parseTextOutput env output) :
    ∃ line ∈ scanLines output,
      7 ≤ (stringsFields line).length ∧
      r.Percentage = r.Flat ∧
      r.Flat = (env.parseFloat
        (stringsTrimSuffix ((stringsFields line).getD 0 "") "%")).getD (F64.fin 0) ∧
      r.Cum = (env.parseFloat
        (stringsTrimSuffix ((stringsFields line).getD 5 "") "%")).getD (F64.fin 0) := by
  rw [parseTextOutput_eq_filterMap, List.mem_filterMap] at hr
  obtain ⟨line, hline, hrec⟩ := hr
  obtain ⟨hp, -⟩ := lineRecord_eq_some env line r hrec
  have h7 : 7 ≤ (stringsFields line).length := by
    by_contra hc
    rw [parseFunctionLine_short env line (by omega)] at hp
    exact absurd hp (by simp)
  obtain ⟨info, hi, ha, hb, hc, -⟩ := parseFunctionLine_long env line h7
  rw [hp] at hi
  injection hi with hi
  subst hi
  exact ⟨line, hline, h7, ha, hb, hc⟩

/-- Witness of C15, amended: the record of the out-of-range line. -/
theorem parser_stores_parsed_values_witness :
    ({ Name := "main.run", Percentage := F64.fin 150, Flat := F64.fin 150,
       Cum := F64.fin 250 } : FunctionInfo) ∈ parseTextOutput examplePlatform outOfRangeLine ∧
    ∃ line ∈ scanLines outOfRangeLine,
      7 ≤ (stringsFields line).length ∧
      F64.fin 150 = F64.fin 150 ∧
      F64.fin 150 = (examplePlatform.parseFloat
        (stringsTrimSuffix ((stringsFields line).getD 0 "") "%")).getD (F64.fin 0) ∧
      F64.fin 250 = (examplePlatform.parseFloat
        (stringsTrimSuffix ((stringsFields line).getD 5 "") "%")).getD (F64.fin 0) := by
  have hmem : parseTextOutput examplePlatform outOfRangeLine
      = [{ Name := "main.run", Percentage := F64.fin 150, Flat := F64.fin 150,
           Cum := F64.fin 250 }] := rfl
  have hin : ({ Name := "main.run", Percentage := F64.fin 150, Flat := F64.fin 150,
                Cum := F64.fin 250 } : FunctionInfo)
      ∈ parseTextOutput examplePlatform outOfRangeLine := by
    rw [hmem]
    exact List.mem_singleton.2 rfl
  exact ⟨hin, parser_stores_parsed_values examplePlatform outOfRangeLine _ hin⟩

/-- C16: a line with at least 7 fields gives a record whose flat value
equals its percentage; both are the number field 0 parses to once one
trailing `%` is stripped, or 0 when it does not parse, and the cumulative
value is the same for field 5.  Whether the line yields a record of the
output does not depend on what the numeric fields parse to. -/
theorem record_numeric_fields (env : Platform) (line : String)
    (h : 7 ≤ (stringsFields line).length) :
    (∃ info, parseFunctionLine env line = some info ∧
      info.Flat = info.Percentage ∧
      info.Flat =
        (match env.parseFloat (stringsTrimSuffix ((stringsFields line).getD 0 "") "%") with
         | some flatPct => flatPct
         | none => F64.fin 0) ∧
      info.Cum =
        (match env.parseFloat (stringsTrimSuffix ((stringsFields line).getD 5 "") "%") with
         | some cumPct => cumPct
         | none => F64.fin 0) ∧
      (lineRecord env line = some info ∨ lineRecord env line = none)) ∧
    (∀ parseFloat' : String → Option F64,
      (lineRecord { env with parseFloat := parseFloat' } line).isSome
        = (lineRecord env line).isSome) := by
  constructor
  · obtain ⟨info, hi, ha, hb, hc, -⟩ := parseFunctionLine_long env line h
    refine ⟨info, hi, ha.symm, ?_, ?_, ?_⟩
    · rw [hb]
      cases env.parseFloat (stringsTrimSuffix ((stringsFields line).getD 0 "") "%") <;> rfl
    · rw [hc]
      cases env.parseFloat (stringsTrimSuffix ((stringsFields line).getD 5 "") "%") <;> rfl
    · unfold lineRecord
      rw [hi]
      split
      · exact Or.inr rfl
      · split
        · exact Or.inr rfl
        · simp only []
          split
          · exact Or.inl rfl
          · exact Or.inr rfl
  · intro parseFloat'
    have hname := parseFunctionLine_name { env with parseFloat := parseFloat' } env line
    unfold lineRecord
    split
    · rfl
    · split
      · rfl
      · cases h1 : parseFunctionLine { env with parseFloat := parseFloat' } line <;>
        cases h2 : parseFunctionLine env line <;>
        rw [h1, h2] at hname <;> simp at hname
        · simp only []
          rw [hname]
          split <;> rfl

/-- Witness of C16: the line with the flat field `150%` and the cumulative
field `250%`. -/
theorem record_numeric_fields_witness :
    7 ≤ (stringsFields outOfRangeLine).length ∧
    ∃ info, parseFunctionLine examplePlatform outOfRangeLine = some info ∧
      info.Flat = info.Percentage ∧
      info.Flat = F64.fin 150 ∧
      info.Cum = F64.fin 250 := by
  have h7 : 7 ≤ (stringsFields outOfRangeLine).length := by decide
  obtain ⟨⟨info, hi, ha, hb, hc, -⟩, -⟩ := record_numeric_fields examplePlatform outOfRangeLine h7
  exact ⟨h7, info, hi, ha, hb.trans rfl, hc.trans rfl⟩

/-- C17, at the failing input: for the raw name `main.run /src/app/main.go:42`
the record has the line 42 and as file everything before the colon, but its
name is `main.go`, the base name of the file: the file text is not stripped
from the name, the function name is. -/
theorem source_position_replaces_function_name :
    parseFunctionLine examplePlatform positionLine
      = some { Name := "main.go", Samples := 0, Percentage := F64.fin 10, Flat := F64.fin 10,
               Cum := F64.fin 20, File := "main.run /src/app/main.go", Line := 42 } ∧
    stringsJoin ((stringsFields positionLine).drop 6) " " = "main.run /src/app/main.go:42" ∧
    stringsContains "main.run /src/app/main.go" "main.go" = true ∧
    stringsContains "main.go" "main.run" = false :=
  ⟨rfl, by decide, by decide, by decide⟩

/-- C18, at the failing input: the name `/foo`, whose only `/` is its first
byte, is returned unchanged and still contains `/`; the parser emits it as
the name of a record. -/
theorem leading_slash_is_kept :
    cleanFunctionName "/foo" = "/foo" ∧
    stringsContains (cleanFunctionName "/foo") "/" = true ∧
    stringsLastIndex (stringsTrimSpace "/foo") "/" = 0 ∧
    (parseTextOutput examplePlatform "1 2 3 4 5 6 /foo").map FunctionInfo.Name = ["/foo"] :=
  ⟨by decide, by decide, by decide, by decide⟩

/-- C19: the entry `hotspots` of the result of `analyzeProfile` is always
present and is, in input order, the list of exactly the functions whose
percentage is at least the threshold, each as the map of its name,
percentage, cumulative value, location `file:line` and samples. -/
theorem analyzeProfile_hotspots (output : PprofOutput) (focus : String) (threshold : F64) :
    GoMap.get? (analyzeProfile output focus threshold) "hotspots"
      = some (JVal.arr
          ((output.TopFunctions.filter (fun fn => F64.ge fn.Percentage threshold)).map
            (fun fn => JVal.obj
              [("function", JVal.str fn.Name),
               ("percentage", JVal.num fn.Percentage),
               ("cumulative", JVal.num fn.Cum),
               ("location", JVal.str (fn.File ++ ":" ++ formatInt fn.Line)),
               ("samples", JVal.num (F64.ofInt fn.Samples))]))) :=
  analyzeProfile_get_hotspots output focus threshold

/-- C20, as stated, fails: the parser turns a line with a flat share of
`100%` into a profile with one function, and `analyzeProfile` with the
threshold 100 reports that function as a hotspot. -/
theorem full_share_is_a_hotspot :
    parseTextOutput examplePlatform fullShareLine
      = [{ Name := "main.run", Samples := 0, Percentage := F64.fin 100, Flat := F64.fin 100,
           Cum := F64.fin 100, File := "", Line := 0 }] ∧
    GoMap.get?
        (analyzeProfile
          { Summary := { ProfileType := ProfileTypeAuto }
            TopFunctions := parseTextOutput examplePlatform fullShareLine
            RawText := fullShareLine }
          "all" (F64.fin 100))
        "hotspots"
      = some (JVal.arr
          [JVal.obj
            [("function", JVal.str "main.run"),
             ("percentage", JVal.num (F64.fin 100)),
             ("cumulative", JVal.num (F64.fin 100)),
             ("location", JVal.str ":0"),
             ("samples", JVal.num (F64.fin 0))]]) := by
  constructor
  · rfl
  · rw [analyzeProfile_get_hotspots]
    rfl

/-- C20, amended: with the threshold 100 the hotspot list holds exactly the
functions whose percentage is at least 100; it is empty if and only if no
function of the profile has a percentage of 100 or more. -/
theorem threshold_100_hotspots (output : PprofOutput) (focus : String) :
    GoMap.get? (analyzeProfile output focus (F64.fin 100)) "hotspots"
      = some (JVal.arr
          ((output.TopFunctions.filter (fun fn => F64.ge fn.Percentage (F64.fin 100))).map
            hotspotOf)) ∧
    (GoMap.get? (analyzeProfile output focus (F64.fin 100)) "hotspots" = some (JVal.arr [])
      ↔ ∀ fn ∈ output.TopFunctions, F64.ge fn.Percentage (F64.fin 100) = false) := by
  refine ⟨analyzeProfile_get_hotspots output focus _, ?_⟩
  rw [analyzeProfile_get_hotspots]
  constructor
  · intro h
    injection h with h
    injection h with h
    have hf := List.map_eq_nil_iff.1 h
    intro fn hfn
    have := List.filter_eq_nil_iff.1 hf fn hfn
    simpa using this
  · intro h
    have hf : output.TopFunctions.filter (fun fn => F64.ge fn.Percentage (F64.fin 100)) = [] := by
      rw [List.filter_eq_nil_iff]
      intro fn hfn
      simp [h fn hfn]
    rw [hf]
    rfl

/-- C21: `detectBottlenecks` returns the concatenation, over the functions
in input order, of the entries of each function, one per matching category
in the order I/O, Memory, Concurrency; the keywords are matched as
substrings, case-sensitively; each entry carries the suggestion of its
category and the impact High above 20, Medium above 10 up to 20 and Low
otherwise.  A function with `Lock` in its name at 25 percent yields one
Concurrency entry with impact High. -/
theorem detectBottlenecks_classification (functions : List FunctionInfo) :
    detectBottlenecks functions = (functions.map classificationsOf).flatten ∧
    (∀ percentage, getImpactLevel percentage = impactOf percentage) ∧
    detectBottlenecks [namedFunction "main.(*Cache).Lock" (F64.fin 25)]
      = [JVal.obj [("function", JVal.str "main.(*Cache).Lock"),
                   ("type", JVal.str "Concurrency"),
                   ("impact", JVal.str "High"),
                   ("percentage", JVal.num (F64.fin 25)),
                   ("suggestion", JVal.str
                     "Consider reducing lock contention or using lock-free data structures")]] ∧
    detectBottlenecks [namedFunction "main.(*cache).lock" (F64.fin 25)] = [] := by
  refine ⟨?_, getImpactLevel_eq_impactOf, ?_, ?_⟩
  · unfold detectBottlenecks
    rw [foldl_detectBottlenecksStep]
    rfl
  · have hgt : F64.gt (F64.fin 25) (F64.fin 20) = true := by
      simp only [F64.gt]
      norm_num
    have hio : isIOName "main.(*Cache).Lock" = false := by decide
    have hmem : isMemoryName "main.(*Cache).Lock" = false := by decide
    have hcon : isConcurrencyName "main.(*Cache).Lock" = true := by decide
    unfold detectBottlenecks
    rw [foldl_detectBottlenecksStep]
    simp [classificationsOf, classification, namedFunction, hio, hmem, hcon, impactOf, hgt]
  · have hio : isIOName "main.(*cache).lock" = false := by decide
    have hmem : isMemoryName "main.(*cache).lock" = false := by decide
    have hcon : isConcurrencyName "main.(*cache).lock" = false := by decide
    unfold detectBottlenecks
    rw [foldl_detectBottlenecksStep]
    simp [classificationsOf, namedFunction, hio, hmem, hcon]

/-- C22: the output of `generateSuggestions` contains the high-priority
suggestion about garbage collection if and only if more than 3 functions
have a name that contains `gc` or `GC`; exactly 4 trigger it, exactly 3 do
not. -/
theorem gc_suggestion_iff (functions : List FunctionInfo) (profileType : ProfileType) :
    (gcSuggestion ∈ generateSuggestions functions profileType ↔ 3 < gcNames functions) ∧
    (gcNames functions = 4 → gcSuggestion ∈ generateSuggestions functions profileType) ∧
    (gcNames functions = 3 → gcSuggestion ∉ generateSuggestions functions profileType) := by
  obtain ⟨h1, h2, -⟩ := suggestions_distinct
  have hiff : gcSuggestion ∈ generateSuggestions functions profileType
      ↔ 3 < gcNames functions := by
    rw [generateSuggestions_eq]
    unfold selectedSuggestions
    by_cases hg : 3 < gcNames functions <;> by_cases hi : 2 < ioNames functions <;>
    by_cases hr : (profileType = ProfileTypeCPU ∧ 5 < runtimeNames functions) <;>
    simp [hg, hi, hr, h1, h2]
  refine ⟨hiff, fun h => hiff.2 (by omega), fun h => fun hc => ?_⟩
  have := hiff.1 hc
  omega

/-- Witness of C22: four functions named `gcx` trigger the suggestion for a
heap profile, three do not. -/
theorem gc_suggestion_iff_witness :
    gcNames (List.replicate 4 (namedFunction "gcx" (F64.fin 1))) = 4 ∧
    gcSuggestion ∈ generateSuggestions (List.replicate 4 (namedFunction "gcx" (F64.fin 1)))
      ProfileTypeHeap ∧
    gcNames (List.replicate 3 (namedFunction "gcx" (F64.fin 1))) = 3 ∧
    gcSuggestion ∉ generateSuggestions (List.replicate 3 (namedFunction "gcx" (F64.fin 1)))
      ProfileTypeHeap :=
  ⟨by decide,
    (gc_suggestion_iff (List.replicate 4 (namedFunction "gcx" (F64.fin 1)))
      ProfileTypeHeap).2.1 (by decide),
    by decide,
    (gc_suggestion_iff (List.replicate 3 (namedFunction "gcx" (F64.fin 1)))
      ProfileTypeHeap).2.2 (by decide)⟩

/-- C23: the output of `generateSuggestions` is the sub-sequence of the
suggestions GC, I/O, Runtime, in that order and without duplicates, in
which GC is present iff more than 3 names contain `gc` or `GC`, I/O iff
more than 2 names contain `net.` or `File`, and Runtime iff more than 5
names start with `runtime.` and the profile kind is cpu; each of the 8
subsets is the output for some input. -/
theorem suggestions_subsequence (functions : List FunctionInfo) (profileType : ProfileType) :
    generateSuggestions functions profileType
      = selectedSuggestions (decide (3 < gcNames functions)) (decide (2 < ioNames functions))
          (decide (profileType = ProfileTypeCPU ∧ 5 < runtimeNames functions)) ∧
    List.Sublist (generateSuggestions functions profileType)
      [gcSuggestion, ioSuggestion, runtimeSuggestion] ∧
    [gcSuggestion, ioSuggestion, runtimeSuggestion].Nodup ∧
    (generateSuggestions functions profileType).Nodup ∧
    (ioSuggestion ∈ generateSuggestions functions profileType ↔ 2 < ioNames functions) ∧
    (runtimeSuggestion ∈ generateSuggestions functions profileType
      ↔ (profileType = ProfileTypeCPU ∧ 5 < runtimeNames functions)) ∧
    (∀ gc io runtime : Bool,
      generateSuggestions (functionsFor gc io runtime) ProfileTypeCPU
        = selectedSuggestions gc io runtime) := by
  obtain ⟨h1, h2, h3⟩ := suggestions_distinct
  have hnd : [gcSuggestion, ioSuggestion, runtimeSuggestion].Nodup := by
    simp [h1, h2, h3]
  have hsub : List.Sublist (generateSuggestions functions profileType)
      [gcSuggestion, ioSuggestion, runtimeSuggestion] := by
    rw [generateSuggestions_eq]
    unfold selectedSuggestions
    by_cases hg : 3 < gcNames functions <;> by_cases hi : 2 < ioNames functions <;>
    by_cases hr : (profileType = ProfileTypeCPU ∧ 5 < runtimeNames functions) <;>
    simp [hg, hi, hr]
  refine ⟨generateSuggestions_eq functions profileType, hsub, hnd, hsub.nodup hnd, ?_, ?_, ?_⟩
  · rw [generateSuggestions_eq]
    unfold selectedSuggestions
    by_cases hg : 3 < gcNames functions <;> by_cases hi : 2 < ioNames functions <;>
    by_cases hr : (profileType = ProfileTypeCPU ∧ 5 < runtimeNames functions) <;>
    simp [hg, hi, hr, h1.symm, h3]
  · rw [generateSuggestions_eq]
    unfold selectedSuggestions
    by_cases hg : 3 < gcNames functions <;> by_cases hi : 2 < ioNames functions <;>
    by_cases hr : (profileType = ProfileTypeCPU ∧ 5 < runtimeNames functions) <;>
    simp [hg, hi, hr, h2.symm, h3.symm]
  · intro gc io runtime
    cases gc <;> cases io <;> cases runtime <;> rfl

/-- C24: the argument vector each wrapper method passes to `runPprof` is
`-text file` for the text report, `-top file` for the ranked report,
`-svg`, then `-focus pattern` when the focus is not empty, then `-ignore
pattern` when the ignore pattern is not empty, then the file for the
flamegraph, `-list function file` for the caller listing and `-base fileA
fileB` for the differential report; `runPprof` runs the tool found by
`LookPath` on `tool pprof` followed by that vector; and the result of each
method depends on the external tool only through its run on that vector. -/
theorem wrapper_argument_vectors (env : Platform) :
    (∀ filePath profileType,
      ParseProfile env filePath profileType =
        match runPprof env ["-text", filePath] with
        | Except.error err => Ret.error ("failed to parse profile: " ++ err)
        | Except.ok output =>
          Ret.ok { RawText := output
                   Summary := parseSummary env filePath profileType
                   TopFunctions := parseTextOutput env output }) ∧
    (∀ filePath n,
      GetTopN env filePath n =
        match runPprof env ["-top", filePath] with
        | Except.error err => Ret.error ("failed to get top functions: " ++ err)
        | Except.ok output =>
          if ((parseTextOutput env output).length : Int) > n then
            if n < 0 then Ret.panic
            else Ret.ok (assignSamples env ((parseTextOutput env output).take n.toNat))
          else Ret.ok (assignSamples env (parseTextOutput env output))) ∧
    (∀ filePath focus ignore,
      GenerateSVG env filePath focus ignore
        = retOfExcept (runPprof env (svgArgs filePath focus ignore))) ∧
    (∀ filePath focus ignore,
      svgArgs filePath focus ignore
        = ["-svg"] ++ (if focus = "" then [] else ["-focus", focus])
          ++ (if ignore = "" then [] else ["-ignore", ignore]) ++ [filePath]) ∧
    (∀ filePath functionName,
      ListCallers env filePath functionName
        = retOfExcept (runPprof env ["-list", functionName, filePath])) ∧
    (∀ baseFile compareFile,
      CompareProfiles env baseFile compareFile
        = retOfExcept (runPprof env ["-base", baseFile, compareFile])) ∧
    (∀ args, env.toolPath ≠ "" →
      runPprof env args =
        match env.run env.toolPath ("tool" :: "pprof" :: args) with
        | Except.error (err, stderr) =>
          Except.error ("pprof command failed: " ++ err ++ ", stderr: " ++ stderr)
        | Except.ok stdout => Except.ok stdout) ∧
    (∀ other : Platform, other.toolPath = env.toolPath → other.statOk = env.statOk →
      other.parseFloat = env.parseFloat → other.mulFloat = env.mulFloat →
      (∀ filePath profileType,
        other.run env.toolPath ["tool", "pprof", "-text", filePath]
          = env.run env.toolPath ["tool", "pprof", "-text", filePath] →
        ParseProfile other filePath profileType = ParseProfile env filePath profileType) ∧
      (∀ filePath n,
        other.run env.toolPath ["tool", "pprof", "-top", filePath]
          = env.run env.toolPath ["tool", "pprof", "-top", filePath] →
        GetTopN other filePath n = GetTopN env filePath n) ∧
      (∀ filePath focus ignore,
        other.run env.toolPath ("tool" :: "pprof" :: svgArgs filePath focus ignore)
          = env.run env.toolPath ("tool" :: "pprof" :: svgArgs filePath focus ignore) →
        GenerateSVG other filePath focus ignore = GenerateSVG env filePath focus ignore) ∧
      (∀ filePath functionName,
        other.run env.toolPath ["tool", "pprof", "-list", functionName, filePath]
          = env.run env.toolPath ["tool", "pprof", "-list", functionName, filePath] →
        ListCallers other filePath functionName = ListCallers env filePath functionName) ∧
      (∀ baseFile compareFile,
        other.run env.toolPath ["tool", "pprof", "-base", baseFile, compareFile]
          = env.run env.toolPath ["tool", "pprof", "-base", baseFile, compareFile] →
        CompareProfiles other baseFile compareFile
          = CompareProfiles env baseFile compareFile)) := by
  have hsvg : ∀ (e : Platform) (filePath focus ignore : String),
      GenerateSVG e filePath focus ignore
        = retOfExcept (runPprof e (svgArgs filePath focus ignore)) := by
    intro e filePath focus ignore
    unfold GenerateSVG svgArgs
    by_cases hf : focus = "" <;> by_cases hi : ignore = "" <;> simp [hf, hi]
  refine ⟨fun _ _ => rfl, fun _ _ => rfl, hsvg env, fun _ _ _ => rfl, fun _ _ => rfl,
    fun _ _ => rfl, ?_, ?_⟩
  · intro args h
    simp [runPprof, h]
  · intro other ht hs hp hm
    have hrun : ∀ args, other.run env.toolPath ("tool" :: "pprof" :: args)
        = env.run env.toolPath ("tool" :: "pprof" :: args) →
        runPprof other args = runPprof env args :=
      fun args h => runPprof_congr env other args ht h
    refine ⟨?_, ?_, ?_, ?_, ?_⟩
    · intro filePath profileType h
      unfold ParseProfile
      rw [hrun _ h, parseTextOutput_congr env other hp, parseSummary_congr env other hs]
    · intro filePath n h
      unfold GetTopN
      rw [hrun _ h, parseTextOutput_congr env other hp, assignSamples_congr env other hm]
    · intro filePath focus ignore h
      rw [hsvg, hsvg, hrun _ h]
    · intro filePath functionName h
      unfold ListCallers
      rw [hrun _ h]
    · intro baseFile compareFile h
      unfold CompareProfiles
      rw [hrun _ h]

/-- Witness of C24: on the example platform, a platform that differs only
in what the tool prints for other argument vectors gives the same ranked
report. -/
theorem wrapper_argument_vectors_witness :
    examplePlatform.toolPath ≠ "" ∧
    runPprof examplePlatform ["-top", "cpu.prof"] = Except.ok exampleReport ∧
    GetTopN { examplePlatform with
        run := fun _ args =>
          if args = ["tool", "pprof", "-top", "cpu.prof"] then Except.ok exampleReport
          else Except.ok "" } "cpu.prof" 3
      = GetTopN examplePlatform "cpu.prof" 3 :=
  ⟨by decide, rfl,
    ((wrapper_argument_vectors examplePlatform).2.2.2.2.2.2.2
      { examplePlatform with
        run := fun _ args =>
          if args = ["tool", "pprof", "-top", "cpu.prof"] then Except.ok exampleReport
          else Except.ok "" } rfl rfl rfl rfl).2.1 "cpu.prof" 3 rfl⟩

/-- C25: the engine does not gate on initialization: for a request whose
method is not `initialize`, two server states that differ only in the
`initialized` flag give the same response and the same events, and the
server is left as it was; the flag is written only by an `initialize`
request whose params decode, which sets it to true; no other method,
`shutdown` included, changes it. -/
theorem initialization_is_not_gating (s : Server) (b : Bool) (req : JSONRPCRequest) :
    (req.Method ≠ "initialize" →
      (HandleRequest { s with initialized := b } req).ret = (HandleRequest s req).ret ∧
      (HandleRequest { s with initialized := b } req).events = (HandleRequest s req).events ∧
      (HandleRequest s req).server = s) ∧
    ((HandleRequest s req).server
      = if req.Method = "initialize" ∧ unmarshalInitializeParams req.Params = true then
          { s with initialized := true }
        else s) ∧
    (req.Method = "shutdown" → (HandleRequest s req).server = s) := by
  refine ⟨fun hm => ⟨HandleRequest_ret_initialized s b req,
    HandleRequest_events_initialized s b req, ?_⟩, HandleRequest_server_eq s req, fun hm => ?_⟩
  · rw [HandleRequest_server_eq]
    exact if_neg (fun h => hm h.1)
  · rw [HandleRequest_server_eq]
    refine if_neg (fun h => ?_)
    rw [hm] at h
    exact absurd h.1 (by decide)

/-- Witness of C25: a `ping` request gets the same response from the
example server before and after initialization, and leaves the server as
it was. -/
theorem initialization_is_not_gating_witness :
    pingRequest.Method ≠ "initialize" ∧
    (HandleRequest { exampleServer with initialized := true } pingRequest).ret
      = (HandleRequest exampleServer pingRequest).ret ∧
    (HandleRequest { exampleServer with initialized := true } pingRequest).events
      = (HandleRequest exampleServer pingRequest).events ∧
    (HandleRequest exampleServer pingRequest).server = exampleServer :=
  ⟨by decide, (initialization_is_not_gating exampleServer true pingRequest).1 (by decide)⟩

/-- C26: an optional argument that is absent or of the wrong type is
defaulted.  Without a numeric `topN`, `top_functions` asks the wrapper for
10 functions and reports `topN` 10; without a numeric `threshold`,
`analyze_performance` analyses with threshold 5; without a numeric
`maxDepth`, `list_callers` reports `maxDepth` 10; without a string `focus`
or `ignore`, `generate_svg` passes the empty string to the wrapper.  In
each case the handler gives the same result as on the argument map with
the default stored under the key. -/
theorem optional_arguments_default (w : Wrapper) (marshalIndent : Marshal) (args : Args) :
    (notANumber args "topN" →
      handleTopFunctions w marshalIndent args
        = handleTopFunctions w marshalIndent
            (GoMap.set args "topN" (JVal.num (F64.ofInt 10)))) ∧
    (notANumber args "threshold" →
      handleAnalyzePerformance w marshalIndent args
        = handleAnalyzePerformance w marshalIndent
            (GoMap.set args "threshold" (JVal.num (F64.ofInt 5)))) ∧
    (notANumber args "maxDepth" →
      handleListCallers w marshalIndent args
        = handleListCallers w marshalIndent
            (GoMap.set args "maxDepth" (JVal.num (F64.ofInt 10)))) ∧
    (notAString args "focus" →
      handleGenerateSVG w args = handleGenerateSVG w (GoMap.set args "focus" (JVal.str ""))) ∧
    (notAString args "ignore" →
      handleGenerateSVG w args = handleGenerateSVG w (GoMap.set args "ignore" (JVal.str ""))) ∧
    (fieldMissing args "filePath" = false → notANumber args "topN" →
      (handleTopFunctions w marshalIndent args).calls
        = [WrapperCall.GetTopN (optionalString args "filePath" "") 10] ∧
      ∀ functions text,
        w.GetTopN (optionalString args "filePath" "") 10 = Ret.ok functions →
        marshalIndent (JVal.obj
          [("filePath", JVal.str (optionalString args "filePath" "")),
           ("topN", JVal.num (F64.ofInt 10)),
           ("results", JVal.arr (functions.map FunctionInfo.toJVal))]) = Except.ok text →
        (handleTopFunctions w marshalIndent args).ret
          = Ret.ok (some (textResult text none))) ∧
    (fieldMissing args "filePath" = false → notANumber args "threshold" →
      (handleAnalyzePerformance w marshalIndent args).calls
        = [WrapperCall.ParseProfile (optionalString args "filePath" "") ProfileTypeAuto] ∧
      ∀ output text,
        w.ParseProfile (optionalString args "filePath" "") ProfileTypeAuto = Ret.ok output →
        marshalIndent (JVal.obj (analyzeProfile output (optionalString args "focus" "all")
          (F64.fin 5))) = Except.ok text →
        (handleAnalyzePerformance w marshalIndent args).ret
          = Ret.ok (some (textResult text none))) ∧
    (fieldMissing args "filePath" = false → fieldMissing args "functionName" = false →
      notANumber args "maxDepth" →
      (handleListCallers w marshalIndent args).calls
        = [WrapperCall.ListCallers (optionalString args "filePath" "")
            (optionalString args "functionName" "")] ∧
      ∀ output text,
        w.ListCallers (optionalString args "filePath" "")
          (optionalString args "functionName" "") = Ret.ok output →
        marshalIndent (JVal.obj
          [("function", JVal.str (optionalString args "functionName" "")),
           ("filePath", JVal.str (optionalString args "filePath" "")),
           ("maxDepth", JVal.num (F64.ofInt 10)),
           ("callers", JVal.str output)]) = Except.ok text →
        (handleListCallers w marshalIndent args).ret
          = Ret.ok (some (textResult text none))) ∧
    (fieldMissing args "filePath" = false → notAString args "focus" →
      (handleGenerateSVG w args).calls
        = [WrapperCall.GenerateSVG (optionalString args "filePath" "") ""
            (optionalString args "ignore" "")]) ∧
    (fieldMissing args "filePath" = false → notAString args "ignore" →
      (handleGenerateSVG w args).calls
        = [WrapperCall.GenerateSVG (optionalString args "filePath" "")
            (optionalString args "focus" "") ""]) := by
  obtain ⟨e1, e2, e3, e4, e5⟩ := handlers_with_default_stored w marshalIndent args
  refine ⟨e1, e2, e3, e4, e5, ?_, ?_, ?_, ?_, ?_⟩
  · intro hf hn
    have hd := optionalNumber_of_notANumber args "topN" hn (F64.ofInt 10)
    rw [handleTopFunctions_eq w marshalIndent args hf, hd, toInt_ofInt_ten]
    constructor
    · cases w.GetTopN (optionalString args "filePath" "") 10 with
      | panic => rfl
      | error err => rfl
      | ok functions =>
        simp only
        split <;> rfl
    · intro functions text hw hmar
      rw [hw]
      simp only [hmar]
  · intro hf hn
    have hd := optionalNumber_of_notANumber args "threshold" hn (F64.fin 5)
    rw [handleAnalyzePerformance_eq w marshalIndent args hf, hd]
    constructor
    · cases w.ParseProfile (optionalString args "filePath" "") ProfileTypeAuto with
      | panic => rfl
      | error err => rfl
      | ok output =>
        simp only
        split <;> rfl
    · intro output text hw hmar
      rw [hw]
      simp only [hmar]
  · intro hf hfn hn
    have hd := optionalNumber_of_notANumber args "maxDepth" hn (F64.ofInt 10)
    rw [handleListCallers_eq w marshalIndent args hf hfn, hd, toInt_ofInt_ten]
    constructor
    · cases w.ListCallers (optionalString args "filePath" "")
          (optionalString args "functionName" "") with
      | panic => rfl
      | error err => rfl
      | ok output =>
        simp only
        split <;> rfl
    · intro output text hw hmar
      rw [hw]
      simp only [hmar]
  · intro hf hn
    rw [handleGenerateSVG_eq w args hf, optionalString_of_notAString args "focus" hn ""]
    cases w.GenerateSVG (optionalString args "filePath" "") ""
      (optionalString args "ignore" "") <;> rfl
  · intro hf hn
    rw [handleGenerateSVG_eq w args hf, optionalString_of_notAString args "ignore" hn ""]
    cases w.GenerateSVG (optionalString args "filePath" "")
      (optionalString args "focus" "") "" <;> rfl

/-- Witness of C26: `list_callers` for `main.compute` of `cpu.prof` without
`maxDepth` reports `maxDepth` 10 next to the listing of the profiler;
`top_functions` on `cpu.prof` with a `topN` that is a string reports `topN`
10. -/
theorem optional_arguments_default_witness :
    notANumber [("filePath", JVal.str "cpu.prof"), ("functionName", JVal.str "main.compute")]
      "maxDepth" ∧
    (handleListCallers (NewWrapper listingPlatform fieldEncoder) fieldEncoder
        [("filePath", JVal.str "cpu.prof"), ("functionName", JVal.str "main.compute")]).ret
      = Ret.ok (some (textResult
          "function=main.compute;filePath=cpu.prof;maxDepth=10;callers=ROUTINE main.compute"
          none)) ∧
    notANumber [("filePath", JVal.str "cpu.prof"), ("topN", JVal.str "3")] "topN" ∧
    (handleTopFunctions (NewWrapper examplePlatform fieldEncoder) fieldEncoder
        [("filePath", JVal.str "cpu.prof"), ("topN", JVal.str "3")]).ret
      = Ret.ok (some (textResult "filePath=cpu.prof;topN=10;results=?" none)) :=
  ⟨rfl,
    ((optional_arguments_default (NewWrapper listingPlatform fieldEncoder) fieldEncoder
      [("filePath", JVal.str "cpu.prof"), ("functionName", JVal.str "main.compute")]).2.2.2.2.2.2.2.1
      rfl rfl rfl).2 "ROUTINE main.compute" _ rfl rfl,
    rfl,
    ((optional_arguments_default (NewWrapper examplePlatform fieldEncoder) fieldEncoder
      [("filePath", JVal.str "cpu.prof"), ("topN", JVal.str "3")]).2.2.2.2.2.1
      rfl rfl).2 _ _ rfl rfl⟩

/-- C27, as stated, fails: in the report made of a header line of 65536
bytes and the line `100% 1 2 3 4 100% main.run`, the second line is not
blank, does not contain `flat%`, has 7 fields and a non-empty processed
name, and yet yields no record: the scanner stops at the first line. -/
theorem qualifying_line_after_long_line_yields_nothing :
    fullShareLine ∈ reportLines (longHeaderLine ++ "\n" ++ fullShareLine) ∧
    (stringsTrimSpace fullShareLine ≠ "" ∧ stringsContains fullShareLine "flat%" = false ∧
      7 ≤ (stringsFields fullShareLine).length ∧ processedName fullShareLine ≠ "") ∧
    (lineRecord examplePlatform fullShareLine).isSome = true ∧
    ¬ linesWithinLimit (longHeaderLine ++ "\n" ++ fullShareLine) ∧
    parseTextOutput examplePlatform (longHeaderLine ++ "\n" ++ fullShareLine) = [] := by
  have hd : (longHeaderLine ++ "\n" ++ fullShareLine).data
      = longHeaderLine.data ++ '\n' :: fullShareLine.data := by
    simp only [String.data_append, List.append_assoc]
    rfl
  have hraw : rawLines (longHeaderLine ++ "\n" ++ fullShareLine).data
      = longHeaderLine.data :: rawLines fullShareLine.data := by
    rw [hd, rawLines_line _ _ longHeaderLine_no_newline]
  have hnot : ¬ longHeaderLine.data.length < maxScanTokenSize := by
    rw [longHeaderLine_length]
    exact Nat.lt_irrefl _
  refine ⟨?_, by decide, by decide, ?_, ?_⟩
  · unfold reportLines
    rw [hraw]
    exact List.mem_map.2 ⟨fullShareLine.data, List.mem_cons_of_mem _ (by decide), by decide⟩
  · intro h
    exact hnot (h longHeaderLine.data (by rw [hraw]; exact List.mem_cons_self _ _))
  · have hdec : decide (longHeaderLine.data.length < maxScanTokenSize) = false :=
      decide_eq_false hnot
    rw [parseTextOutput_eq_filterMap, scanLines_data, hraw]
    simp only [List.takeWhile_cons, hdec]
    rfl

/-- C27, amended: a line yields a record if and only if it is not blank,
does not contain `flat%`, splits into at least 7 fields and has a non-empty
processed name; a line with exactly 6 fields yields none; the record of a
line carries its processed name.  For a report all of whose lines are
shorter than 65536 bytes, the output is, in order, one record for each line
of the report that qualifies, so there are as many records as qualifying
lines; for every report the records are those of the lines the scanner
delivers, and every record of the output has a non-empty `Name`. -/
theorem line_yields_record_iff (env : Platform) (line : String) :
    ((lineRecord env line).isSome = true ↔
      stringsTrimSpace line ≠ "" ∧ stringsContains line "flat%" = false ∧
      7 ≤ (stringsFields line).length ∧ processedName line ≠ "") ∧
    ((stringsFields line).length = 6 → lineRecord env line = none) ∧
    (∀ r, lineRecord env line = some r → r.Name = processedName line ∧ r.Name ≠ "") ∧
    (∀ output, linesWithinLimit output →
      parseTextOutput env output = (reportLines output).filterMap (lineRecord env) ∧
      (parseTextOutput env output).length
        = (reportLines output).countP (fun l => (lineRecord env l).isSome)) ∧
    (∀ output, parseTextOutput env output = (scanLines output).filterMap (lineRecord env)) ∧
    (∀ output, ∀ r ∈ parseTextOutput env output, r.Name ≠ "") := by
  refine ⟨lineRecord_isSome_iff env line, fun h6 => ?_, fun r hr => ?_, fun output hlim => ?_,
    parseTextOutput_eq_filterMap env, fun output r hr => ?_⟩
  · cases hl : lineRecord env line with
    | none => rfl
    | some r =>
      have h7 := ((lineRecord_isSome_iff env line).1 (by rw [hl]; rfl)).2.2.1
      omega
  · obtain ⟨hp, hn⟩ := lineRecord_eq_some env line r hr
    refine ⟨?_, hn⟩
    by_cases h7 : 7 ≤ (stringsFields line).length
    · obtain ⟨info, hinfo, hname⟩ := parseFunctionLine_processedName env line h7
      rw [hinfo] at hp
      injection hp with hp
      rw [← hp]
      exact hname
    · rw [parseFunctionLine_short env line (by omega)] at hp
      exact absurd hp (by simp)
  · have he := parseTextOutput_of_linesWithinLimit env output hlim
    refine ⟨he, ?_⟩
    rw [he]
    exact length_filterMap_eq_countP _ _
  · rw [parseTextOutput_eq_filterMap] at hr
    obtain ⟨l, _, hl⟩ := List.mem_filterMap.1 hr
    exact (lineRecord_eq_some env l r hl).2

/-- Witness of C27, amended: the line `100% 1 2 3 4 100% main.run`
qualifies and yields a record; the line `1 2 3 4 5 6` has exactly 6 fields
and yields none, and so does a line of six columns with the name last; the
example report, whose lines are short, has eight lines of which six
qualify, and the output has six records. -/
theorem line_yields_record_iff_witness :
    (stringsTrimSpace fullShareLine ≠ "" ∧ stringsContains fullShareLine "flat%" = false ∧
      7 ≤ (stringsFields fullShareLine).length ∧ processedName fullShareLine ≠ "") ∧
    (lineRecord examplePlatform fullShareLine).isSome = true ∧
    (stringsFields "1 2 3 4 5 6").length = 6 ∧
    lineRecord examplePlatform "1 2 3 4 5 6" = none ∧
    (stringsFields "1.20s 30.00% 30.00% 1.50s 37.50% main.compute").length = 6 ∧
    lineRecord examplePlatform "1.20s 30.00% 30.00% 1.50s 37.50% main.compute" = none ∧
    linesWithinLimit exampleReport ∧
    (reportLines exampleReport).length = 8 ∧
    (parseTextOutput examplePlatform exampleReport).length = 6 ∧
    parseTextOutput examplePlatform exampleReport
      = (reportLines exampleReport).filterMap (lineRecord examplePlatform) := by
  have hlim : linesWithinLimit exampleReport := by
    unfold linesWithinLimit
    decide
  exact ⟨by decide,
    (line_yields_record_iff examplePlatform fullShareLine).1.2 (by decide),
    by decide,
    (line_yields_record_iff examplePlatform "1 2 3 4 5 6").2.1 (by decide),
    by decide,
    (line_yields_record_iff examplePlatform
      "1.20s 30.00% 30.00% 1.50s 37.50% main.compute").2.1 (by decide),
    hlim, by decide, by decide,
    ((line_yields_record_iff examplePlatform "").2.2.2.1 exampleReport hlim).1⟩

/-- C28: the analysis computed by `analyze_performance` never has the
low-priority Runtime Overhead suggestion.  The handler calls the wrapper
only as `ParseProfile filePath auto`; a successful result is the marshalled
analysis of an output parsed with kind auto; the summary of such an output
has `ProfileType` auto; the suggestions computed for it, and the list the
analysis stores under `optimizationSuggestions`, do not contain the runtime
suggestion. -/
theorem analyze_performance_never_suggests_runtime (env : Platform) (marshalIndent : Marshal)
    (args : Args) :
    (∀ call ∈ (handleAnalyzePerformance (NewWrapper env marshalIndent) marshalIndent args).calls,
      ∃ filePath, call = WrapperCall.ParseProfile filePath ProfileTypeAuto) ∧
    (∀ result,
      (handleAnalyzePerformance (NewWrapper env marshalIndent) marshalIndent args).ret
        = Ret.ok result →
      ∃ filePath output focus threshold text,
        ParseProfile env filePath ProfileTypeAuto = Ret.ok output ∧
        marshalIndent (JVal.obj (analyzeProfile output focus threshold)) = Except.ok text ∧
        result = some (textResult text none)) ∧
    (∀ filePath output, ParseProfile env filePath ProfileTypeAuto = Ret.ok output →
      output.Summary.ProfileType = ProfileTypeAuto ∧
      runtimeSuggestion ∉ generateSuggestions output.TopFunctions output.Summary.ProfileType ∧
      ∀ focus threshold suggestions,
        GoMap.get? (analyzeProfile output focus threshold) "optimizationSuggestions"
          = some (JVal.arr suggestions) →
        runtimeSuggestion ∉ suggestions) := by
  have hauto : ProfileTypeAuto ≠ ProfileTypeCPU := by decide
  refine ⟨?_, ?_, ?_⟩
  · intro call hcall
    unfold handleAnalyzePerformance at hcall
    simp only [NewWrapper] at hcall
    split at hcall
    · exact absurd hcall (List.not_mem_nil _)
    · split at hcall
      · exact ⟨_, List.mem_singleton.1 hcall⟩
      · exact ⟨_, List.mem_singleton.1 hcall⟩
      · split at hcall
        · exact ⟨_, List.mem_singleton.1 hcall⟩
        · exact ⟨_, List.mem_singleton.1 hcall⟩
  · intro result hret
    unfold handleAnalyzePerformance at hret
    simp only [NewWrapper] at hret
    split at hret
    · exact absurd hret (by simp)
    · split at hret
      · exact absurd hret (by simp)
      · exact absurd hret (by simp)
      · rename_i output hparse
        split at hret
        · exact absurd hret (by simp)
        · rename_i text hm
          injection hret with hret
          exact ⟨_, output, _, _, text, hparse, hm, hret.symm⟩
  · intro filePath output hparse
    have hpt := ParseProfile_profileType env filePath ProfileTypeAuto output hparse
    have hnot : runtimeSuggestion ∉
        generateSuggestions output.TopFunctions output.Summary.ProfileType :=
      runtimeSuggestion_not_mem _ _ (by rw [hpt]; exact hauto)
    refine ⟨hpt, hnot, ?_⟩
    intro focus threshold suggestions hget
    rw [analyzeProfile_get_suggestions] at hget
    split at hget
    · injection hget with hget
      injection hget with hget
      rw [← hget]
      exact hnot
    · exact absurd hget (by simp)

/-- Witness of C28: on a platform whose profiler prints the example
report for every argument vector, the output parsed with kind auto has a
summary of kind auto and no runtime suggestion. -/
theorem analyze_performance_never_suggests_runtime_witness :
    ParseProfile { examplePlatform with run := fun _ _ => Except.ok exampleReport }
        "cpu.prof" ProfileTypeAuto
      = Ret.ok
          { RawText := exampleReport
            Summary := { ProfileType := ProfileTypeAuto, SampleRate := 100 }
            TopFunctions := parseTextOutput examplePlatform exampleReport } ∧
    runtimeSuggestion ∉
      generateSuggestions (parseTextOutput examplePlatform exampleReport) ProfileTypeAuto :=
  ⟨rfl,
    ((analyze_performance_never_suggests_runtime
      { examplePlatform with run := fun _ _ => Except.ok exampleReport } exampleMarshal
      []).2.2 "cpu.prof" _ rfl).2.1⟩

/-- C29: the result of `analyzeProfile` does not depend on the focus: any
two focus values, `hotspots`, `bottlenecks` and `all` among them, give the
same analysis; and `analyze_performance` returns the same result and makes
the same wrapper calls whatever is stored under `focus` in its arguments. -/
theorem analyzeProfile_ignores_focus (output : PprofOutput) (threshold : F64)
    (focus1 focus2 : String) :
    analyzeProfile output focus1 threshold = analyzeProfile output focus2 threshold ∧
    analyzeProfile output "hotspots" threshold = analyzeProfile output "all" threshold ∧
    analyzeProfile output "bottlenecks" threshold = analyzeProfile output "all" threshold ∧
    (∀ (w : Wrapper) (marshalIndent : Marshal) (args : Args) (v : JVal),
      handleAnalyzePerformance w marshalIndent (GoMap.set args "focus" v)
        = handleAnalyzePerformance w marshalIndent args) := by
  refine ⟨rfl, rfl, rfl, ?_⟩
  intro w marshalIndent args v
  have h1 : Args.index (GoMap.set args "focus" v) "filePath" = Args.index args "filePath" := by
    rw [Args.index_set]; simp
  have h2 : Args.index (GoMap.set args "focus" v) "threshold"
      = Args.index args "threshold" := by
    rw [Args.index_set]; simp
  unfold handleAnalyzePerformance
  simp only [h1, h2]
  rfl

/-- C30: the truncation in `GetTopN` is not safe for a negative `n`: on
the example report, `GetTopN` with `n = -1` reaches `functions[:n]` with
`-1 < 0 <= len(functions)` and panics; the `tools/call` request for
`top_functions` with `topN` -1 makes `HandleRequest` panic, and the stdio
loop ends with the panic without writing a response. -/
theorem GetTopN_negative_n_panics :
    runPprof examplePlatform ["-top", "cpu.prof"] = Except.ok exampleReport ∧
    (parseTextOutput examplePlatform exampleReport).length = 6 ∧
    GetTopN examplePlatform "cpu.prof" (-1) = Ret.panic ∧
    (HandleRequest platformServer negativeTopN).ret = Ret.panic ∧
    (StdioTransport.Run quietEnv platformServer [Decoded.request negativeTopN]).ret = Ret.panic ∧
    (StdioTransport.Run quietEnv platformServer [Decoded.request negativeTopN]).written = [] := by
  have hrun : runPprof examplePlatform ["-top", "cpu.prof"] = Except.ok exampleReport := rfl
  have hpanic : GetTopN examplePlatform "cpu.prof" (-1) = Ret.panic :=
    GetTopN_negative examplePlatform "cpu.prof" exampleReport (-1) hrun (by decide)
  have hhandle : (HandleRequest platformServer negativeTopN).ret = Ret.panic := rfl
  refine ⟨hrun, by decide, hpanic, hhandle, ?_, ?_⟩
  · simp [StdioTransport.Run, runLoop, quietEnv, hhandle]
  · simp [StdioTransport.Run, runLoop, quietEnv, hhandle]

/-- C31, counterexample: the name `a/ b`, which the parser builds from the
fields `a/` and `b`, is cleaned to ` b`; cleaning ` b` gives `b`.  So
`cleanFunctionName` is not idempotent at `a/ b`, its result there starts
with white space, and the parser emits a record with the name ` b`. -/
theorem cleanFunctionName_not_idempotent :
    cleanFunctionName "a/ b" = " b" ∧
    cleanFunctionName (cleanFunctionName "a/ b") = "b" ∧
    cleanFunctionName (cleanFunctionName "a/ b") ≠ cleanFunctionName "a/ b" ∧
    startsWithSpace (cleanFunctionName "a/ b") ∧
    stringsJoin ((stringsFields "1 2 3 4 5 6 a/ b").drop 6) " " = "a/ b" ∧
    (parseTextOutput examplePlatform "1 2 3 4 5 6 a/ b").map FunctionInfo.Name = [" b"] := by
  refine ⟨by decide, by decide, by decide, ?_, by decide, by decide⟩
  unfold startsWithSpace
  decide

/-- C31, amended: a second application of `cleanFunctionName` only trims:
`cleanFunctionName (cleanFunctionName s)` is `strings.TrimSpace` of
`cleanFunctionName s`.  Hence `cleanFunctionName` is idempotent at `s`
exactly when `cleanFunctionName s` does not start with white space, which
is the case when the trimmed `s` has no `/` after its first byte; the
result never ends with white space; and from the second application on
the result no longer changes. -/
theorem cleanFunctionName_twice_is_trim (s : String) :
    cleanFunctionName (cleanFunctionName s) = stringsTrimSpace (cleanFunctionName s) ∧
    (cleanFunctionName (cleanFunctionName s) = cleanFunctionName s
      ↔ ¬ startsWithSpace (cleanFunctionName s)) ∧
    ¬ endsWithSpace (cleanFunctionName s) ∧
    (stringsLastIndex (stringsTrimSpace s) "/" ≤ 0 →
      cleanFunctionName (cleanFunctionName s) = cleanFunctionName s) ∧
    cleanFunctionName (cleanFunctionName (cleanFunctionName s))
      = cleanFunctionName (cleanFunctionName s) := by
  have hiff : ∀ t : String, cleanFunctionName (cleanFunctionName t) = cleanFunctionName t
      ↔ ¬ startsWithSpace (cleanFunctionName t) := by
    intro t
    rw [cleanFunctionName_twice]
    constructor
    · intro h
      rw [← h]
      exact not_startsWithSpace_trimSpace _
    · intro h
      exact stringsTrimSpace_of_trimmed _ h (not_endsWithSpace_cleanFunctionName t)
  refine ⟨cleanFunctionName_twice s, hiff s, not_endsWithSpace_cleanFunctionName s, ?_, ?_⟩
  · intro h
    apply (hiff s).2
    rcases cleanFunctionName_cases s with ⟨_, hc⟩ | ⟨j, hc, _⟩
    · rw [hc]
      exact not_startsWithSpace_trimSpace s
    · have hn : ¬ stringsLastIndex (stringsTrimSpace s) "/" > 0 := by omega
      unfold cleanFunctionName
      simp only [hn, if_false]
      exact not_startsWithSpace_trimSpace s
  · apply (hiff (cleanFunctionName s)).2
    rw [cleanFunctionName_twice]
    exact not_startsWithSpace_trimSpace _

/-- Witness of C31, amended: the name ` main.run ` has no `/`, and the
name `github.com/x/pkg.Func` is cleaned to `pkg.Func`, which does not start
with white space; `cleanFunctionName` is idempotent at both. -/
theorem cleanFunctionName_twice_is_trim_witness :
    stringsLastIndex (stringsTrimSpace " main.run ") "/" ≤ 0 ∧
    cleanFunctionName (cleanFunctionName " main.run ") = cleanFunctionName " main.run " ∧
    cleanFunctionName "github.com/x/pkg.Func" = "pkg.Func" ∧
    ¬ startsWithSpace (cleanFunctionName "github.com/x/pkg.Func") ∧
    cleanFunctionName (cleanFunctionName "github.com/x/pkg.Func")
      = cleanFunctionName "github.com/x/pkg.Func" :=
  ⟨by decide,
    (cleanFunctionName_twice_is_trim " main.run ").2.2.2.1 (by decide),
    by decide,
    by unfold startsWithSpace; decide,
    (cleanFunctionName_twice_is_trim "github.com/x/pkg.Func").2.1.2
      (by unfold startsWithSpace; decide)⟩

end McpPprof
